import Mathlib

/-!
AD5791 voltage source firmware.

A shallow embedding of `firmware/src/bsp/parameter.c` (the log-structured
parameter store kept in the last flash page of the MCU) and of
`firmware/src/app/hmi.c` (the menu engine), together with the properties
stated about them.

Conventions of the embedding:

* `uint32_t` words are natural numbers; the flash is a map from byte address
  to the 32-bit word stored at that (word aligned) address;
* a C `float` kept in a record is represented by its IEEE-754 binary32 bit
  pattern, because `parameter.c` only ever copies and compares records word by
  word;
* pointers into the parameter page are byte addresses, and the null pointer
  returned by `parameter_find_latest` is `none`.
-/

namespace AD5791

/-! ## bsp/parameter.h -/

/-- The macro `VALID_SIGNATURE`. -/
def VALID_SIGNATURE : Nat := 0x1234a55a

/-- The macro `HW_INFO(contrast, hw, sw)`. The argument `contrast` may be a
signed integer (`disp_contrast` is an `int16_t`); on a two's complement machine
`contrast & 0xff` is its residue modulo 256. -/
def HW_INFO (contrast : Int) (hw sw : Nat) : Nat :=
  ((contrast % 256).toNat <<< 24) ||| ((hw &&& 0xff) <<< 16) |||
    ((sw &&& 0xff) <<< 8) ||| (0 &&& 0xff)

/-- The record `struct _parameter`: four 32-bit words. `refer_voltage` is the
bit pattern of the C `float`. -/
structure _parameter where
  signature : Nat
  refer_voltage : Nat
  hw_info : Nat
  power_up_count : Nat
deriving DecidableEq, Repr

/-- Value of an IEEE-754 binary32 bit pattern (finite values only; the
patterns with exponent 255 are given the value 0). -/
def f32_value (bits : Nat) : ℚ :=
  let sign : ℚ := if bits / 2 ^ 31 % 2 = 1 then -1 else 1
  let e : Nat := bits / 2 ^ 23 % 256
  let m : Nat := bits % 2 ^ 23
  if e = 255 then 0
  else if e = 0 then sign * (m : ℚ) / 2 ^ 149
  else sign * (2 ^ 23 + (m : ℚ)) * 2 ^ e / 2 ^ 150

/-- A record whose four fields fit in 32 bits. -/
def _parameter.wf (p : _parameter) : Prop :=
  p.signature < 2 ^ 32 ∧ p.refer_voltage < 2 ^ 32 ∧ p.hw_info < 2 ^ 32 ∧
    p.power_up_count < 2 ^ 32

instance (p : _parameter) : Decidable p.wf := by
  unfold _parameter.wf; infer_instance

/-- The four words of a record in memory order. -/
def _parameter.words (p : _parameter) : List Nat :=
  [p.signature, p.refer_voltage, p.hw_info, p.power_up_count]

/-! ## bsp/parameter.c -/

/-- The macro `PARAMETER_PAGE_ADDR`: the last page of the stm32f070f6. -/
def PARAMETER_PAGE_ADDR : Nat := 0x08007c00

/-- The macro `PARAMETER_PAGE_SIZE`. -/
def PARAMETER_PAGE_SIZE : Nat := 1024

/-- The constant `default_parameter`; `0x41200000` is the `float` 10. -/
def default_parameter : _parameter :=
  { signature := VALID_SIGNATURE
    refer_voltage := 0x41200000
    hw_info := HW_INFO 90 0xb 0x10
    power_up_count := 0 }

/-- The flash device: its contents, and two counters recording how many page
erases and word programs it has performed. -/
structure Flash where
  mem : Nat → Nat
  erase_count : Nat
  program_count : Nat

/-- Modelled from the spec: `FLASH_ErasePage` of `stm32f0xx_flash.h`, which is
not part of the sources. Erasing restores the all-bits-set state of the whole
1 kB page starting at `page`. -/
def FLASH_ErasePage (fl : Flash) (page : Nat) : Flash :=
  { mem := fun a => if page ≤ a ∧ a < page + PARAMETER_PAGE_SIZE then 0xFFFFFFFF else fl.mem a
    erase_count := fl.erase_count + 1
    program_count := fl.program_count }

/-- Modelled from the spec: `FLASH_ProgramWord` of `stm32f0xx_flash.h`, which is
not part of the sources. Programming a word can only clear bits, so the word
read back is the conjunction of the old contents and the data. -/
def FLASH_ProgramWord (fl : Flash) (addr data : Nat) : Flash :=
  { mem := fun a => if a = addr then fl.mem a &&& (data % 2 ^ 32) else fl.mem a
    erase_count := fl.erase_count
    program_count := fl.program_count + 1 }

/-- The record stored at address `pflash`. -/
def read_parameter (mem : Nat → Nat) (pflash : Nat) : _parameter :=
  { signature := mem pflash
    refer_voltage := mem (pflash + 4)
    hw_info := mem (pflash + 8)
    power_up_count := mem (pflash + 12) }

/-- The `while` loop of `parameter_find_latest`, started with the pointer
`pflash`; the result is the pair `(b_found, pflash)` at loop exit. -/
def find_latest_loop (mem : Nat → Nat) (pflash : Nat) : Bool × Nat :=
  if pflash + 16 < PARAMETER_PAGE_ADDR + PARAMETER_PAGE_SIZE then
    if mem pflash = VALID_SIGNATURE then
      if mem (pflash + 16) ≠ VALID_SIGNATURE then (true, pflash)
      else find_latest_loop mem (pflash + 16)
    else (false, pflash)
  else (false, pflash)
termination_by PARAMETER_PAGE_ADDR + PARAMETER_PAGE_SIZE - pflash
decreasing_by omega

/-- The function `parameter_find_latest`: the address of the latest record, or
`none` for the null pointer. -/
def parameter_find_latest (mem : Nat → Nat) : Option Nat :=
  let r := find_latest_loop mem PARAMETER_PAGE_ADDR
  if r.1 then some r.2 else none

/-- The function `parameter_load` (called with a non-null `p`); the result is
the record copied to `*p`. -/
def parameter_load (fl : Flash) : _parameter :=
  match parameter_find_latest fl.mem with
  | none => default_parameter
  | some pflash => read_parameter fl.mem pflash

/-- The loop `for(i...) { FLASH_ProgramWord(dst, *psrc++); dst += 4; }` over the
words still to be written. -/
def program_words (fl : Flash) (dst : Nat) : List Nat → Flash
  | [] => fl
  | w :: ws => program_words (FLASH_ProgramWord fl dst w) (dst + 4) ws

/-- The function `parameter_save` (called with a non-null `p`). The calls
`FLASH_Unlock` and `FLASH_Lock` only open and close the controller around the
erase and the programming and are not modelled. -/
def parameter_save (p : _parameter) (fl : Flash) : Flash :=
  let target : Option Nat :=
    match parameter_find_latest fl.mem with
    | none => some PARAMETER_PAGE_ADDR
    | some pflash =>
      if (read_parameter fl.mem pflash).words = p.words then none
      else some (pflash + 16)
  match target with
  | none => fl
  | some pflash =>
    if pflash + 16 ≥ PARAMETER_PAGE_ADDR + PARAMETER_PAGE_SIZE then
      program_words (FLASH_ErasePage fl PARAMETER_PAGE_ADDR) PARAMETER_PAGE_ADDR p.words
    else
      program_words fl pflash p.words

/-- The effect of `parameter_save` when power is lost after the first `j` word
programs of its final loop: the same control flow, with the loop cut short. -/
def parameter_save_power_loss (j : Nat) (p : _parameter) (fl : Flash) : Flash :=
  let target : Option Nat :=
    match parameter_find_latest fl.mem with
    | none => some PARAMETER_PAGE_ADDR
    | some pflash =>
      if (read_parameter fl.mem pflash).words = p.words then none
      else some (pflash + 16)
  match target with
  | none => fl
  | some pflash =>
    if pflash + 16 ≥ PARAMETER_PAGE_ADDR + PARAMETER_PAGE_SIZE then
      program_words (FLASH_ErasePage fl PARAMETER_PAGE_ADDR) PARAMETER_PAGE_ADDR (p.words.take j)
    else
      program_words fl pflash (p.words.take j)

/-- Address of slot `i` of the parameter page. -/
def slot_addr (i : Nat) : Nat := PARAMETER_PAGE_ADDR + 16 * i

/-- The log invariant with a valid part of `k` slots: slots `0..k-1` carry the
signature, and every word of the slots `k..63` is erased. -/
def LogInv (mem : Nat → Nat) (k : Nat) : Prop :=
  k ≤ 63 ∧ (∀ i, i < k → mem (slot_addr i) = VALID_SIGNATURE) ∧
    (∀ i, i < 64 → k ≤ i → ∀ j, j < 4 → mem (slot_addr i + 4 * j) = 0xFFFFFFFF)

instance (mem : Nat → Nat) (k : Nat) : Decidable (LogInv mem k) := by
  unfold LogInv; infer_instance

/-- A flash whose parameter page is fully erased. -/
def erased_flash : Flash :=
  { mem := fun _ => 0xFFFFFFFF, erase_count := 0, program_count := 0 }

/-- Each record of the list differs from its predecessor. -/
def successive_differ : List _parameter → Prop
  | a :: b :: rest => a ≠ b ∧ successive_differ (b :: rest)
  | _ => True

instance successive_differ_decidable : ∀ rs, Decidable (successive_differ rs)
  | [] => isTrue (by simp [successive_differ])
  | [_] => isTrue (by simp [successive_differ])
  | a :: b :: rest =>
    have := successive_differ_decidable (b :: rest)
    decidable_of_iff (a ≠ b ∧ successive_differ (b :: rest)) (by simp [successive_differ])

/-- Saving a list of records one after the other. -/
def save_all (rs : List _parameter) (fl : Flash) : Flash :=
  rs.foldl (fun f r => parameter_save r f) fl

/-! ## Machine integers -/

/-- Conversion to `uint32_t`. -/
def to_u32 (x : Int) : Nat := (x % 2 ^ 32).toNat

/-- Conversion to `int32_t` (two's complement). -/
def to_i32 (x : Int) : Int := (x + 2 ^ 31) % 2 ^ 32 - 2 ^ 31

/-- Conversion to `int16_t` (two's complement). -/
def to_i16 (x : Int) : Int := (x + 2 ^ 15) % 2 ^ 16 - 2 ^ 15

/-! ## Binary64

A finite value of type `double` is the rational number it stands for, and an
operation on such values is the exact operation followed by the rounding of
IEEE 754 binary64 arithmetic (round to nearest, ties to even). -/

/-- Rounding of a rational number to the nearest integer, ties to the even
one. -/
def round_half_even (q : ℚ) : Int :=
  if q - ⌊q⌋ < 1 / 2 then ⌊q⌋
  else if 1 / 2 < q - ⌊q⌋ then ⌊q⌋ + 1
  else if ⌊q⌋ % 2 = 0 then ⌊q⌋ else ⌊q⌋ + 1

/-- Conversion to `double`: the nearest number with a significand of 53 bits
and an exponent not below that of the subnormal numbers, ties to the even
significand. A value beyond the largest `double`, which is infinite in C, is
rounded as if the exponent had no upper limit. -/
def to_f64 (x : ℚ) : ℚ :=
  if x = 0 then 0
  else
    (round_half_even (x / 2 ^ max (Int.log 2 |x| - 52) (-1074)) : ℚ) *
      2 ^ max (Int.log 2 |x| - 52) (-1074)

/-! ## bsp/ad5791.c

The `double` and `float` values of the driver are taken as exact rationals.
The serial transfer to the chip (`ad5791_send24b`) has no effect on the state
of the program and is not modelled. -/

/-- The static variables of `ad5791.c`. -/
structure Dac where
  dac_code20b : Nat
  vref_volt : ℚ

/-- The function `ad5791_write_data`. -/
def ad5791_write_data (d : Dac) (data : Nat) : Dac := { d with dac_code20b := data }

/-- The function `ad5791_set_volt`: the new driver state and the voltage
returned. The conversion of the quotient to `uint32_t` truncates; it is
undefined in C when the value is negative or does not fit, where the model
yields 0 or the residue modulo 2^32. -/
def ad5791_set_volt (d : Dac) (volt : ℚ) : Dac × ℚ :=
  let code : Nat := (Int.toNat ⌊volt / d.vref_volt * 0xfffff + 1 / 2⌋) % 2 ^ 32
  let code : Nat := if code > 0xfffff then 0xfffff else code
  let d1 := ad5791_write_data d code
  let code : Nat := code &&& 0xfffff
  (d1, (code : ℚ) * d1.vref_volt / 0xfffff)

/-- The function `ad5791_set_code`: the new driver state and the voltage
returned. -/
def ad5791_set_code (d : Dac) (code : Nat) : Dac × ℚ :=
  let d1 := ad5791_write_data d (code &&& 0xfffff)
  (d1, (code : ℚ) * d1.vref_volt / 0xfffff)

/-- The function `ad5791_get_code`, returning an `int32_t`. -/
def ad5791_get_code (d : Dac) : Int := to_i32 d.dac_code20b

/-- The function `ad5791_get_vref`. -/
def ad5791_get_vref (d : Dac) : ℚ := d.vref_volt

/-- The function `ad5791_set_vref`. -/
def ad5791_set_vref (d : Dac) (volt : ℚ) : Dac := { d with vref_volt := volt }

/-! ## app/hmi.c

Calls to the display (`ezled_*`, `sprintf`) and to the log have no effect on
the state of the program and are not modelled. Each of `menu_navigate`,
`hmi_timer`, `menu_refresh` and `hmi_disp_update` is one atomic step. -/

/-- What `hmi.c` uses and the sources do not define: the key codes of `key.h`,
the function `voltref_set_value` (only declared in `hmi.c`) acting on the DAC
driver, and the conversion of a value to the bit pattern of a `float`. -/
structure Env where
  KEY_OK : Nat
  KEY_PRESS_L : Nat
  voltref_set_value : Dac → ℚ → Dac × ℚ
  float_bits : ℚ → Nat

def MENU_LEVEL_ROOT : Int := 0
def MENU_LEVEL_SHOW_MENU : Int := 1
def MENU_LEVEL_SHOW_VALUE : Int := 2
def MENU_LEVEL_ADJ_VALUE : Int := 3

def MAIN_MENU_SET_VOLT : Int := 0
def MAIN_MENU_SET_CODE : Int := 1
def MAIN_MENU_CAL_VREF : Int := 2
def MAIN_MENU_SHOW_TEMP : Int := 3
def MAIN_MENU_SET_CONTRAST : Int := 4
def MAIN_MENU_SHOW_VERSION : Int := 5
def MAIN_MENU_SHOW_POWERUP_COUNT : Int := 6

/-- The static variables of `hmi.c`, the state of the DAC driver, the flash
device, and the list of the records passed to `parameter_save` so far. -/
structure Hmi where
  volt_set : ℚ
  volt_disp : ℚ
  volt_vref : ℚ
  board_temp : ℚ
  code_set : Int
  disp_contrast : Int
  hw_version : Nat
  sw_version : Nat
  power_up_count : Nat
  main_menu : Int
  sub_menu : Int
  menu_level : Int
  b_auto_refresh : Bool
  b_refresh_menu : Bool
  menu_exit_timer : Nat
  dac : Dac
  flash : Flash
  saved : List _parameter

/-- The function `hmi_timer`. -/
def hmi_timer (s : Hmi) : Hmi :=
  let s := if s.b_auto_refresh then { s with b_refresh_menu := true } else s
  let s := { s with menu_exit_timer := (s.menu_exit_timer + 1) % 2 ^ 16 }
  if s.menu_exit_timer = 60 / 2 then
    let s := { s with menu_exit_timer := 0 }
    if s.menu_level = MENU_LEVEL_SHOW_MENU then
      { s with main_menu := 0, sub_menu := 0, menu_level := MENU_LEVEL_ROOT,
               b_refresh_menu := true }
    else s
  else s

/-- The loop `while(y--) res *= x;` of `ipow`. -/
def ipow_loop (x : Nat) : Nat → Nat → Nat
  | 0, res => res
  | y + 1, res => ipow_loop x y (res * x % 2 ^ 32)

/-- The function `ipow` on `uint32_t`. -/
def ipow (x y : Nat) : Nat :=
  if y = 0 then 1
  else if y = 1 then x
  else ipow_loop x (y - 1) x

/-- The function `float_adjust`, in `double` arithmetic: the literal `1e-6`, its
product with the result of `ipow` (a `uint32_t`, exact as a `double`), the
product with the encoder delta and the sum with the value are each rounded by
`to_f64`. With finite arguments none of them leaves the range of `double`. -/
def float_adjust (value max : ℚ) (encoder position : Int) : ℚ :=
  let scale : ℚ := to_f64 (1 / 1000000)
  let delta : ℚ :=
    to_f64 (to_f64 (scale * (ipow 10 (to_u32 (6 - position)) : ℚ)) * (encoder : ℚ))
  let delta : ℚ := to_f64 (delta + value)
  let value : ℚ := if delta ≤ max then delta else value
  if value < 0 then 0 else value

/-- The function `hex5_adjust`. The product is formed in `uint32_t` and
converted to `int32_t`; the comparison `delta <= max` is made in `uint32_t`. -/
def hex5_adjust (value : Int) (max : Nat) (encoder position : Int) : Int :=
  let position : Int := if position > 4 then 4 else position
  let delta : Int := to_i32 ((ipow 16 (to_u32 (4 - position)) * to_u32 encoder % 2 ^ 32 : Nat) : Int)
  let delta : Int := to_i32 (delta + value)
  let value : Int := if to_u32 delta ≤ max then delta else value
  if value < 0 then 0 else value

/-- The function `on_key_set_volt`. -/
def on_key_set_volt (env : Env) (encoder : Int) (s : Hmi) : Hmi :=
  if s.menu_level = MENU_LEVEL_ADJ_VALUE then
    let s := { s with volt_set := float_adjust s.volt_set s.volt_vref encoder s.sub_menu }
    let r := env.voltref_set_value s.dac s.volt_set
    { s with dac := r.1, volt_disp := r.2 }
  else s

/-- The function `on_key_set_code`. -/
def on_key_set_code (_env : Env) (encoder : Int) (s : Hmi) : Hmi :=
  if s.menu_level = MENU_LEVEL_ADJ_VALUE then
    let s := { s with code_set := hex5_adjust s.code_set 0xfffff encoder s.sub_menu }
    let r := ad5791_set_code s.dac (to_u32 s.code_set)
    { s with dac := r.1, volt_disp := r.2 }
  else s

/-- The function `on_key_cal_reference`. -/
def on_key_cal_reference (_env : Env) (encoder : Int) (s : Hmi) : Hmi :=
  if s.menu_level = MENU_LEVEL_ADJ_VALUE then
    let s := { s with volt_vref := float_adjust s.volt_vref 15 encoder s.sub_menu }
    let s := { s with dac := ad5791_set_vref s.dac s.volt_vref }
    let r := ad5791_set_code s.dac (to_u32 (ad5791_get_code s.dac))
    { s with dac := r.1, volt_disp := r.2 }
  else s

/-- The function `on_key_show_temperature`. -/
def on_key_show_temperature (_env : Env) (_encoder : Int) (s : Hmi) : Hmi :=
  if s.menu_level ≠ MENU_LEVEL_SHOW_MENU then
    { s with menu_level := MENU_LEVEL_ROOT, b_refresh_menu := true }
  else s

/-- The function `on_key_set_contrast`. -/
def on_key_set_contrast (_env : Env) (encoder : Int) (s : Hmi) : Hmi :=
  if s.menu_level = MENU_LEVEL_SHOW_MENU then s
  else
    let s := { s with disp_contrast := to_i16 (s.disp_contrast + 10 * encoder) }
    if s.disp_contrast < 10 then { s with disp_contrast := 10 }
    else if s.disp_contrast > 90 then { s with disp_contrast := 90 }
    else s

/-- The function `on_key_powerup_count`. -/
def on_key_powerup_count (_env : Env) (_encoder : Int) (s : Hmi) : Hmi :=
  if s.menu_level ≠ MENU_LEVEL_SHOW_MENU then
    { s with menu_level := MENU_LEVEL_ROOT, b_refresh_menu := true }
  else s

/-- The function `on_key_show_version`. -/
def on_key_show_version (_env : Env) (_encoder : Int) (s : Hmi) : Hmi :=
  if s.menu_level ≠ MENU_LEVEL_SHOW_MENU then
    { s with menu_level := MENU_LEVEL_ROOT, b_refresh_menu := true }
  else s

/-- The function `on_refresh_cal_reference`, as far as it changes the state. -/
def on_refresh_cal_reference (_sample : Option ℚ) (s : Hmi) : Hmi :=
  if s.menu_level = MENU_LEVEL_SHOW_MENU then s
  else { s with volt_vref := ad5791_get_vref s.dac }

/-- The function `on_refresh_show_temperature`, as far as it changes the state:
`adt7420_get_tmp` stores a new sample of the sensor when there is one. -/
def on_refresh_show_temperature (sample : Option ℚ) (s : Hmi) : Hmi :=
  match sample with
  | some t => { s with board_temp := t }
  | none => s

/-- The other `on_refresh_*` functions only print. -/
def on_refresh_print (_sample : Option ℚ) (s : Hmi) : Hmi := s

/-- The type `struct _menu`. -/
structure _menu where
  name : String
  cursor_start : Nat
  menu_count : Nat
  on_key : Env → Int → Hmi → Hmi
  on_refresh : Option ℚ → Hmi → Hmi

/-- The table `hmi_menu`. -/
def hmi_menu : List _menu :=
  [ { name := "1. sEt uOLt", cursor_start := 2, menu_count := 7,
      on_key := on_key_set_volt, on_refresh := on_refresh_print },
    { name := "2. sEt CODE", cursor_start := 3, menu_count := 5,
      on_key := on_key_set_code, on_refresh := on_refresh_print },
    { name := "3. CAL rEF", cursor_start := 2, menu_count := 7,
      on_key := on_key_cal_reference, on_refresh := on_refresh_cal_reference },
    { name := "4. tP ", cursor_start := 0xff, menu_count := 0xff,
      on_key := on_key_show_temperature, on_refresh := on_refresh_show_temperature },
    { name := "5. sEt CONt.", cursor_start := 5, menu_count := 1,
      on_key := on_key_set_contrast, on_refresh := on_refresh_print },
    { name := "6. Up COUNt", cursor_start := 0xff, menu_count := 0xff,
      on_key := on_key_powerup_count, on_refresh := on_refresh_print },
    { name := "7. About", cursor_start := 2, menu_count := 2,
      on_key := on_key_show_version, on_refresh := on_refresh_print } ]

/-- The macro `MAIN_MENU_COUNT`. -/
def MAIN_MENU_COUNT : Nat := hmi_menu.length

/-- The entry `hmi_menu[i]`. An index outside the table is undefined behaviour
in C; the model then yields an entry whose handlers do nothing. -/
def menu_entry (i : Int) : _menu :=
  if 0 ≤ i then
    hmi_menu.getD i.toNat
      { name := "", cursor_start := 0xff, menu_count := 0xff,
        on_key := fun _ _ s => s, on_refresh := fun _ s => s }
  else
    { name := "", cursor_start := 0xff, menu_count := 0xff,
      on_key := fun _ _ s => s, on_refresh := fun _ s => s }

/-- The function `menu_refresh`, as far as it changes the state; `sample` is
what the temperature sensor would deliver if it were read. -/
def menu_refresh (sample : Option ℚ) (s : Hmi) : Hmi :=
  if ¬ s.b_refresh_menu then s
  else
    let s := { s with b_refresh_menu := false }
    if s.menu_level = MENU_LEVEL_ROOT then s
    else (menu_entry s.main_menu).on_refresh sample s

/-- The record that a long press hands to `parameter_save`
(lines 422 to 426 of `hmi.c`). -/
def commit_record (env : Env) (s : Hmi) : _parameter :=
  { signature := VALID_SIGNATURE
    hw_info := HW_INFO s.disp_contrast s.hw_version s.sw_version
    power_up_count := s.power_up_count
    refer_voltage := env.float_bits (s.volt_vref - 10) }

/-- The block `if(encoder){ ... }` of `menu_navigate` up to the call of the
`on_key` handler: the adjustment of the indices by the encoder. -/
def navigate_encoder (encoder : Int) (s : Hmi) : Hmi :=
  if s.menu_level = MENU_LEVEL_ROOT then
    if encoder > 0 then
      { s with menu_level := to_i16 (s.menu_level + 1), main_menu := 0, sub_menu := 0 }
    else s
  else if s.menu_level = MENU_LEVEL_SHOW_MENU then
    let s := { s with main_menu := to_i16 (s.main_menu + encoder) }
    if s.main_menu < 0 then
      { s with main_menu := 0, menu_level := to_i16 (s.menu_level - 1) }
    else if to_u32 s.main_menu ≥ MAIN_MENU_COUNT then
      { s with main_menu := (MAIN_MENU_COUNT : Int) - 1 }
    else s
  else if s.menu_level = MENU_LEVEL_SHOW_VALUE then
    if (menu_entry s.main_menu).cursor_start = 0xff then s
    else
      let s := { s with sub_menu := to_i16 (s.sub_menu + encoder) }
      if s.sub_menu < 0 then { s with sub_menu := 0 }
      else if s.sub_menu ≥ ((menu_entry s.main_menu).menu_count : Int) then
        { s with sub_menu := ((menu_entry s.main_menu).menu_count : Int) - 1 }
      else s
  else s

/-- Lines 402 to 405 of `menu_navigate`: any activity clears the exit timer and
asks for a redraw. -/
def navigate_activity (encoder : Int) (key : Nat) (s : Hmi) : Hmi :=
  if encoder ≠ 0 ∨ key ≠ 0 then
    { s with menu_exit_timer := 0, b_refresh_menu := true }
  else s

/-- Lines 408 to 472 of `menu_navigate`: short press, long press, encoder. -/
def navigate_input (env : Env) (encoder : Int) (key : Nat) (s : Hmi) : Hmi :=
  if key = env.KEY_OK then
    if s.menu_level = MENU_LEVEL_ADJ_VALUE then
      { s with menu_level := MENU_LEVEL_SHOW_VALUE }
    else
      let s := if s.menu_level = MENU_LEVEL_SHOW_MENU then { s with sub_menu := 0 } else s
      { s with menu_level := to_i16 (s.menu_level + 1) }
  else if key = (env.KEY_OK ||| env.KEY_PRESS_L) then
    let s :=
      if s.menu_level = MENU_LEVEL_SHOW_VALUE ∨ s.menu_level = MENU_LEVEL_ADJ_VALUE then
        { s with flash := parameter_save (commit_record env s) s.flash,
                 saved := s.saved ++ [commit_record env s] }
      else s
    { s with menu_level := MENU_LEVEL_ROOT }
  else if encoder ≠ 0 then
    let s := navigate_encoder encoder s
    (menu_entry s.main_menu).on_key env encoder s
  else s

/-- Lines 473 to 484 of `menu_navigate`: the periodic refresh is wanted on the
two screens of the temperature item. -/
def navigate_auto_refresh (s : Hmi) : Hmi :=
  let s := { s with b_auto_refresh := false }
  if s.menu_level = MENU_LEVEL_SHOW_VALUE then
    if s.main_menu = MAIN_MENU_SHOW_TEMP then { s with b_auto_refresh := true } else s
  else if s.menu_level = MENU_LEVEL_SHOW_MENU then
    if s.main_menu = MAIN_MENU_SHOW_TEMP then { s with b_auto_refresh := true } else s
  else s

/-- The function `menu_navigate`. -/
def menu_navigate (env : Env) (encoder : Int) (key : Nat) (s : Hmi) : Hmi :=
  navigate_auto_refresh (navigate_input env encoder key (navigate_activity encoder key s))

/-- The function `hmi_disp_update`. -/
def hmi_disp_update (volt : ℚ) (s : Hmi) : Hmi :=
  { s with b_refresh_menu := true, volt_disp := volt, volt_set := volt }

/-- The entry points through which the state of `hmi.c` changes after
initialisation. -/
inductive Event where
  | navigate (encoder : Int) (key : Nat)
  | tick
  | refresh (sample : Option ℚ)
  | disp_update (volt : ℚ)

/-- An event is well formed when the encoder delta is an `int8_t` and the key
code a `uint8_t`. -/
def Event.wf : Event → Prop
  | Event.navigate encoder key => -128 ≤ encoder ∧ encoder ≤ 127 ∧ key < 256
  | _ => True

instance (e : Event) : Decidable e.wf := by
  cases e <;> unfold Event.wf <;> infer_instance

/-- One step of the program. -/
def step (env : Env) (s : Hmi) : Event → Hmi
  | Event.navigate encoder key => menu_navigate env encoder key s
  | Event.tick => hmi_timer s
  | Event.refresh sample => menu_refresh sample s
  | Event.disp_update volt => hmi_disp_update volt s

/-- The state after a sequence of events. -/
def run (env : Env) (s : Hmi) (evs : List Event) : Hmi :=
  evs.foldl (step env) s

/-- The menu variables have their static initial values. -/
def menu_initial (s : Hmi) : Prop :=
  s.main_menu = 0 ∧ s.sub_menu = 0 ∧ s.menu_level = 0 ∧ s.b_auto_refresh = false ∧
    s.b_refresh_menu = true ∧ s.menu_exit_timer = 0

instance (s : Hmi) : Decidable (menu_initial s) := by
  unfold menu_initial; infer_instance

/-- The invariant of the menu variables: the level is one of the four levels,
the main index is inside the table, and while a value is shown or edited the
sub index is inside the fields of an adjustable item. -/
def menu_inv (s : Hmi) : Prop :=
  0 ≤ s.menu_level ∧ s.menu_level ≤ 3 ∧ 0 ≤ s.main_menu ∧ s.main_menu ≤ 6 ∧
    0 ≤ s.sub_menu ∧ s.sub_menu ≤ 6 ∧
    ((s.menu_level = MENU_LEVEL_SHOW_VALUE ∨ s.menu_level = MENU_LEVEL_ADJ_VALUE) →
      (menu_entry s.main_menu).cursor_start ≠ 0xff →
      s.sub_menu < ((menu_entry s.main_menu).menu_count : Int))

/-- The state of the program given by the static initialisers of `hmi.c` and
`ad5791.c`, with an erased parameter page. -/
def hmi_initial : Hmi :=
  { volt_set := 0, volt_disp := 0, volt_vref := 0, board_temp := 0, code_set := 0,
    disp_contrast := 90, hw_version := 0xB, sw_version := 0x10, power_up_count := 0,
    main_menu := 0, sub_menu := 0, menu_level := 0, b_auto_refresh := false,
    b_refresh_menu := true, menu_exit_timer := 0,
    dac := { dac_code20b := 0, vref_volt := 10091741325 / 1000000000 },
    flash := erased_flash, saved := [] }

/-- An environment used to evaluate examples: key codes 1 and 0x80,
`voltref_set_value` handing the voltage to the DAC driver, and a constant
`float` conversion. -/
def sample_env : Env :=
  { KEY_OK := 1, KEY_PRESS_L := 0x80, voltref_set_value := ad5791_set_volt,
    float_bits := fun _ => 0 }

/-- The 63 records used to fill the page: signed, numbered by their power-up
count. -/
def fill_records : List _parameter :=
  (List.range 63).map (fun i => { signature := VALID_SIGNATURE, refer_voltage := 0x41200000,
                                  hw_info := 0x5A0B1000, power_up_count := i })

/-- The events of a session that leaves the sub index outside the active item:
enter the menu, show the voltage, move the cursor to its last field, commit with
a long press, re-enter the menu with a short press and turn to the code item. -/
def stale_cursor_events : List Event :=
  [Event.navigate 1 0, Event.navigate 0 sample_env.KEY_OK, Event.navigate 6 0,
    Event.navigate 0 (sample_env.KEY_OK ||| sample_env.KEY_PRESS_L),
    Event.navigate 0 sample_env.KEY_OK, Event.navigate 1 0]

/-- The two states hold the same instrument values: voltages, temperature,
code, contrast, versions, power-up count, DAC driver, flash and saved records. -/
def same_instrument (s t : Hmi) : Prop :=
  t.volt_set = s.volt_set ∧ t.volt_disp = s.volt_disp ∧ t.volt_vref = s.volt_vref ∧
    t.board_temp = s.board_temp ∧ t.code_set = s.code_set ∧
    t.disp_contrast = s.disp_contrast ∧ t.hw_version = s.hw_version ∧
    t.sw_version = s.sw_version ∧ t.power_up_count = s.power_up_count ∧
    t.dac = s.dac ∧ t.flash = s.flash ∧ t.saved = s.saved

/-- The events of a session that ends at the root level with the sub index at
6: enter the menu, show the voltage, move the cursor to its last field, commit
with a long press. -/
def root_stale_events : List Event :=
  [Event.navigate 1 0, Event.navigate 0 sample_env.KEY_OK, Event.navigate 6 0,
    Event.navigate 0 (sample_env.KEY_OK ||| sample_env.KEY_PRESS_L)]

/-- The events of a session that shows the temperature: enter the menu, turn to
the temperature item, short press. -/
def show_temperature_events : List Event :=
  [Event.navigate 1 0, Event.navigate 3 0, Event.navigate 0 sample_env.KEY_OK]

/-- The function `hmi_init`, as far as it changes the state: the set-up of the
keys, of the display and of the timer is not modelled, and `sample` is what the
temperature sensor delivers. -/
def hmi_init (sample : Option ℚ) (s : Hmi) : Hmi :=
  let parameter := parameter_load s.flash
  let parameter :=
    { parameter with power_up_count := (parameter.power_up_count + 1) % 2 ^ 32 }
  let s := { s with flash := parameter_save parameter s.flash,
                    saved := s.saved ++ [parameter] }
  let s := { s with dac := ad5791_set_vref s.dac (f32_value parameter.refer_voltage + 10) }
  let s := { s with power_up_count := parameter.power_up_count % 2 ^ 16 }
  let s := { s with disp_contrast := (((parameter.hw_info >>> 24) &&& 0xff : Nat) : Int) }
  let s := { s with hw_version := (parameter.hw_info >>> 16) &&& 0xff }
  let s := { s with sw_version := (parameter.hw_info >>> 8) &&& 0xff }
  let r := ad5791_set_volt s.dac s.volt_set
  let s := { s with dac := r.1, volt_disp := r.2 }
  let s := { s with volt_vref := ad5791_get_vref s.dac }
  let s := { s with code_set := ad5791_get_code s.dac }
  match sample with
  | some t => { s with board_temp := t }
  | none => s

/-- The state after `hmi_init` on a device whose parameter page is erased: the
default record with a power-up count of 1 has been saved, and the reference
voltage is 10 + 10. -/
def hmi_booted : Hmi :=
  { volt_set := 0, volt_disp := 0, volt_vref := 20, board_temp := 0, code_set := 0,
    disp_contrast := 90, hw_version := 0xB, sw_version := 0x10, power_up_count := 1,
    main_menu := 0, sub_menu := 0, menu_level := 0, b_auto_refresh := false,
    b_refresh_menu := true, menu_exit_timer := 0,
    dac := { dac_code20b := 0, vref_volt := 20 },
    flash := parameter_save { default_parameter with power_up_count := 1 } erased_flash,
    saved := [{ default_parameter with power_up_count := 1 }] }

/-- Modelled from the spec: the function `voltref_set_value`, which `hmi.c`
declares and calls and whose body is not among the sources. The spec says of
the edit of the output voltage that it "recomputes and re-applies the DAC output
from the adjusted voltage": the voltage is handed to `ad5791_set_volt` of the
DAC driver, and the voltage that the driver returns is the result. -/
def voltref_set_value (d : Dac) (volt : ℚ) : Dac × ℚ := ad5791_set_volt d volt

/-- The events of a session that edits the voltage and then the code: turn the
first field of the voltage up by one, commit, turn to the code item and turn its
first field up by one. -/
def code_drift_events : List Event :=
  [Event.navigate 1 0, Event.navigate 0 sample_env.KEY_OK, Event.navigate 0 sample_env.KEY_OK,
    Event.navigate 1 0,
    Event.navigate 0 (sample_env.KEY_OK ||| sample_env.KEY_PRESS_L),
    Event.navigate 1 0, Event.navigate 1 0,
    Event.navigate 0 sample_env.KEY_OK, Event.navigate 0 sample_env.KEY_OK,
    Event.navigate 1 0]

/-- The state of that session after its first `n` events. -/
def code_drift_state (n : Nat) : Hmi :=
  run sample_env hmi_booted (code_drift_events.take n)

/-- The events of a session that returns to the root level from the contrast
item: enter the menu, turn to the contrast item, and commit with a long
press. -/
def root_contrast_events : List Event :=
  [Event.navigate 1 0, Event.navigate 4 0,
    Event.navigate 0 (sample_env.KEY_OK ||| sample_env.KEY_PRESS_L)]

/-- The events of a session that leaves the menu by the idle timeout on the
temperature item: enter the menu, turn to the temperature item, let 30 ticks of
`hmi_timer` pass without input, and redraw. -/
def idle_on_temperature_events : List Event :=
  [Event.navigate 1 0, Event.navigate 3 0] ++ List.replicate 30 Event.tick ++
    [Event.refresh none]

/-- The events of a session that stays in the menu until the tick before the
idle timeout: enter the menu, let 29 ticks of `hmi_timer` pass without input,
and redraw. -/
def idle_in_menu_events : List Event :=
  [Event.navigate 1 0] ++ List.replicate 29 Event.tick ++ [Event.refresh none]

/-- The tick of `hmi_timer` from the state `s` is one on which the idle timeout
leaves the temperature item: the level is MENU_SELECT, the main index is that of
the temperature item, and the counter reaches `60/2`. -/
def timeout_on_temperature (s : Hmi) : Prop :=
  s.menu_level = MENU_LEVEL_SHOW_MENU ∧ s.main_menu = MAIN_MENU_SHOW_TEMP ∧
    (s.menu_exit_timer + 1) % 2 ^ 16 = 60 / 2

instance (s : Hmi) : Decidable (timeout_on_temperature s) := by
  unfold timeout_on_temperature; infer_instance

/-- Whether, at the end of the sequence of events run from the state `s`, an
idle timeout on the temperature item has happened with no call of
`menu_navigate` after it; `b` says whether that is so before the sequence. -/
def timeout_since_input (env : Env) : Bool → Hmi → List Event → Bool
  | b, _, [] => b
  | b, s, ev :: evs =>
    timeout_since_input env
      (match ev with
        | Event.navigate _ _ => false
        | Event.tick => b || decide (timeout_on_temperature s)
        | _ => b)
      (step env s ev) evs

/-- The events of a session that lets the idle timeout pass on the temperature
item and then gives an input: the events of `idle_on_temperature_events`, a long
press, and a redraw. -/
def input_after_timeout_events : List Event :=
  idle_on_temperature_events ++
    [Event.navigate 0 (sample_env.KEY_OK ||| sample_env.KEY_PRESS_L), Event.refresh none]

end AD5791

namespace AD5791

/-! ## Lemmas on the flash device and the scan -/

theorem and_erased_word (w : Nat) (h : w < 2 ^ 32) : 0xFFFFFFFF &&& (w % 2 ^ 32) = w := by
  rw [Nat.mod_eq_of_lt h, Nat.and_comm]
  have h2 := Nat.and_pow_two_sub_one_eq_mod w 32
  rw [Nat.mod_eq_of_lt h] at h2
  simpa using h2

theorem words_eq_iff (p q : _parameter) : p.words = q.words ↔ p = q := by
  cases p; cases q; simp [_parameter.words]

theorem erased_ne_signature : (0xFFFFFFFF : Nat) ≠ VALID_SIGNATURE := by
  decide

/-- The scan stops at once on a page whose first slot is not signed. -/
theorem find_latest_unsigned (mem : Nat → Nat) (h : mem PARAMETER_PAGE_ADDR ≠ VALID_SIGNATURE) :
    parameter_find_latest mem = none := by
  unfold parameter_find_latest
  rw [find_latest_loop]
  simp [h]

/-- The scan started at a slot of the valid part ends on its last slot. -/
theorem find_latest_loop_inv (mem : Nat → Nat) (k : Nat) (h : LogInv mem k) :
    ∀ d i, i + d + 1 = k → find_latest_loop mem (slot_addr i) = (true, slot_addr (k - 1)) := by
  obtain ⟨hk, hv, he⟩ := h
  intro d
  induction d with
  | zero =>
    intro i hi
    have h1 : slot_addr i + 16 < PARAMETER_PAGE_ADDR + PARAMETER_PAGE_SIZE := by
      simp only [slot_addr, PARAMETER_PAGE_ADDR, PARAMETER_PAGE_SIZE]; omega
    have h2 : mem (slot_addr i) = VALID_SIGNATURE := hv i (by omega)
    have h3 : mem (slot_addr i + 16) ≠ VALID_SIGNATURE := by
      have h4 := he k (by omega) (le_refl k) 0 (by omega)
      have h5 : slot_addr i + 16 = slot_addr k + 4 * 0 := by
        simp only [slot_addr]; omega
      rw [h5, h4]; exact erased_ne_signature
    have h6 : k - 1 = i := by omega
    rw [find_latest_loop, if_pos h1, if_pos h2, if_pos h3, h6]
  | succ d ih =>
    intro i hi
    have h1 : slot_addr i + 16 < PARAMETER_PAGE_ADDR + PARAMETER_PAGE_SIZE := by
      simp only [slot_addr, PARAMETER_PAGE_ADDR, PARAMETER_PAGE_SIZE]; omega
    have h2 : mem (slot_addr i) = VALID_SIGNATURE := hv i (by omega)
    have h5 : slot_addr i + 16 = slot_addr (i + 1) := by
      simp only [slot_addr]; omega
    have h3 : ¬ mem (slot_addr i + 16) ≠ VALID_SIGNATURE := by
      rw [h5]; simpa using hv (i + 1) (by omega)
    rw [find_latest_loop, if_pos h1, if_pos h2, if_neg h3, h5]
    exact ih (i + 1) (by omega)

theorem find_latest_inv (mem : Nat → Nat) (k : Nat) (h : LogInv mem k) (hk : 1 ≤ k) :
    parameter_find_latest mem = some (slot_addr (k - 1)) := by
  have h0 := find_latest_loop_inv mem k h (k - 1) 0 (by omega)
  have h1 : slot_addr 0 = PARAMETER_PAGE_ADDR := by simp [slot_addr]
  rw [h1] at h0
  simp [parameter_find_latest, h0]

theorem find_latest_inv_zero (mem : Nat → Nat) (h : LogInv mem 0) :
    parameter_find_latest mem = none := by
  apply find_latest_unsigned
  have h4 := h.2.2 0 (by omega) (le_refl 0) 0 (by omega)
  have h5 : slot_addr 0 + 4 * 0 = PARAMETER_PAGE_ADDR := by simp [slot_addr]
  rw [h5] at h4
  rw [h4]; exact erased_ne_signature

/-! ## Lemmas on programming a slot -/

theorem program_words_mem_outside (ws : List Nat) : ∀ (fl : Flash) (dst x : Nat),
    (x < dst ∨ dst + 4 * ws.length ≤ x) → (program_words fl dst ws).mem x = fl.mem x := by
  induction ws with
  | nil => intro fl dst x _; rfl
  | cons w ws ih =>
    intro fl dst x hx
    simp only [program_words, List.length_cons] at *
    rw [ih (FLASH_ProgramWord fl dst w) (dst + 4) x (by omega)]
    have hne : x ≠ dst := by omega
    simp [FLASH_ProgramWord, hne]

theorem program_words_mem_at (ws : List Nat) : ∀ (fl : Flash) (dst i : Nat) (hi : i < ws.length),
    (program_words fl dst ws).mem (dst + 4 * i) = fl.mem (dst + 4 * i) &&& (ws[i] % 2 ^ 32) := by
  induction ws with
  | nil => intro fl dst i hi; simp at hi
  | cons w ws ih =>
    intro fl dst i hi
    cases i with
    | zero =>
      simp only [program_words, Nat.mul_zero, Nat.add_zero, List.getElem_cons_zero]
      rw [program_words_mem_outside ws _ (dst + 4) dst (by omega)]
      simp [FLASH_ProgramWord]
    | succ i =>
      simp only [program_words, List.getElem_cons_succ]
      have hi2 : i < ws.length := by simpa using hi
      have e : dst + 4 * (i + 1) = dst + 4 + 4 * i := by omega
      rw [e, ih (FLASH_ProgramWord fl dst w) (dst + 4) i hi2]
      have hne : dst + 4 + 4 * i ≠ dst := by omega
      simp [FLASH_ProgramWord, hne]

theorem program_words_erase_count (ws : List Nat) : ∀ (fl : Flash) (dst : Nat),
    (program_words fl dst ws).erase_count = fl.erase_count := by
  induction ws with
  | nil => intro fl dst; rfl
  | cons w ws ih => intro fl dst; simp [program_words, ih, FLASH_ProgramWord]

theorem program_words_program_count (ws : List Nat) : ∀ (fl : Flash) (dst : Nat),
    (program_words fl dst ws).program_count = fl.program_count + ws.length := by
  induction ws with
  | nil => intro fl dst; rfl
  | cons w ws ih =>
    intro fl dst
    simp only [program_words, ih, FLASH_ProgramWord, List.length_cons]; omega

/-- The words of an erased slot read back exactly what a complete program of a
well-formed record wrote. -/
theorem program_slot_read (fl : Flash) (dst : Nat) (r : _parameter) (hw : r.wf)
    (he : ∀ j, j < 4 → fl.mem (dst + 4 * j) = 0xFFFFFFFF) :
    read_parameter (program_words fl dst r.words).mem dst = r := by
  obtain ⟨h0, h1, h2, h3⟩ := hw
  have a0 := program_words_mem_at r.words fl dst 0 (by simp [_parameter.words])
  have a1 := program_words_mem_at r.words fl dst 1 (by simp [_parameter.words])
  have a2 := program_words_mem_at r.words fl dst 2 (by simp [_parameter.words])
  have a3 := program_words_mem_at r.words fl dst 3 (by simp [_parameter.words])
  rw [he 0 (by omega)] at a0
  rw [he 1 (by omega)] at a1
  rw [he 2 (by omega)] at a2
  rw [he 3 (by omega)] at a3
  simp only [_parameter.words, List.getElem_cons_zero, List.getElem_cons_succ] at a0 a1 a2 a3
  rw [and_erased_word _ h0] at a0
  rw [and_erased_word _ h1] at a1
  rw [and_erased_word _ h2] at a2
  rw [and_erased_word _ h3] at a3
  cases r
  simp only [read_parameter, _parameter.mk.injEq]
  simp only [Nat.mul_zero, Nat.add_zero, Nat.mul_one] at a0 a1 a2 a3
  exact ⟨a0, a1, a2, a3⟩

/-- Programming a signed record into the first erased slot extends the valid
part by one slot. -/
theorem program_slot_inv (fl : Flash) (k : Nat) (r : _parameter) (h : LogInv fl.mem k)
    (hk : k ≤ 62) (hs : r.signature = VALID_SIGNATURE) :
    LogInv (program_words fl (slot_addr k) r.words).mem (k + 1) := by
  obtain ⟨_, hv, he⟩ := h
  have hlen : r.words.length = 4 := by simp [_parameter.words]
  refine ⟨by omega, ?_, ?_⟩
  · intro i hi
    rcases Nat.lt_succ_iff_lt_or_eq.mp hi with hlt | heq
    · rw [program_words_mem_outside r.words fl (slot_addr k) (slot_addr i)
        (by left; simp only [slot_addr]; omega)]
      exact hv i hlt
    · rw [heq]
      have h0 := program_words_mem_at r.words fl (slot_addr k) 0 (by omega)
      have e0 := he k (by omega) (le_refl k) 0 (by omega)
      simp only [Nat.mul_zero, Nat.add_zero] at h0 e0
      have hget : r.words[0] = r.signature := by simp [_parameter.words]
      have hlt : r.signature < 2 ^ 32 := by rw [hs]; decide
      rw [h0, e0, hget, and_erased_word _ hlt, hs]
  · intro i hi hki j hj
    rw [program_words_mem_outside r.words fl (slot_addr k) (slot_addr i + 4 * j)
      (by right; rw [hlen]; simp only [slot_addr]; omega)]
    exact he i hi (by omega) j hj

/-- Programming the slot after the valid part leaves the earlier records as they
were. -/
theorem program_slot_frame (fl : Flash) (k i : Nat) (ws : List Nat) (hi : i < k) :
    read_parameter (program_words fl (slot_addr k) ws).mem (slot_addr i) =
      read_parameter fl.mem (slot_addr i) := by
  have hlt : ∀ c, c < 16 → slot_addr i + c < slot_addr k := by
    intro c hc; simp only [slot_addr]; omega
  simp only [read_parameter]
  rw [program_words_mem_outside ws fl _ (slot_addr i) (Or.inl (hlt 0 (by omega))),
    program_words_mem_outside ws fl _ (slot_addr i + 4) (Or.inl (hlt 4 (by omega))),
    program_words_mem_outside ws fl _ (slot_addr i + 8) (Or.inl (hlt 8 (by omega))),
    program_words_mem_outside ws fl _ (slot_addr i + 12) (Or.inl (hlt 12 (by omega)))]

/-- An erase leaves a page with an empty valid part. -/
theorem erase_inv (fl : Flash) : LogInv (FLASH_ErasePage fl PARAMETER_PAGE_ADDR).mem 0 := by
  refine ⟨by omega, ?_, ?_⟩
  · intro i hi; omega
  · intro i hi _ j hj
    have h1 : PARAMETER_PAGE_ADDR ≤ slot_addr i + 4 * j ∧
        slot_addr i + 4 * j < PARAMETER_PAGE_ADDR + PARAMETER_PAGE_SIZE := by
      simp only [slot_addr, PARAMETER_PAGE_ADDR, PARAMETER_PAGE_SIZE]; omega
    simp [FLASH_ErasePage, h1]

/-! ## The cases of `parameter_save` on a page satisfying the log invariant -/

theorem save_eq_power_loss (r : _parameter) (fl : Flash) :
    parameter_save r fl = parameter_save_power_loss 4 r fl := by
  have h : List.take 4 r.words = r.words := by simp [_parameter.words]
  simp only [parameter_save, parameter_save_power_loss, h]

/-- Unchanged record: nothing is written. -/
theorem save_same (fl : Flash) (k : Nat) (r : _parameter) (h : LogInv fl.mem k) (hk : 1 ≤ k)
    (hr : read_parameter fl.mem (slot_addr (k - 1)) = r) : parameter_save r fl = fl := by
  simp [parameter_save, find_latest_inv fl.mem k h hk, hr]

/-- Empty page: the (possibly interrupted) save programs slot 0. -/
theorem power_loss_first (j : Nat) (fl : Flash) (r : _parameter) (h : LogInv fl.mem 0) :
    parameter_save_power_loss j r fl = program_words fl (slot_addr 0) (r.words.take j) := by
  have h1 : ¬ (PARAMETER_PAGE_ADDR + 16 ≥ PARAMETER_PAGE_ADDR + PARAMETER_PAGE_SIZE) := by
    simp [PARAMETER_PAGE_SIZE]
  simp only [parameter_save_power_loss, find_latest_inv_zero fl.mem h, if_neg h1]
  simp [slot_addr]

/-- Changed record and room left: the (possibly interrupted) save programs the
first erased slot. -/
theorem power_loss_next (j : Nat) (fl : Flash) (k : Nat) (r : _parameter) (h : LogInv fl.mem k)
    (hk : 1 ≤ k) (hk2 : k ≤ 62) (hr : read_parameter fl.mem (slot_addr (k - 1)) ≠ r) :
    parameter_save_power_loss j r fl = program_words fl (slot_addr k) (r.words.take j) := by
  have h1 : ¬ (slot_addr (k - 1) + 16 + 16 ≥ PARAMETER_PAGE_ADDR + PARAMETER_PAGE_SIZE) := by
    simp only [slot_addr, PARAMETER_PAGE_ADDR, PARAMETER_PAGE_SIZE]; omega
  have h2 : slot_addr (k - 1) + 16 = slot_addr k := by
    simp only [slot_addr]; omega
  have h3 : ¬ (read_parameter fl.mem (slot_addr (k - 1))).words = r.words := by
    rw [words_eq_iff]; exact hr
  simp only [parameter_save_power_loss, find_latest_inv fl.mem k h hk, if_neg h3, if_neg h1]
  rw [h2]

/-- Changed record and no room left: the page is erased and slot 0 programmed. -/
theorem save_wrap (fl : Flash) (r : _parameter) (h : LogInv fl.mem 63)
    (hr : read_parameter fl.mem (slot_addr 62) ≠ r) :
    parameter_save r fl =
      program_words (FLASH_ErasePage fl PARAMETER_PAGE_ADDR) (slot_addr 0) r.words := by
  have h1 : slot_addr 62 + 16 + 16 ≥ PARAMETER_PAGE_ADDR + PARAMETER_PAGE_SIZE := by
    simp only [slot_addr, PARAMETER_PAGE_ADDR, PARAMETER_PAGE_SIZE]; omega
  have h3 : ¬ (read_parameter fl.mem (slot_addr 62)).words = r.words := by
    rw [words_eq_iff]; exact hr
  simp only [parameter_save, find_latest_inv fl.mem 63 h (by omega), if_neg h3, if_pos h1]
  simp [slot_addr]

/-- A save that appends: the valid part grows by one slot holding the record,
with four word programs and no erase. -/
theorem save_append (fl : Flash) (k : Nat) (r : _parameter) (h : LogInv fl.mem k)
    (hk : k ≤ 62) (hs : r.signature = VALID_SIGNATURE) (hw : r.wf)
    (hr : k = 0 ∨ read_parameter fl.mem (slot_addr (k - 1)) ≠ r) :
    LogInv (parameter_save r fl).mem (k + 1) ∧
      read_parameter (parameter_save r fl).mem (slot_addr k) = r ∧
      (∀ i, i < k → read_parameter (parameter_save r fl).mem (slot_addr i) =
        read_parameter fl.mem (slot_addr i)) ∧
      (parameter_save r fl).erase_count = fl.erase_count ∧
      (parameter_save r fl).program_count = fl.program_count + 4 := by
  have e : parameter_save r fl = program_words fl (slot_addr k) r.words := by
    have h4 : List.take 4 r.words = r.words := by simp [_parameter.words]
    rw [save_eq_power_loss]
    by_cases hk0 : k = 0
    · subst hk0
      rw [power_loss_first 4 fl r h, h4]
    · have hr2 : read_parameter fl.mem (slot_addr (k - 1)) ≠ r := by
        rcases hr with hr | hr
        · exact absurd hr hk0
        · exact hr
      rw [power_loss_next 4 fl k r h (by omega) hk hr2, h4]
  rw [e]
  refine ⟨program_slot_inv fl k r h hk hs, ?_, ?_, ?_, ?_⟩
  · exact program_slot_read fl (slot_addr k) r hw (h.2.2 k (by omega) (le_refl k))
  · intro i hi; exact program_slot_frame fl k i r.words hi
  · exact program_words_erase_count _ _ _
  · rw [program_words_program_count]; simp [_parameter.words]

/-- A save on a full page: one erase, and the record ends up alone in slot 0. -/
theorem save_wrap_spec (fl : Flash) (r : _parameter) (h : LogInv fl.mem 63)
    (hs : r.signature = VALID_SIGNATURE) (hw : r.wf)
    (hr : read_parameter fl.mem (slot_addr 62) ≠ r) :
    LogInv (parameter_save r fl).mem 1 ∧
      read_parameter (parameter_save r fl).mem (slot_addr 0) = r ∧
      (parameter_save r fl).erase_count = fl.erase_count + 1 := by
  rw [save_wrap fl r h hr]
  have h0 := erase_inv fl
  refine ⟨program_slot_inv _ 0 r h0 (by omega) hs, ?_, ?_⟩
  · exact program_slot_read _ (slot_addr 0) r hw (h0.2.2 0 (by omega) (le_refl 0))
  · rw [program_words_erase_count]; rfl

/-- Whatever the case, a save leaves a page satisfying the log invariant whose
latest record is the saved one. -/
theorem save_spec (fl : Flash) (k : Nat) (r : _parameter) (h : LogInv fl.mem k)
    (hs : r.signature = VALID_SIGNATURE) (hw : r.wf) :
    ∃ k2, 1 ≤ k2 ∧ LogInv (parameter_save r fl).mem k2 ∧
      read_parameter (parameter_save r fl).mem (slot_addr (k2 - 1)) = r := by
  by_cases hsame : 1 ≤ k ∧ read_parameter fl.mem (slot_addr (k - 1)) = r
  · refine ⟨k, hsame.1, ?_, ?_⟩
    · rw [save_same fl k r h hsame.1 hsame.2]; exact h
    · rw [save_same fl k r h hsame.1 hsame.2]; exact hsame.2
  · have hr : k = 0 ∨ read_parameter fl.mem (slot_addr (k - 1)) ≠ r := by
      by_cases hk0 : k = 0
      · exact Or.inl hk0
      · right; intro hc; exact hsame ⟨by omega, hc⟩
    by_cases hk : k ≤ 62
    · obtain ⟨h1, h2, _⟩ := save_append fl k r h hk hs hw hr
      exact ⟨k + 1, by omega, h1, by simpa using h2⟩
    · have hk63 : k = 63 := by have := h.1; omega
      subst hk63
      have hr2 : read_parameter fl.mem (slot_addr 62) ≠ r := by
        rcases hr with hr | hr
        · omega
        · exact hr
      obtain ⟨h1, h2, _⟩ := save_wrap_spec fl r h hs hw hr2
      exact ⟨1, by omega, h1, by simpa using h2⟩

/-- A save of a signed record keeps the log invariant. -/
theorem save_inv (fl : Flash) (k : Nat) (r : _parameter) (h : LogInv fl.mem k)
    (hs : r.signature = VALID_SIGNATURE) : ∃ k2, LogInv (parameter_save r fl).mem k2 := by
  have h4 : List.take 4 r.words = r.words := by simp [_parameter.words]
  by_cases hsame : 1 ≤ k ∧ read_parameter fl.mem (slot_addr (k - 1)) = r
  · exact ⟨k, by rw [save_same fl k r h hsame.1 hsame.2]; exact h⟩
  · by_cases hk0 : k = 0
    · subst hk0
      refine ⟨1, ?_⟩
      rw [save_eq_power_loss, power_loss_first 4 fl r h, h4]
      exact program_slot_inv fl 0 r h (by omega) hs
    · have hr : read_parameter fl.mem (slot_addr (k - 1)) ≠ r := by
        intro hc; exact hsame ⟨by omega, hc⟩
      by_cases hk : k ≤ 62
      · refine ⟨k + 1, ?_⟩
        rw [save_eq_power_loss, power_loss_next 4 fl k r h (by omega) hk hr, h4]
        exact program_slot_inv fl k r h hk hs
      · have hk63 : k = 63 := by have := h.1; omega
        subst hk63
        refine ⟨1, ?_⟩
        rw [save_wrap fl r h hr]
        exact program_slot_inv _ 0 r (erase_inv fl) (by omega) hs

/-- On a page satisfying the log invariant with a non-empty valid part, the load
returns the record of the last valid slot. -/
theorem load_inv (fl : Flash) (k : Nat) (h : LogInv fl.mem k) (hk : 1 ≤ k) :
    parameter_load fl = read_parameter fl.mem (slot_addr (k - 1)) := by
  simp [parameter_load, find_latest_inv fl.mem k h hk]

/-- Whenever the scan reports a record, the slot it points to is signed. -/
theorem find_latest_loop_signed (mem : Nat → Nat) : ∀ (n pflash : Nat),
    PARAMETER_PAGE_ADDR + PARAMETER_PAGE_SIZE - pflash ≤ n →
    (find_latest_loop mem pflash).1 = true →
    mem (find_latest_loop mem pflash).2 = VALID_SIGNATURE := by
  intro n
  induction n with
  | zero =>
    intro pflash hn hf
    have h1 : ¬ (pflash + 16 < PARAMETER_PAGE_ADDR + PARAMETER_PAGE_SIZE) := by omega
    rw [find_latest_loop, if_neg h1] at hf
    simp at hf
  | succ n ih =>
    intro pflash hn hf
    rw [find_latest_loop] at hf ⊢
    by_cases h1 : pflash + 16 < PARAMETER_PAGE_ADDR + PARAMETER_PAGE_SIZE
    · rw [if_pos h1] at hf ⊢
      by_cases h2 : mem pflash = VALID_SIGNATURE
      · rw [if_pos h2] at hf ⊢
        by_cases h3 : mem (pflash + 16) ≠ VALID_SIGNATURE
        · rw [if_pos h3]; exact h2
        · rw [if_neg h3] at hf ⊢
          exact ih (pflash + 16) (by omega) hf
      · rw [if_neg h2] at hf; simp at hf
    · rw [if_neg h1] at hf; simp at hf

/-- The record returned by a load is signed, whatever the flash holds. -/
theorem load_signed (fl : Flash) : (parameter_load fl).signature = VALID_SIGNATURE := by
  unfold parameter_load parameter_find_latest
  by_cases hf : (find_latest_loop fl.mem PARAMETER_PAGE_ADDR).1 = true
  · simp only [hf, if_true]
    exact find_latest_loop_signed fl.mem _ _ (le_refl _) hf
  · simp only [hf]
    rfl

/-- Filling: saving records that each differ from their predecessor, while room
is left, appends them one per slot without any erase. -/
theorem successive_differ_cons (x : _parameter) (xs : List _parameter)
    (h : successive_differ (x :: xs)) :
    successive_differ xs ∧ ∀ y, xs.head? = some y → x ≠ y := by
  cases xs with
  | nil => simp [successive_differ]
  | cons b rest =>
    simp only [successive_differ] at h
    refine ⟨h.2, ?_⟩
    intro y hy
    simp only [List.head?_cons, Option.some.injEq] at hy
    rw [← hy]; exact h.1

theorem successive_differ_take (rs : List _parameter) : ∀ n, successive_differ rs →
    successive_differ (rs.take n) := by
  induction rs with
  | nil => intro n _; simp [successive_differ]
  | cons x xs ih =>
    intro n h
    cases n with
    | zero => simp [successive_differ]
    | succ n =>
      have hx := successive_differ_cons x xs h
      have ht := ih n hx.1
      cases xs with
      | nil => simp [successive_differ]
      | cons b rest =>
        cases n with
        | zero => simp [successive_differ]
        | succ n =>
          simp only [List.take_succ_cons, successive_differ] at ht ⊢
          exact ⟨hx.2 b rfl, ht⟩

theorem fill_spec (rs : List _parameter) : ∀ (fl : Flash) (k : Nat), LogInv fl.mem k →
    k + rs.length ≤ 63 → (∀ x ∈ rs, x.signature = VALID_SIGNATURE ∧ x.wf) →
    successive_differ rs →
    (k = 0 ∨ ∀ x, rs.head? = some x → read_parameter fl.mem (slot_addr (k - 1)) ≠ x) →
    LogInv (save_all rs fl).mem (k + rs.length) ∧
      (save_all rs fl).erase_count = fl.erase_count ∧
      (∀ i, i < k → read_parameter (save_all rs fl).mem (slot_addr i) =
        read_parameter fl.mem (slot_addr i)) ∧
      (∀ i (hi : i < rs.length),
        read_parameter (save_all rs fl).mem (slot_addr (k + i)) = rs[i]) := by
  induction rs with
  | nil =>
    intro fl k h _ _ _ _
    refine ⟨by simpa [save_all] using h, rfl, fun i _ => rfl, ?_⟩
    intro i hi; simp at hi
  | cons x xs ih =>
    intro fl k h hlen hv hch hhead
    have hx := hv x (List.mem_cons_self x xs)
    have hlen2 : k + 1 + xs.length ≤ 63 := by simp at hlen; omega
    have hr : k = 0 ∨ read_parameter fl.mem (slot_addr (k - 1)) ≠ x := by
      rcases hhead with hk | hh
      · exact Or.inl hk
      · exact Or.inr (hh x rfl)
    obtain ⟨a1, a2, a3, a4, _⟩ := save_append fl k x h (by omega) hx.1 hx.2 hr
    have hch2 : successive_differ xs := (successive_differ_cons x xs hch).1
    have hhead2 : k + 1 = 0 ∨ ∀ y, xs.head? = some y →
        read_parameter (parameter_save x fl).mem (slot_addr (k + 1 - 1)) ≠ y := by
      right
      intro y hy
      have e : k + 1 - 1 = k := by omega
      rw [e, a2]
      exact (successive_differ_cons x xs hch).2 y hy
    obtain ⟨b1, b2, b3, b4⟩ := ih (parameter_save x fl) (k + 1) a1 hlen2
      (fun y hy => hv y (List.mem_cons_of_mem x hy)) hch2 hhead2
    have es : save_all (x :: xs) fl = save_all xs (parameter_save x fl) := rfl
    rw [es]
    refine ⟨?_, ?_, ?_, ?_⟩
    · have e : k + (x :: xs).length = k + 1 + xs.length := by simp; omega
      rw [e]; exact b1
    · rw [b2, a4]
    · intro i hi
      rw [b3 i (by omega), a3 i hi]
    · intro i hi
      cases i with
      | zero =>
        simp only [Nat.add_zero, List.getElem_cons_zero]
        rw [b3 k (by omega), a2]
      | succ i =>
        have hi2 : i < xs.length := by simpa using hi
        have e : k + (i + 1) = k + 1 + i := by omega
        simp only [List.getElem_cons_succ]
        rw [e]; exact b4 i hi2

/-! ## Interrupted saves -/

/-- A save that programs without erasing: the page has room left and the record
differs from the latest one. -/
theorem programs_without_erase_cases (fl : Flash) (k : Nat) (r : _parameter)
    (h : LogInv fl.mem k) (hs : r.signature = VALID_SIGNATURE) (hw : r.wf)
    (he : (parameter_save r fl).erase_count = fl.erase_count)
    (hp : (parameter_save r fl).program_count ≠ fl.program_count) :
    k ≤ 62 ∧ (k = 0 ∨ read_parameter fl.mem (slot_addr (k - 1)) ≠ r) := by
  have hr : k = 0 ∨ read_parameter fl.mem (slot_addr (k - 1)) ≠ r := by
    by_cases hk0 : k = 0
    · exact Or.inl hk0
    · right
      intro hc
      rw [save_same fl k r h (by omega) hc] at hp
      exact hp rfl
  refine ⟨?_, hr⟩
  by_contra hk
  have hk63 : k = 63 := by have := h.1; omega
  subst hk63
  have hr2 : read_parameter fl.mem (slot_addr 62) ≠ r := by
    rcases hr with hr | hr
    · omega
    · exact hr
  have := (save_wrap_spec fl r h hs hw hr2).2.2
  omega

/-- An interrupted save that had room to append programs the first erased slot. -/
theorem power_loss_target (j : Nat) (fl : Flash) (k : Nat) (r : _parameter)
    (h : LogInv fl.mem k) (hk : k ≤ 62)
    (hr : k = 0 ∨ read_parameter fl.mem (slot_addr (k - 1)) ≠ r) :
    parameter_save_power_loss j r fl = program_words fl (slot_addr k) (r.words.take j) := by
  by_cases hk0 : k = 0
  · subst hk0
    exact power_loss_first j fl r h
  · have hr2 : read_parameter fl.mem (slot_addr (k - 1)) ≠ r := by
      rcases hr with hr | hr
      · exact absurd hr hk0
      · exact hr
    exact power_loss_next j fl k r h (by omega) hk hr2

/-- After one to three word programs the target slot is signed, and it is the
slot that a load returns. -/
theorem power_loss_midway (j : Nat) (fl : Flash) (k : Nat) (r : _parameter)
    (h : LogInv fl.mem k) (hk : k ≤ 62) (hs : r.signature = VALID_SIGNATURE) (hw : r.wf)
    (hr : k = 0 ∨ read_parameter fl.mem (slot_addr (k - 1)) ≠ r) (hj1 : 1 ≤ j) (hj : j < 4) :
    (parameter_save_power_loss j r fl).mem (slot_addr k) = VALID_SIGNATURE ∧
      parameter_load (parameter_save_power_loss j r fl) =
        { signature := r.signature
          refer_voltage := if 2 ≤ j then r.refer_voltage else 0xFFFFFFFF
          hw_info := if 3 ≤ j then r.hw_info else 0xFFFFFFFF
          power_up_count := 0xFFFFFFFF } := by
  rw [power_loss_target j fl k r h hk hr]
  obtain ⟨hk63, hv, he⟩ := h
  obtain ⟨w0, w1, w2, w3⟩ := hw
  have e0 : fl.mem (slot_addr k) = 0xFFFFFFFF := by simpa using he k (by omega) (le_refl k) 0 (by omega)
  have e1 : fl.mem (slot_addr k + 4) = 0xFFFFFFFF := by simpa using he k (by omega) (le_refl k) 1 (by omega)
  have e2 : fl.mem (slot_addr k + 8) = 0xFFFFFFFF := by simpa using he k (by omega) (le_refl k) 2 (by omega)
  have e3 : fl.mem (slot_addr k + 12) = 0xFFFFFFFF := by simpa using he k (by omega) (le_refl k) 3 (by omega)
  have a0 := and_erased_word _ w0
  have a1 := and_erased_word _ w1
  have a2 := and_erased_word _ w2
  have b0 : 4294967295 &&& r.signature % 4294967296 = r.signature := a0
  have b1 : 4294967295 &&& r.refer_voltage % 4294967296 = r.refer_voltage := a1
  have b2 : 4294967295 &&& r.hw_info % 4294967296 = r.hw_info := a2
  have hlen : (r.words.take j).length = j := by
    simp [_parameter.words]; omega
  have hsig : (program_words fl (slot_addr k) (r.words.take j)).mem (slot_addr k) =
      VALID_SIGNATURE := by
    have := program_words_mem_at (r.words.take j) fl (slot_addr k) 0 (by omega)
    simp only [Nat.mul_zero, Nat.add_zero] at this
    rw [this, e0]
    have hget : (r.words.take j)[0] = r.signature := by
      simp [_parameter.words, List.getElem_take]
    rw [hget, a0, hs]
  have hinv : LogInv (program_words fl (slot_addr k) (r.words.take j)).mem (k + 1) := by
    refine ⟨by omega, ?_, ?_⟩
    · intro i hi
      rcases Nat.lt_succ_iff_lt_or_eq.mp hi with hlt | heq
      · rw [program_words_mem_outside _ fl (slot_addr k) (slot_addr i)
          (by left; simp only [slot_addr]; omega)]
        exact hv i hlt
      · rw [heq]; exact hsig
    · intro i hi hki c hc
      rw [program_words_mem_outside _ fl (slot_addr k) (slot_addr i + 4 * c)
        (by right; rw [hlen]; simp only [slot_addr]; omega)]
      exact he i hi (by omega) c hc
  refine ⟨hsig, ?_⟩
  rw [load_inv _ (k + 1) hinv (by omega)]
  have ek : k + 1 - 1 = k := by omega
  rw [ek]
  have hj3 : j = 1 ∨ j = 2 ∨ j = 3 := by omega
  have n4 : slot_addr k + 4 ≠ slot_addr k := by omega
  have n8 : slot_addr k + 8 ≠ slot_addr k := by omega
  have n12 : slot_addr k + 12 ≠ slot_addr k := by omega
  rcases hj3 with rfl | rfl | rfl <;>
    simp [_parameter.words, program_words, FLASH_ProgramWord, read_parameter, e0, e1, e2, e3,
      b0, b1, b2, n4, n8, n12, Nat.add_assoc]

theorem erased_flash_inv : LogInv erased_flash.mem 0 :=
  ⟨by omega, fun i hi => by omega, fun _ _ _ _ _ => rfl⟩

theorem default_parameter_wf : default_parameter.wf := by decide

/-! ## The parameter store: stated properties -/

set_option maxRecDepth 8192

/-- C1: on a flash page satisfying the log invariant (a valid part of `k ≤ 63`
signed slots followed by erased slots), saving a signed record `r` and loading
afterwards returns `r` word for word, whether or not `r` differs from the record
stored before. -/
theorem C1_save_then_load (fl : Flash) (k : Nat) (r : _parameter) (h : LogInv fl.mem k)
    (hs : r.signature = VALID_SIGNATURE) (hw : r.wf) :
    parameter_load (parameter_save r fl) = r := by
  obtain ⟨k2, hk2, hinv, hread⟩ := save_spec fl k r h hs hw
  rw [load_inv _ k2 hinv hk2, hread]

theorem C1_save_then_load_witness :
    LogInv erased_flash.mem 0 ∧ default_parameter.signature = VALID_SIGNATURE ∧
      default_parameter.wf ∧
      parameter_load (parameter_save default_parameter erased_flash) = default_parameter :=
  ⟨erased_flash_inv, rfl, default_parameter_wf,
    C1_save_then_load erased_flash 0 default_parameter erased_flash_inv rfl default_parameter_wf⟩

/-- C2: starting from an erased page, saving 63 signed records that each differ
from their predecessor fills the slots 0..62 (all the slots the store uses)
without any page erase, also at every intermediate stage; saving one more record
that differs from the latest then erases the page exactly once, and a load
afterwards returns that record. -/
theorem C2_wrap_around (fl : Flash) (rs : List _parameter) (r : _parameter)
    (h0 : LogInv fl.mem 0) (hlen : rs.length = 63)
    (hrs : ∀ x ∈ rs, x.signature = VALID_SIGNATURE ∧ x.wf)
    (hch : successive_differ rs)
    (hs : r.signature = VALID_SIGNATURE) (hw : r.wf) (hne : rs.getLast? ≠ some r) :
    (∀ n, (save_all (rs.take n) fl).erase_count = fl.erase_count) ∧
      LogInv (save_all rs fl).mem 63 ∧
      (∀ i (hi : i < rs.length), read_parameter (save_all rs fl).mem (slot_addr i) = rs[i]) ∧
      (parameter_save r (save_all rs fl)).erase_count = fl.erase_count + 1 ∧
      parameter_load (parameter_save r (save_all rs fl)) = r := by
  obtain ⟨f1, _, _, f4⟩ := fill_spec rs fl 0 h0 (by omega) hrs hch (Or.inl rfl)
  have f2 := (fill_spec rs fl 0 h0 (by omega) hrs hch (Or.inl rfl)).2.1
  have e63 : 0 + rs.length = 63 := by omega
  rw [e63] at f1
  have hlast : read_parameter (save_all rs fl).mem (slot_addr 62) ≠ r := by
    have h62 := f4 62 (by omega)
    simp only [Nat.zero_add] at h62
    rw [h62]
    intro hc
    apply hne
    rw [List.getLast?_eq_getElem?, hlen]
    simp [List.getElem?_eq_getElem, hlen, hc]
  obtain ⟨w1, w2, w3⟩ := save_wrap_spec (save_all rs fl) r f1 hs hw hlast
  refine ⟨?_, f1, ?_, ?_, ?_⟩
  · intro n
    have hlt : 0 + (rs.take n).length ≤ 63 := by
      simp only [List.length_take, Nat.zero_add]; omega
    exact (fill_spec (rs.take n) fl 0 h0 hlt
      (fun x hx => hrs x (List.mem_of_mem_take hx)) (successive_differ_take rs n hch) (Or.inl rfl)).2.1
  · intro i hi
    simpa using f4 i hi
  · rw [w3, f2]
  · rw [load_inv _ 1 w1 (le_refl 1)]
    exact w2

theorem C2_wrap_around_witness :
    LogInv erased_flash.mem 0 ∧ fill_records.length = 63 ∧
      (∀ x ∈ fill_records, x.signature = VALID_SIGNATURE ∧ x.wf) ∧
      successive_differ fill_records ∧
      default_parameter.signature = VALID_SIGNATURE ∧ default_parameter.wf ∧
      fill_records.getLast? ≠ some default_parameter ∧
      ((∀ n, (save_all (fill_records.take n) erased_flash).erase_count =
          erased_flash.erase_count) ∧
        LogInv (save_all fill_records erased_flash).mem 63 ∧
        (∀ i (hi : i < fill_records.length),
          read_parameter (save_all fill_records erased_flash).mem (slot_addr i) =
            fill_records[i]) ∧
        (parameter_save default_parameter (save_all fill_records erased_flash)).erase_count =
          erased_flash.erase_count + 1 ∧
        parameter_load (parameter_save default_parameter (save_all fill_records erased_flash)) =
          default_parameter) :=
  ⟨erased_flash_inv, by decide, by decide, by decide, rfl, default_parameter_wf, by decide,
    C2_wrap_around erased_flash fill_records default_parameter erased_flash_inv (by decide)
      (by decide) (by decide) rfl default_parameter_wf (by decide)⟩

/-- C3: once a signed record `r` has been saved on a page satisfying the log
invariant, saving `r` again any number of times changes nothing: the flash
contents, the count of word programs, the count of page erases and the slot of
the latest record all stay as the first save left them. -/
theorem C3_repeated_save (fl : Flash) (k : Nat) (r : _parameter) (n : Nat)
    (h : LogInv fl.mem k) (hs : r.signature = VALID_SIGNATURE) (hw : r.wf) :
    (parameter_save r)^[n] (parameter_save r fl) = parameter_save r fl ∧
      ((parameter_save r)^[n] (parameter_save r fl)).mem = (parameter_save r fl).mem ∧
      ((parameter_save r)^[n] (parameter_save r fl)).program_count =
        (parameter_save r fl).program_count ∧
      ((parameter_save r)^[n] (parameter_save r fl)).erase_count =
        (parameter_save r fl).erase_count ∧
      parameter_find_latest ((parameter_save r)^[n] (parameter_save r fl)).mem =
        parameter_find_latest (parameter_save r fl).mem := by
  obtain ⟨k2, hk2, hinv, hread⟩ := save_spec fl k r h hs hw
  have hfix : parameter_save r (parameter_save r fl) = parameter_save r fl :=
    save_same _ k2 r hinv hk2 hread
  have hit := Function.iterate_fixed hfix n
  rw [hit]
  exact ⟨rfl, rfl, rfl, rfl, rfl⟩

theorem C3_repeated_save_witness :
    LogInv erased_flash.mem 0 ∧ default_parameter.signature = VALID_SIGNATURE ∧
      default_parameter.wf ∧
      ((parameter_save default_parameter)^[3] (parameter_save default_parameter erased_flash) =
          parameter_save default_parameter erased_flash ∧
        ((parameter_save default_parameter)^[3]
            (parameter_save default_parameter erased_flash)).mem =
          (parameter_save default_parameter erased_flash).mem ∧
        ((parameter_save default_parameter)^[3]
            (parameter_save default_parameter erased_flash)).program_count =
          (parameter_save default_parameter erased_flash).program_count ∧
        ((parameter_save default_parameter)^[3]
            (parameter_save default_parameter erased_flash)).erase_count =
          (parameter_save default_parameter erased_flash).erase_count ∧
        parameter_find_latest ((parameter_save default_parameter)^[3]
            (parameter_save default_parameter erased_flash)).mem =
          parameter_find_latest (parameter_save default_parameter erased_flash).mem) :=
  ⟨erased_flash_inv, rfl, default_parameter_wf,
    C3_repeated_save erased_flash 0 default_parameter 3 erased_flash_inv rfl
      default_parameter_wf⟩

/-- C4: on every page whose slot 0 does not carry the signature, in particular
on every erased page, a load returns the compiled-in default record, which is
signature 0x1234a55a, reference voltage 10 (as a `float`), hardware information
0x5A0B1000 and power-up count 0. The load is a total function, and whatever the
flash holds the record it returns is signed. -/
theorem C4_cold_start (fl : Flash) (h : fl.mem PARAMETER_PAGE_ADDR ≠ VALID_SIGNATURE) :
    parameter_load fl = default_parameter ∧
      (∀ f : Flash, LogInv f.mem 0 → parameter_load f = default_parameter) ∧
      default_parameter = { signature := 0x1234a55a, refer_voltage := 0x41200000,
                            hw_info := 0x5A0B1000, power_up_count := 0 } ∧
      f32_value default_parameter.refer_voltage = 10 ∧
      HW_INFO 90 0xb 0x10 = 0x5A0B1000 ∧
      (∀ f : Flash, (parameter_load f).signature = VALID_SIGNATURE) := by
  refine ⟨?_, ?_, by decide, ?_, by decide, load_signed⟩
  · simp [parameter_load, find_latest_unsigned fl.mem h]
  · intro f hf
    simp [parameter_load, find_latest_inv_zero f.mem hf]
  · simp only [default_parameter, f32_value]
    norm_num

theorem C4_cold_start_witness :
    erased_flash.mem PARAMETER_PAGE_ADDR ≠ VALID_SIGNATURE ∧
      (parameter_load erased_flash = default_parameter ∧
        (∀ f : Flash, LogInv f.mem 0 → parameter_load f = default_parameter) ∧
        default_parameter = { signature := 0x1234a55a, refer_voltage := 0x41200000,
                              hw_info := 0x5A0B1000, power_up_count := 0 } ∧
        f32_value default_parameter.refer_voltage = 10 ∧
        HW_INFO 90 0xb 0x10 = 0x5A0B1000 ∧
        (∀ f : Flash, (parameter_load f).signature = VALID_SIGNATURE)) :=
  ⟨by decide, C4_cold_start erased_flash (by decide)⟩

theorem saved_default_inv : LogInv (parameter_save default_parameter erased_flash).mem 1 :=
  (save_append erased_flash 0 default_parameter erased_flash_inv (by omega) rfl
    default_parameter_wf (Or.inl rfl)).1

/-- C5: on a page satisfying the log invariant with a non-empty valid part of
`k` slots (1 ≤ k ≤ 63), a load returns the record of slot `k-1`; that slot is
signed, its successor is not, and it is the only slot of the page with these two
properties. -/
theorem C5_load_returns_latest (fl : Flash) (k : Nat) (h : LogInv fl.mem k) (hk : 1 ≤ k) :
    parameter_load fl = read_parameter fl.mem (slot_addr (k - 1)) ∧
      fl.mem (slot_addr (k - 1)) = VALID_SIGNATURE ∧
      fl.mem (slot_addr (k - 1 + 1)) ≠ VALID_SIGNATURE ∧
      (∀ i, i < 63 → fl.mem (slot_addr i) = VALID_SIGNATURE →
        fl.mem (slot_addr (i + 1)) ≠ VALID_SIGNATURE → i = k - 1) := by
  have herased : ∀ i, i < 64 → k ≤ i → fl.mem (slot_addr i) ≠ VALID_SIGNATURE := by
    intro i hi hki
    have := h.2.2 i hi hki 0 (by omega)
    simp only [Nat.mul_zero, Nat.add_zero] at this
    rw [this]; exact erased_ne_signature
  refine ⟨load_inv fl k h hk, h.2.1 (k - 1) (by omega), ?_, ?_⟩
  · have e : k - 1 + 1 = k := by omega
    rw [e]
    exact herased k (by have := h.1; omega) (le_refl k)
  · intro i hi hsig hnext
    by_contra hne
    by_cases hlt : i < k - 1
    · exact hnext (h.2.1 (i + 1) (by omega))
    · exact herased i (by omega) (by omega) hsig

theorem C5_load_returns_latest_witness :
    LogInv (parameter_save default_parameter erased_flash).mem 1 ∧ 1 ≤ 1 ∧
      (parameter_load (parameter_save default_parameter erased_flash) =
          read_parameter (parameter_save default_parameter erased_flash).mem
            (slot_addr (1 - 1)) ∧
        (parameter_save default_parameter erased_flash).mem (slot_addr (1 - 1)) =
          VALID_SIGNATURE ∧
        (parameter_save default_parameter erased_flash).mem (slot_addr (1 - 1 + 1)) ≠
          VALID_SIGNATURE ∧
        (∀ i, i < 63 →
          (parameter_save default_parameter erased_flash).mem (slot_addr i) = VALID_SIGNATURE →
          (parameter_save default_parameter erased_flash).mem (slot_addr (i + 1)) ≠
            VALID_SIGNATURE → i = 1 - 1)) :=
  ⟨saved_default_inv, le_refl 1,
    C5_load_returns_latest (parameter_save default_parameter erased_flash) 1 saved_default_inv
      (le_refl 1)⟩

/-- C6, as stated, fails: on an erased page the save of the default record
programs slot 0 without erasing, yet when it is cut off after its first word
program the target slot already carries the signature and a load returns the
half-written record instead of the record returned before the save. -/
theorem C6_counterexample_signed_slot :
    LogInv erased_flash.mem 0 ∧ default_parameter.signature = VALID_SIGNATURE ∧
      (parameter_save default_parameter erased_flash).erase_count = erased_flash.erase_count ∧
      (parameter_save default_parameter erased_flash).program_count ≠
        erased_flash.program_count ∧
      (parameter_save_power_loss 1 default_parameter erased_flash).mem (slot_addr 0) =
        VALID_SIGNATURE ∧
      parameter_load (parameter_save_power_loss 1 default_parameter erased_flash) =
        { signature := VALID_SIGNATURE, refer_voltage := 0xFFFFFFFF, hw_info := 0xFFFFFFFF,
          power_up_count := 0xFFFFFFFF } ∧
      parameter_load erased_flash = default_parameter ∧
      ¬ ((parameter_save_power_loss 1 default_parameter erased_flash).mem (slot_addr 0) ≠
          VALID_SIGNATURE ∧
        parameter_load (parameter_save_power_loss 1 default_parameter erased_flash) =
          parameter_load erased_flash) := by
  have ha := save_append erased_flash 0 default_parameter erased_flash_inv (by omega) rfl
    default_parameter_wf (Or.inl rfl)
  have hp := power_loss_midway 1 erased_flash 0 default_parameter erased_flash_inv (by omega)
    rfl default_parameter_wf (Or.inl rfl) (le_refl 1) (by omega)
  have hl : parameter_load erased_flash = default_parameter := by
    simp [parameter_load, find_latest_inv_zero erased_flash.mem erased_flash_inv]
  refine ⟨erased_flash_inv, rfl, ha.2.2.2.1, ?_, hp.1, ?_, hl, ?_⟩
  · rw [ha.2.2.2.2]; omega
  · rw [hp.2]; rfl
  · intro hc
    exact hc.1 hp.1

/-- C6 (amended): on a page satisfying the log invariant, let the save of a
signed record `r` be one that programs a slot without erasing, and let it be
cut off after the first `j < 4` of its word programs. For `j = 0` the target
slot keeps an invalid signature and a load returns what it returned before the
save. For `1 ≤ j` the target slot already carries the signature, which is the
first word programmed, and a load returns the partially written record: the
first `j` words of `r` followed by erased words. -/
theorem C6_power_loss (fl : Flash) (k : Nat) (r : _parameter) (j : Nat)
    (h : LogInv fl.mem k) (hs : r.signature = VALID_SIGNATURE) (hw : r.wf)
    (he : (parameter_save r fl).erase_count = fl.erase_count)
    (hp : (parameter_save r fl).program_count ≠ fl.program_count) (hj : j < 4) :
    (j = 0 → (parameter_save_power_loss j r fl).mem (slot_addr k) ≠ VALID_SIGNATURE ∧
        parameter_load (parameter_save_power_loss j r fl) = parameter_load fl) ∧
      (1 ≤ j → (parameter_save_power_loss j r fl).mem (slot_addr k) = VALID_SIGNATURE ∧
        parameter_load (parameter_save_power_loss j r fl) =
          { signature := r.signature
            refer_voltage := if 2 ≤ j then r.refer_voltage else 0xFFFFFFFF
            hw_info := if 3 ≤ j then r.hw_info else 0xFFFFFFFF
            power_up_count := 0xFFFFFFFF }) := by
  obtain ⟨hk, hr⟩ := programs_without_erase_cases fl k r h hs hw he hp
  constructor
  · intro hj0
    subst hj0
    have e : parameter_save_power_loss 0 r fl = fl := by
      rw [power_loss_target 0 fl k r h hk hr]; rfl
    rw [e]
    refine ⟨?_, rfl⟩
    have := h.2.2 k (by omega) (le_refl k) 0 (by omega)
    simp only [Nat.mul_zero, Nat.add_zero] at this
    rw [this]; exact erased_ne_signature
  · intro hj1
    exact power_loss_midway j fl k r h hk hs hw hr hj1 hj

theorem C6_power_loss_witness :
    LogInv erased_flash.mem 0 ∧ default_parameter.signature = VALID_SIGNATURE ∧
      default_parameter.wf ∧
      (parameter_save default_parameter erased_flash).erase_count = erased_flash.erase_count ∧
      (parameter_save default_parameter erased_flash).program_count ≠
        erased_flash.program_count ∧ 2 < 4 ∧
      ((2 = 0 → (parameter_save_power_loss 2 default_parameter erased_flash).mem (slot_addr 0) ≠
            VALID_SIGNATURE ∧
          parameter_load (parameter_save_power_loss 2 default_parameter erased_flash) =
            parameter_load erased_flash) ∧
        (1 ≤ 2 → (parameter_save_power_loss 2 default_parameter erased_flash).mem (slot_addr 0) =
            VALID_SIGNATURE ∧
          parameter_load (parameter_save_power_loss 2 default_parameter erased_flash) =
            { signature := default_parameter.signature
              refer_voltage := if 2 ≤ 2 then default_parameter.refer_voltage else 0xFFFFFFFF
              hw_info := if 3 ≤ 2 then default_parameter.hw_info else 0xFFFFFFFF
              power_up_count := 0xFFFFFFFF })) :=
  have ha := save_append erased_flash 0 default_parameter erased_flash_inv (by omega) rfl
    default_parameter_wf (Or.inl rfl)
  have hp : (parameter_save default_parameter erased_flash).program_count ≠
      erased_flash.program_count := by rw [ha.2.2.2.2]; omega
  ⟨erased_flash_inv, rfl, default_parameter_wf, ha.2.2.2.1, hp, by omega,
    C6_power_loss erased_flash 0 default_parameter 2 erased_flash_inv rfl default_parameter_wf
      ha.2.2.2.1 hp (by omega)⟩

/-- C7: starting from an erased page, after any finite sequence of saves of
signed records the page consists of a valid part of signed slots followed only
by erased slots, and the last slot of the page (slot 63 of 64) is still erased. -/
theorem C7_log_invariant (fl : Flash) (rs : List _parameter) (h0 : LogInv fl.mem 0)
    (hrs : ∀ x ∈ rs, x.signature = VALID_SIGNATURE) :
    (∃ k, LogInv (save_all rs fl).mem k) ∧
      (∀ j, j < 4 → (save_all rs fl).mem (slot_addr 63 + 4 * j) = 0xFFFFFFFF) := by
  have hex : ∀ (l : List _parameter) (f : Flash) (k : Nat), LogInv f.mem k →
      (∀ x ∈ l, x.signature = VALID_SIGNATURE) → ∃ k2, LogInv (save_all l f).mem k2 := by
    intro l
    induction l with
    | nil => intro f k hf _; exact ⟨k, hf⟩
    | cons x xs ih =>
      intro f k hf hl
      obtain ⟨k2, hinv⟩ := save_inv f k x hf (hl x (List.mem_cons_self x xs))
      exact ih (parameter_save x f) k2 hinv (fun y hy => hl y (List.mem_cons_of_mem x hy))
  obtain ⟨k, hk⟩ := hex rs fl 0 h0 hrs
  exact ⟨⟨k, hk⟩, fun j hj => hk.2.2 63 (by omega) hk.1 j hj⟩

theorem C7_log_invariant_witness :
    LogInv erased_flash.mem 0 ∧
      (∀ x ∈ fill_records ++ [default_parameter, default_parameter],
        x.signature = VALID_SIGNATURE) ∧
      ((∃ k, LogInv
          (save_all (fill_records ++ [default_parameter, default_parameter]) erased_flash).mem
            k) ∧
        (∀ j, j < 4 →
          (save_all (fill_records ++ [default_parameter, default_parameter])
            erased_flash).mem (slot_addr 63 + 4 * j) = 0xFFFFFFFF)) :=
  ⟨erased_flash_inv, by decide,
    C7_log_invariant erased_flash (fill_records ++ [default_parameter, default_parameter])
      erased_flash_inv (by decide)⟩

/-! ## Lemmas on the menu engine -/

set_option maxRecDepth 512

theorem to_i16_of_range (x : Int) (h1 : -32768 ≤ x) (h2 : x < 32768) : to_i16 x = x := by
  unfold to_i16; omega

theorem to_u32_of_range (x : Int) (h1 : 0 ≤ x) (h2 : x < 4294967296) : (to_u32 x : Int) = x := by
  unfold to_u32; omega

/-- The handlers of the table leave the indices, the flash and the list of saved
records alone, and either keep the level or return to the root level. -/
theorem on_key_frame (env : Env) (encoder : Int) (s : Hmi) (m : Int) (h0 : 0 ≤ m) (h6 : m ≤ 6) :
    ((menu_entry m).on_key env encoder s).main_menu = s.main_menu ∧
      ((menu_entry m).on_key env encoder s).sub_menu = s.sub_menu ∧
      (((menu_entry m).on_key env encoder s).menu_level = s.menu_level ∨
        ((menu_entry m).on_key env encoder s).menu_level = MENU_LEVEL_ROOT) ∧
      ((menu_entry m).on_key env encoder s).flash = s.flash ∧
      ((menu_entry m).on_key env encoder s).saved = s.saved := by
  interval_cases m <;> simp only [menu_entry, hmi_menu] <;>
    simp only [Int.toNat_ofNat, List.getD_cons_zero, List.getD_cons_succ, le_refl, if_true,
      Int.toNat_zero, Int.toNat_one, Nat.ofNat_nonneg, Int.reduceToNat, Int.reduceLE] <;>
    (first
      | unfold on_key_set_volt
      | unfold on_key_set_code
      | unfold on_key_cal_reference
      | unfold on_key_show_temperature
      | unfold on_key_set_contrast
      | unfold on_key_powerup_count
      | unfold on_key_show_version) <;>
    (try dsimp only) <;>
    split_ifs <;>
    first
      | exact ⟨rfl, rfl, Or.inl rfl, rfl, rfl⟩
      | exact ⟨rfl, rfl, Or.inr rfl, rfl, rfl⟩

/-- The refresh handlers of the table leave the menu variables, the flash and
the list of saved records alone. -/
theorem on_refresh_frame (sample : Option ℚ) (s : Hmi) (m : Int) (h0 : 0 ≤ m) (h6 : m ≤ 6) :
    ((menu_entry m).on_refresh sample s).main_menu = s.main_menu ∧
      ((menu_entry m).on_refresh sample s).sub_menu = s.sub_menu ∧
      ((menu_entry m).on_refresh sample s).menu_level = s.menu_level ∧
      ((menu_entry m).on_refresh sample s).flash = s.flash ∧
      ((menu_entry m).on_refresh sample s).saved = s.saved := by
  interval_cases m <;> simp only [menu_entry, hmi_menu] <;>
    simp [on_refresh_print, on_refresh_cal_reference, on_refresh_show_temperature] <;>
    first
      | (split_ifs <;> simp)
      | (cases sample <;> simp)

/-- The fields of the table entries. -/
theorem menu_entry_fields (m : Int) (h0 : 0 ≤ m) (h6 : m ≤ 6) :
    (m = 0 ∧ (menu_entry m).cursor_start = 2 ∧ (menu_entry m).menu_count = 7) ∨
      (m = 1 ∧ (menu_entry m).cursor_start = 3 ∧ (menu_entry m).menu_count = 5) ∨
      (m = 2 ∧ (menu_entry m).cursor_start = 2 ∧ (menu_entry m).menu_count = 7) ∨
      (m = 3 ∧ (menu_entry m).cursor_start = 0xff ∧ (menu_entry m).menu_count = 0xff) ∨
      (m = 4 ∧ (menu_entry m).cursor_start = 5 ∧ (menu_entry m).menu_count = 1) ∨
      (m = 5 ∧ (menu_entry m).cursor_start = 0xff ∧ (menu_entry m).menu_count = 0xff) ∨
      (m = 6 ∧ (menu_entry m).cursor_start = 2 ∧ (menu_entry m).menu_count = 2) := by
  interval_cases m <;> simp [menu_entry, hmi_menu]

theorem main_menu_count : MAIN_MENU_COUNT = 7 := rfl

/-- The adjustment of the indices by the encoder keeps the invariant. -/
theorem navigate_encoder_inv (encoder : Int) (s : Hmi) (h : menu_inv s)
    (he1 : -128 ≤ encoder) (he2 : encoder ≤ 127) : menu_inv (navigate_encoder encoder s) := by
  unfold menu_inv at h ⊢
  unfold navigate_encoder
  simp only [MENU_LEVEL_ROOT, MENU_LEVEL_SHOW_MENU, MENU_LEVEL_SHOW_VALUE, MENU_LEVEL_ADJ_VALUE,
    main_menu_count] at h ⊢
  obtain ⟨l0, l3, m0, m6, s0, s6, hsub⟩ := h
  have e1 : to_i16 (s.main_menu + encoder) = s.main_menu + encoder :=
    to_i16_of_range _ (by omega) (by omega)
  have e2 : to_i16 (s.sub_menu + encoder) = s.sub_menu + encoder :=
    to_i16_of_range _ (by omega) (by omega)
  have e3 : to_i16 (s.menu_level + 1) = s.menu_level + 1 :=
    to_i16_of_range _ (by omega) (by omega)
  have e4 : to_i16 (s.menu_level - 1) = s.menu_level - 1 :=
    to_i16_of_range _ (by omega) (by omega)
  have hf := menu_entry_fields s.main_menu m0 m6
  have hc : (menu_entry s.main_menu).cursor_start ≠ 255 →
      (1 ≤ (menu_entry s.main_menu).menu_count ∧ (menu_entry s.main_menu).menu_count ≤ 7) := by
    rcases hf with h | h | h | h | h | h | h <;> omega
  rw [e1, e2, e3, e4]
  by_cases hroot : s.menu_level = 0
  · rw [if_pos hroot]
    by_cases hpos : encoder > 0
    · rw [if_pos hpos]
      refine ⟨?_, ?_, ?_, ?_, ?_, ?_, ?_⟩ <;> dsimp only <;> omega
    · rw [if_neg hpos]; exact ⟨l0, l3, m0, m6, s0, s6, hsub⟩
  · rw [if_neg hroot]
    by_cases hmenu : s.menu_level = 1
    · rw [if_pos hmenu]
      by_cases hneg : s.main_menu + encoder < 0
      · rw [if_pos hneg]
        refine ⟨?_, ?_, ?_, ?_, ?_, ?_, ?_⟩ <;> dsimp only <;> omega
      · rw [if_neg hneg]
        have e5 := to_u32_of_range (s.main_menu + encoder) (by omega) (by omega)
        by_cases hbig : to_u32 (s.main_menu + encoder) ≥ 7
        · rw [if_pos hbig]
          refine ⟨?_, ?_, ?_, ?_, ?_, ?_, ?_⟩ <;> dsimp only <;> omega
        · rw [if_neg hbig]
          refine ⟨?_, ?_, ?_, ?_, ?_, ?_, ?_⟩ <;> dsimp only <;> omega
    · rw [if_neg hmenu]
      by_cases hval : s.menu_level = 2
      · rw [if_pos hval]
        by_cases hcur : (menu_entry s.main_menu).cursor_start = 255
        · rw [if_pos hcur]; exact ⟨l0, l3, m0, m6, s0, s6, hsub⟩
        · rw [if_neg hcur]
          have hc2 := hc hcur
          by_cases hneg : s.sub_menu + encoder < 0
          · rw [if_pos hneg]
            refine ⟨?_, ?_, ?_, ?_, ?_, ?_, ?_⟩ <;> dsimp only <;> omega
          · rw [if_neg hneg]
            by_cases hbig : s.sub_menu + encoder ≥ ((menu_entry s.main_menu).menu_count : Int)
            · rw [if_pos hbig]
              refine ⟨?_, ?_, ?_, ?_, ?_, ?_, ?_⟩ <;> dsimp only <;> omega
            · rw [if_neg hbig]
              refine ⟨?_, ?_, ?_, ?_, ?_, ?_, ?_⟩ <;> dsimp only <;> omega
      · rw [if_neg hval]; exact ⟨l0, l3, m0, m6, s0, s6, hsub⟩

/-- The invariant only looks at the level and the two indices. -/
theorem menu_inv_congr (s t : Hmi) (h : menu_inv s) (h1 : t.menu_level = s.menu_level)
    (h2 : t.main_menu = s.main_menu) (h3 : t.sub_menu = s.sub_menu) : menu_inv t := by
  unfold menu_inv at h ⊢
  rw [h1, h2, h3]; exact h

theorem navigate_activity_frame (encoder : Int) (key : Nat) (s : Hmi) :
    (navigate_activity encoder key s).menu_level = s.menu_level ∧
      (navigate_activity encoder key s).main_menu = s.main_menu ∧
      (navigate_activity encoder key s).sub_menu = s.sub_menu ∧
      (navigate_activity encoder key s).flash = s.flash ∧
      (navigate_activity encoder key s).saved = s.saved := by
  unfold navigate_activity
  split_ifs <;> exact ⟨rfl, rfl, rfl, rfl, rfl⟩

theorem navigate_auto_refresh_frame (s : Hmi) :
    (navigate_auto_refresh s).menu_level = s.menu_level ∧
      (navigate_auto_refresh s).main_menu = s.main_menu ∧
      (navigate_auto_refresh s).sub_menu = s.sub_menu ∧
      (navigate_auto_refresh s).flash = s.flash ∧
      (navigate_auto_refresh s).saved = s.saved := by
  unfold navigate_auto_refresh
  dsimp only
  split_ifs <;> exact ⟨rfl, rfl, rfl, rfl, rfl⟩

/-- The handling of an input keeps the invariant. -/
theorem navigate_input_inv (env : Env) (encoder : Int) (key : Nat) (s : Hmi) (h : menu_inv s)
    (he1 : -128 ≤ encoder) (he2 : encoder ≤ 127) :
    menu_inv (navigate_input env encoder key s) := by
  unfold navigate_input
  by_cases hok : key = env.KEY_OK
  · rw [if_pos hok]
    unfold menu_inv at h ⊢
    simp only [MENU_LEVEL_ROOT, MENU_LEVEL_SHOW_MENU, MENU_LEVEL_SHOW_VALUE,
      MENU_LEVEL_ADJ_VALUE] at h ⊢
    obtain ⟨l0, l3, m0, m6, s0, s6, hsub⟩ := h
    have hf := menu_entry_fields s.main_menu m0 m6
    have hc : (menu_entry s.main_menu).cursor_start ≠ 255 →
        (1 ≤ (menu_entry s.main_menu).menu_count) := by
      rcases hf with h | h | h | h | h | h | h <;> omega
    by_cases hadj : s.menu_level = 3
    · rw [if_pos hadj]
      refine ⟨?_, ?_, ?_, ?_, ?_, ?_, ?_⟩
      all_goals dsimp only
      all_goals (try omega)
    · rw [if_neg hadj]
      have e3 : to_i16 (s.menu_level + 1) = s.menu_level + 1 :=
        to_i16_of_range _ (by omega) (by omega)
      by_cases hmenu : s.menu_level = 1
      · simp only [if_pos hmenu]
        refine ⟨?_, ?_, ?_, ?_, ?_, ?_, ?_⟩
        all_goals dsimp only
        all_goals (try rw [e3])
        all_goals (try omega)
      · simp only [if_neg hmenu]
        refine ⟨?_, ?_, ?_, ?_, ?_, ?_, ?_⟩
        all_goals dsimp only
        all_goals (try rw [e3])
        all_goals (try omega)
  · rw [if_neg hok]
    by_cases hlong : key = (env.KEY_OK ||| env.KEY_PRESS_L)
    · rw [if_pos hlong]
      unfold menu_inv at h ⊢
      simp only [MENU_LEVEL_ROOT, MENU_LEVEL_SHOW_MENU, MENU_LEVEL_SHOW_VALUE,
        MENU_LEVEL_ADJ_VALUE] at h ⊢
      obtain ⟨l0, l3, m0, m6, s0, s6, hsub⟩ := h
      split_ifs <;> refine ⟨?_, ?_, ?_, ?_, ?_, ?_, ?_⟩ <;> dsimp only <;> omega
    · rw [if_neg hlong]
      by_cases henc : encoder ≠ 0
      · rw [if_pos henc]
        dsimp only
        have h1 := navigate_encoder_inv encoder s h he1 he2
        have hfr := on_key_frame env encoder (navigate_encoder encoder s)
          (navigate_encoder encoder s).main_menu h1.2.2.1 h1.2.2.2.1
        obtain ⟨f1, f2, f3, _, _⟩ := hfr
        rcases f3 with f3 | f3
        · exact menu_inv_congr _ _ h1 f3 f1 f2
        · unfold menu_inv at h1 ⊢
          simp only [MENU_LEVEL_ROOT, MENU_LEVEL_SHOW_MENU, MENU_LEVEL_SHOW_VALUE,
            MENU_LEVEL_ADJ_VALUE] at h1 f3 ⊢
          rw [f1, f2, f3]
          obtain ⟨l0, l3, m0, m6, s0, s6, hsub⟩ := h1
          refine ⟨?_, ?_, ?_, ?_, ?_, ?_, ?_⟩ <;> omega
      · rw [if_neg henc]; exact h

theorem menu_navigate_inv (env : Env) (encoder : Int) (key : Nat) (s : Hmi) (h : menu_inv s)
    (he1 : -128 ≤ encoder) (he2 : encoder ≤ 127) :
    menu_inv (menu_navigate env encoder key s) := by
  unfold menu_navigate
  obtain ⟨a1, a2, a3, _, _⟩ := navigate_activity_frame encoder key s
  have h1 := menu_inv_congr s _ h a1 a2 a3
  have h2 := navigate_input_inv env encoder key _ h1 he1 he2
  obtain ⟨b1, b2, b3, _, _⟩ := navigate_auto_refresh_frame
    (navigate_input env encoder key (navigate_activity encoder key s))
  exact menu_inv_congr _ _ h2 b1 b2 b3

theorem hmi_timer_inv (s : Hmi) (h : menu_inv s) : menu_inv (hmi_timer s) := by
  unfold hmi_timer
  unfold menu_inv at h ⊢
  simp only [MENU_LEVEL_ROOT, MENU_LEVEL_SHOW_MENU, MENU_LEVEL_SHOW_VALUE,
    MENU_LEVEL_ADJ_VALUE] at h ⊢
  obtain ⟨l0, l3, m0, m6, s0, s6, hsub⟩ := h
  split_ifs <;> first
    | exact ⟨l0, l3, m0, m6, s0, s6, hsub⟩
    | (refine ⟨?_, ?_, ?_, ?_, ?_, ?_, ?_⟩ <;> dsimp only <;> omega)

theorem menu_refresh_inv (sample : Option ℚ) (s : Hmi) (h : menu_inv s) :
    menu_inv (menu_refresh sample s) := by
  unfold menu_refresh
  by_cases hr : ¬ s.b_refresh_menu
  · rw [if_pos hr]; exact h
  · rw [if_neg hr]
    dsimp only
    by_cases hroot : s.menu_level = MENU_LEVEL_ROOT
    · rw [if_pos hroot]
      exact menu_inv_congr s _ h rfl rfl rfl
    · rw [if_neg hroot]
      obtain ⟨f1, f2, f3, _, _⟩ := on_refresh_frame sample
        { s with b_refresh_menu := false } s.main_menu h.2.2.1 h.2.2.2.1
      exact menu_inv_congr s _ h f3 f1 f2

theorem step_inv (env : Env) (s : Hmi) (ev : Event) (h : menu_inv s) (hw : ev.wf) :
    menu_inv (step env s ev) := by
  cases ev with
  | navigate encoder key => exact menu_navigate_inv env encoder key s h hw.1 hw.2.1
  | tick => exact hmi_timer_inv s h
  | refresh sample => exact menu_refresh_inv sample s h
  | disp_update volt => exact menu_inv_congr s _ h rfl rfl rfl

theorem run_inv (env : Env) (evs : List Event) : ∀ (s : Hmi), menu_inv s →
    (∀ ev ∈ evs, ev.wf) → menu_inv (run env s evs) := by
  induction evs with
  | nil => intro s h _; exact h
  | cons ev evs ih =>
    intro s h hw
    exact ih (step env s ev) (step_inv env s ev h (hw ev (List.mem_cons_self ev evs)))
      (fun e he => hw e (List.mem_cons_of_mem ev he))

theorem menu_initial_inv (s : Hmi) (h : menu_initial s) : menu_inv s := by
  obtain ⟨h1, h2, h3, _⟩ := h
  unfold menu_inv
  rw [h1, h2, h3]
  refine ⟨by omega, by omega, by omega, by omega, by omega, by omega, ?_⟩
  intro hl
  simp [MENU_LEVEL_SHOW_VALUE, MENU_LEVEL_ADJ_VALUE] at hl

/-! ## The menu engine: stated properties -/

/-- C8: starting from the initial menu state, after any sequence of calls of
`menu_navigate` (encoder delta in -128..127, any key code) interleaved with any
number of ticks of `hmi_timer` (and with redraws and display updates), the menu
level is one of the four levels 0..3 and the main index lies in
`[0, MAIN_MENU_COUNT - 1] = [0, 6]`. -/
theorem C8_main_index_in_range (env : Env) (s : Hmi) (evs : List Event)
    (h0 : menu_initial s) (hw : ∀ ev ∈ evs, ev.wf) :
    0 ≤ (run env s evs).menu_level ∧ (run env s evs).menu_level ≤ 3 ∧
      0 ≤ (run env s evs).main_menu ∧
      (run env s evs).main_menu ≤ (MAIN_MENU_COUNT : Int) - 1 ∧ (MAIN_MENU_COUNT : Int) - 1 = 6 := by
  have h := run_inv env evs s (menu_initial_inv s h0) hw
  exact ⟨h.1, h.2.1, h.2.2.1, h.2.2.2.1, rfl⟩

theorem C8_main_index_in_range_witness :
    menu_initial hmi_initial ∧
      (∀ ev ∈ [Event.navigate 1 0, Event.navigate 127 0, Event.tick, Event.navigate (-128) 1],
        ev.wf) ∧
      (0 ≤ (run sample_env hmi_initial
          [Event.navigate 1 0, Event.navigate 127 0, Event.tick,
            Event.navigate (-128) 1]).menu_level ∧
        (run sample_env hmi_initial
          [Event.navigate 1 0, Event.navigate 127 0, Event.tick,
            Event.navigate (-128) 1]).menu_level ≤ 3 ∧
        0 ≤ (run sample_env hmi_initial
          [Event.navigate 1 0, Event.navigate 127 0, Event.tick,
            Event.navigate (-128) 1]).main_menu ∧
        (run sample_env hmi_initial
          [Event.navigate 1 0, Event.navigate 127 0, Event.tick,
            Event.navigate (-128) 1]).main_menu ≤ (MAIN_MENU_COUNT : Int) - 1 ∧
        (MAIN_MENU_COUNT : Int) - 1 = 6) :=
  ⟨by decide, by decide,
    C8_main_index_in_range sample_env hmi_initial
      [Event.navigate 1 0, Event.navigate 127 0, Event.tick, Event.navigate (-128) 1]
      (by decide) (by decide)⟩

/-- C9, as stated, fails at the level MENU_SELECT: after moving the cursor of the
voltage item to its last field (sub index 6), committing with a long press,
re-entering the menu with a short press and turning to the code item, the active
item is adjustable with 5 fields while the sub index is still 6. -/
theorem C9_counterexample_stale_cursor :
    menu_initial hmi_initial ∧ (∀ ev ∈ stale_cursor_events, ev.wf) ∧
      (run sample_env hmi_initial stale_cursor_events).menu_level = MENU_LEVEL_SHOW_MENU ∧
      (run sample_env hmi_initial stale_cursor_events).main_menu = 1 ∧
      (menu_entry (run sample_env hmi_initial stale_cursor_events).main_menu).cursor_start
        ≠ 0xff ∧
      (menu_entry (run sample_env hmi_initial stale_cursor_events).main_menu).menu_count = 5 ∧
      (run sample_env hmi_initial stale_cursor_events).sub_menu = 6 ∧
      ¬ ((run sample_env hmi_initial stale_cursor_events).sub_menu ≤
        ((menu_entry (run sample_env hmi_initial stale_cursor_events).main_menu).menu_count
          : Int) - 1) := by
  decide

/-- C9 (amended): starting from the initial menu state, after any sequence of
encoder deltas, key events and ticks, whenever the level is VALUE_VIEW or
VALUE_EDIT and the active item has adjustable sub-values (`cursor_start` is not
0xff), the sub index lies within `[0, menu_count - 1]` of that item; at the
other levels the sub index is only kept within `[0, 6]`. -/
theorem C9_sub_index_in_range (env : Env) (s : Hmi) (evs : List Event)
    (h0 : menu_initial s) (hw : ∀ ev ∈ evs, ev.wf) :
    (0 ≤ (run env s evs).sub_menu ∧ (run env s evs).sub_menu ≤ 6) ∧
      (((run env s evs).menu_level = MENU_LEVEL_SHOW_VALUE ∨
          (run env s evs).menu_level = MENU_LEVEL_ADJ_VALUE) →
        (menu_entry (run env s evs).main_menu).cursor_start ≠ 0xff →
        0 ≤ (run env s evs).sub_menu ∧
          (run env s evs).sub_menu ≤
            ((menu_entry (run env s evs).main_menu).menu_count : Int) - 1) := by
  have h := run_inv env evs s (menu_initial_inv s h0) hw
  obtain ⟨_, _, _, _, s0, s6, hsub⟩ := h
  refine ⟨⟨s0, s6⟩, ?_⟩
  intro hl hcur
  have := hsub hl hcur
  exact ⟨s0, by omega⟩

theorem C9_sub_index_in_range_witness :
    menu_initial hmi_initial ∧ (∀ ev ∈ stale_cursor_events, ev.wf) ∧
      ((0 ≤ (run sample_env hmi_initial stale_cursor_events).sub_menu ∧
          (run sample_env hmi_initial stale_cursor_events).sub_menu ≤ 6) ∧
        (((run sample_env hmi_initial stale_cursor_events).menu_level = MENU_LEVEL_SHOW_VALUE ∨
            (run sample_env hmi_initial stale_cursor_events).menu_level =
              MENU_LEVEL_ADJ_VALUE) →
          (menu_entry (run sample_env hmi_initial stale_cursor_events).main_menu).cursor_start
            ≠ 0xff →
          0 ≤ (run sample_env hmi_initial stale_cursor_events).sub_menu ∧
            (run sample_env hmi_initial stale_cursor_events).sub_menu ≤
              ((menu_entry (run sample_env hmi_initial stale_cursor_events).main_menu).menu_count
                : Int) - 1)) :=
  ⟨by decide, by decide,
    C9_sub_index_in_range sample_env hmi_initial stale_cursor_events (by decide) (by decide)⟩

/-- The value of the macro `HW_INFO`: the three bytes side by side above a zero
low byte. -/
theorem HW_INFO_value (c : Int) (hw sw : Nat) :
    HW_INFO c hw sw =
      (c % 256).toNat * 2 ^ 24 + (hw % 256) * 2 ^ 16 + (sw % 256) * 2 ^ 8 := by
  unfold HW_INFO
  have ha : (c % 256).toNat < 256 := by omega
  have hb : hw &&& 0xff = hw % 256 := Nat.and_pow_two_sub_one_eq_mod hw 8
  have hd : sw &&& 0xff = sw % 256 := Nat.and_pow_two_sub_one_eq_mod sw 8
  have hz : (0 : Nat) &&& 0xff = 0 := by decide
  rw [hb, hd, hz, Nat.or_zero]
  generalize (c % 256).toNat = a at ha ⊢
  have hb2 : hw % 256 < 256 := Nat.mod_lt _ (by omega)
  have hd2 : sw % 256 < 256 := Nat.mod_lt _ (by omega)
  generalize hw % 256 = b at hb2 ⊢
  generalize sw % 256 = d at hd2 ⊢
  simp only [Nat.shiftLeft_eq]
  have e1 : a * 2 ^ 24 ||| b * 2 ^ 16 = a * 2 ^ 24 + b * 2 ^ 16 := by
    have := Nat.mul_add_lt_is_or (i := 24) (b := b * 2 ^ 16) (by omega) a
    rw [Nat.mul_comm a (2 ^ 24)]
    exact this.symm
  rw [e1]
  have e2 : (a * 2 ^ 24 + b * 2 ^ 16) ||| d * 2 ^ 8 = a * 2 ^ 24 + b * 2 ^ 16 + d * 2 ^ 8 := by
    have := Nat.mul_add_lt_is_or (i := 16) (b := d * 2 ^ 8) (by omega) (a * 2 ^ 8 + b)
    have e3 : 2 ^ 16 * (a * 2 ^ 8 + b) = a * 2 ^ 24 + b * 2 ^ 16 := by ring
    rw [e3] at this
    exact this.symm
  rw [e2]

/-- C10: a long press (`KEY_OK|KEY_PRESS_L`, a code different from `KEY_OK`)
leaves the level at ROOT whatever the state and the encoder delta; from
VALUE_VIEW or VALUE_EDIT it calls `parameter_save` exactly once, with the record
made of the signature, the hardware information
`contrast<<24 | hw_version<<16 | sw_version<<8` (low byte 0), the current
power-up count and the current reference voltage minus 10; from any other level
it does not call `parameter_save`. -/
theorem C10_long_press_commit (env : Env) (s : Hmi) (encoder : Int)
    (hk : env.KEY_OK ||| env.KEY_PRESS_L ≠ env.KEY_OK) :
    (menu_navigate env encoder (env.KEY_OK ||| env.KEY_PRESS_L) s).menu_level =
        MENU_LEVEL_ROOT ∧
      ((s.menu_level = MENU_LEVEL_SHOW_VALUE ∨ s.menu_level = MENU_LEVEL_ADJ_VALUE) →
        (menu_navigate env encoder (env.KEY_OK ||| env.KEY_PRESS_L) s).saved =
            s.saved ++ [{ signature := VALID_SIGNATURE
                          refer_voltage := env.float_bits (s.volt_vref - 10)
                          hw_info := HW_INFO s.disp_contrast s.hw_version s.sw_version
                          power_up_count := s.power_up_count }] ∧
          (menu_navigate env encoder (env.KEY_OK ||| env.KEY_PRESS_L) s).flash =
            parameter_save { signature := VALID_SIGNATURE
                             refer_voltage := env.float_bits (s.volt_vref - 10)
                             hw_info := HW_INFO s.disp_contrast s.hw_version s.sw_version
                             power_up_count := s.power_up_count } s.flash) ∧
      (¬ (s.menu_level = MENU_LEVEL_SHOW_VALUE ∨ s.menu_level = MENU_LEVEL_ADJ_VALUE) →
        (menu_navigate env encoder (env.KEY_OK ||| env.KEY_PRESS_L) s).saved = s.saved ∧
          (menu_navigate env encoder (env.KEY_OK ||| env.KEY_PRESS_L) s).flash = s.flash) ∧
      HW_INFO s.disp_contrast s.hw_version s.sw_version =
        (s.disp_contrast % 256).toNat * 2 ^ 24 + (s.hw_version % 256) * 2 ^ 16 +
          (s.sw_version % 256) * 2 ^ 8 := by
  obtain ⟨a1, _, _, a4, a5⟩ :=
    navigate_activity_frame encoder (env.KEY_OK ||| env.KEY_PRESS_L) s
  obtain ⟨b1, _, _, b4, b5⟩ := navigate_auto_refresh_frame
    (navigate_input env encoder (env.KEY_OK ||| env.KEY_PRESS_L)
      (navigate_activity encoder (env.KEY_OK ||| env.KEY_PRESS_L) s))
  have hrec : commit_record env (navigate_activity encoder (env.KEY_OK ||| env.KEY_PRESS_L) s) =
      { signature := VALID_SIGNATURE
        refer_voltage := env.float_bits (s.volt_vref - 10)
        hw_info := HW_INFO s.disp_contrast s.hw_version s.sw_version
        power_up_count := s.power_up_count } := by
    unfold navigate_activity commit_record
    split_ifs <;> rfl
  unfold menu_navigate
  rw [b1, b4, b5]
  unfold navigate_input
  rw [if_neg hk, if_pos rfl]
  dsimp only
  rw [a1, a4, a5, hrec]
  refine ⟨rfl, ?_, ?_, HW_INFO_value _ _ _⟩
  · intro hl
    rw [if_pos hl]
    exact ⟨rfl, rfl⟩
  · intro hl
    rw [if_neg hl]
    exact ⟨a5, a4⟩

theorem C10_long_press_commit_witness :
    sample_env.KEY_OK ||| sample_env.KEY_PRESS_L ≠ sample_env.KEY_OK ∧
      ((menu_navigate sample_env 0 (sample_env.KEY_OK ||| sample_env.KEY_PRESS_L)
          { hmi_initial with menu_level := MENU_LEVEL_ADJ_VALUE }).menu_level =
          MENU_LEVEL_ROOT ∧
        (menu_navigate sample_env 0 (sample_env.KEY_OK ||| sample_env.KEY_PRESS_L)
          { hmi_initial with menu_level := MENU_LEVEL_ADJ_VALUE }).saved =
          [{ signature := VALID_SIGNATURE, refer_voltage := 0, hw_info := 0x5A0B1000,
             power_up_count := 0 }]) :=
  have h := C10_long_press_commit sample_env
    { hmi_initial with menu_level := MENU_LEVEL_ADJ_VALUE } 0 (by decide)
  ⟨by decide, h.1, (h.2.1 (Or.inr rfl)).1⟩

/-! ## The menu engine: key presses and the idle timeout -/

theorem same_instrument_refl (s : Hmi) : same_instrument s s :=
  ⟨rfl, rfl, rfl, rfl, rfl, rfl, rfl, rfl, rfl, rfl, rfl, rfl⟩

theorem same_instrument_trans (s t u : Hmi) (h1 : same_instrument s t)
    (h2 : same_instrument t u) : same_instrument s u := by
  unfold same_instrument at *
  obtain ⟨a1, a2, a3, a4, a5, a6, a7, a8, a9, a10, a11, a12⟩ := h1
  obtain ⟨b1, b2, b3, b4, b5, b6, b7, b8, b9, b10, b11, b12⟩ := h2
  exact ⟨b1.trans a1, b2.trans a2, b3.trans a3, b4.trans a4, b5.trans a5, b6.trans a6,
    b7.trans a7, b8.trans a8, b9.trans a9, b10.trans a10, b11.trans a11, b12.trans a12⟩

theorem navigate_activity_instrument (encoder : Int) (key : Nat) (s : Hmi) :
    same_instrument s (navigate_activity encoder key s) := by
  unfold navigate_activity
  split_ifs <;> exact same_instrument_refl s

theorem navigate_auto_refresh_instrument (s : Hmi) :
    same_instrument s (navigate_auto_refresh s) := by
  unfold navigate_auto_refresh
  dsimp only
  split_ifs <;> exact same_instrument_refl s

/-- The level after a short press. -/
theorem short_press_menu_level (env : Env) (s : Hmi) (encoder : Int) :
    (menu_navigate env encoder env.KEY_OK s).menu_level =
      if s.menu_level = MENU_LEVEL_ADJ_VALUE then MENU_LEVEL_SHOW_VALUE
      else to_i16 (s.menu_level + 1) := by
  unfold menu_navigate
  obtain ⟨a1, _, _, _, _⟩ := navigate_activity_frame encoder env.KEY_OK s
  obtain ⟨b1, _, _, _, _⟩ := navigate_auto_refresh_frame
    (navigate_input env encoder env.KEY_OK (navigate_activity encoder env.KEY_OK s))
  generalize navigate_activity encoder env.KEY_OK s = t at a1 b1 ⊢
  rw [b1, ← a1]
  unfold navigate_input
  rw [if_pos rfl]
  dsimp only
  split_ifs <;> rfl

/-- A short press leaves the main index and the instrument values alone. -/
theorem short_press_frame (env : Env) (s : Hmi) (encoder : Int) :
    (menu_navigate env encoder env.KEY_OK s).main_menu = s.main_menu ∧
      same_instrument s (menu_navigate env encoder env.KEY_OK s) := by
  unfold menu_navigate
  obtain ⟨_, a2, _, _, _⟩ := navigate_activity_frame encoder env.KEY_OK s
  have a3 := navigate_activity_instrument encoder env.KEY_OK s
  obtain ⟨_, b2, _, _, _⟩ := navigate_auto_refresh_frame
    (navigate_input env encoder env.KEY_OK (navigate_activity encoder env.KEY_OK s))
  have b3 := navigate_auto_refresh_instrument
    (navigate_input env encoder env.KEY_OK (navigate_activity encoder env.KEY_OK s))
  generalize navigate_activity encoder env.KEY_OK s = t at a2 a3 b2 b3 ⊢
  rw [b2, ← a2]
  refine ⟨?_, same_instrument_trans _ _ _ a3 (same_instrument_trans _ _ _ ?_ b3)⟩
  all_goals
    unfold navigate_input
    rw [if_pos rfl]
    dsimp only
  · split_ifs <;> rfl
  · split_ifs <;> exact same_instrument_refl t

/-- C11: a short press (`KEY_OK`), whatever the state and whatever encoder delta
comes with it, takes the level from ROOT to MENU_SELECT, from MENU_SELECT to
VALUE_VIEW, from VALUE_VIEW to VALUE_EDIT and from VALUE_EDIT back to
VALUE_VIEW; the main index and every instrument value stay as they were. -/
theorem C11_short_press (env : Env) (s : Hmi) (encoder : Int) :
    (s.menu_level = MENU_LEVEL_ROOT →
        (menu_navigate env encoder env.KEY_OK s).menu_level = MENU_LEVEL_SHOW_MENU) ∧
      (s.menu_level = MENU_LEVEL_SHOW_MENU →
        (menu_navigate env encoder env.KEY_OK s).menu_level = MENU_LEVEL_SHOW_VALUE) ∧
      (s.menu_level = MENU_LEVEL_SHOW_VALUE →
        (menu_navigate env encoder env.KEY_OK s).menu_level = MENU_LEVEL_ADJ_VALUE) ∧
      (s.menu_level = MENU_LEVEL_ADJ_VALUE →
        (menu_navigate env encoder env.KEY_OK s).menu_level = MENU_LEVEL_SHOW_VALUE) ∧
      (menu_navigate env encoder env.KEY_OK s).main_menu = s.main_menu ∧
      same_instrument s (menu_navigate env encoder env.KEY_OK s) := by
  have hl := short_press_menu_level env s encoder
  obtain ⟨hm, hi⟩ := short_press_frame env s encoder
  refine ⟨?_, ?_, ?_, ?_, hm, hi⟩
  · intro h; rw [hl, h]; decide
  · intro h; rw [hl, h]; decide
  · intro h; rw [hl, h]; decide
  · intro h; rw [hl, h]; decide

theorem C11_short_press_witness :
    (menu_navigate sample_env 5 sample_env.KEY_OK hmi_initial).menu_level =
        MENU_LEVEL_SHOW_MENU ∧
      (menu_navigate sample_env 5 sample_env.KEY_OK hmi_initial).main_menu =
        hmi_initial.main_menu ∧
      same_instrument hmi_initial (menu_navigate sample_env 5 sample_env.KEY_OK hmi_initial) :=
  ⟨(C11_short_press sample_env hmi_initial 5).1 rfl,
    (C11_short_press sample_env hmi_initial 5).2.2.2.2.1,
    (C11_short_press sample_env hmi_initial 5).2.2.2.2.2⟩

/-- The sub index after a short press: reset at the level MENU_SELECT, kept at
every other level. -/
theorem short_press_sub_menu (env : Env) (s : Hmi) (encoder : Int) :
    (menu_navigate env encoder env.KEY_OK s).sub_menu =
      if s.menu_level = MENU_LEVEL_SHOW_MENU then 0 else s.sub_menu := by
  unfold menu_navigate
  obtain ⟨a1, _, a3, _, _⟩ := navigate_activity_frame encoder env.KEY_OK s
  obtain ⟨_, _, b3, _, _⟩ := navigate_auto_refresh_frame
    (navigate_input env encoder env.KEY_OK (navigate_activity encoder env.KEY_OK s))
  generalize navigate_activity encoder env.KEY_OK s = t at a1 a3 b3 ⊢
  rw [b3, ← a1, ← a3]
  unfold navigate_input
  rw [if_pos rfl]
  simp only [MENU_LEVEL_SHOW_MENU, MENU_LEVEL_ADJ_VALUE]
  split_ifs <;> first | rfl | omega

/-- C12, as stated, fails: after the cursor of the voltage item was moved to its
last field and the value committed with a long press, the level is ROOT with
sub index 6, and a short press enters MENU_SELECT with the sub index still 6. -/
theorem C12_counterexample_sub_index_kept :
    (∀ ev ∈ root_stale_events, ev.wf) ∧
      (run sample_env hmi_initial root_stale_events).menu_level = MENU_LEVEL_ROOT ∧
      (run sample_env hmi_initial root_stale_events).sub_menu = 6 ∧
      (menu_navigate sample_env 0 sample_env.KEY_OK
        (run sample_env hmi_initial root_stale_events)).menu_level = MENU_LEVEL_SHOW_MENU ∧
      (menu_navigate sample_env 0 sample_env.KEY_OK
        (run sample_env hmi_initial root_stale_events)).sub_menu = 6 ∧
      ¬ ((menu_navigate sample_env 0 sample_env.KEY_OK
        (run sample_env hmi_initial root_stale_events)).sub_menu = 0) := by
  decide

/-- C12 (amended): for every state at the level ROOT a short press enters
MENU_SELECT and leaves the sub index as it was; the sub index is reset to 0 by
the short press that enters VALUE_VIEW from MENU_SELECT. -/
theorem C12_short_press_sub_index (env : Env) (s : Hmi) (encoder : Int) :
    (s.menu_level = MENU_LEVEL_ROOT →
        (menu_navigate env encoder env.KEY_OK s).menu_level = MENU_LEVEL_SHOW_MENU ∧
          (menu_navigate env encoder env.KEY_OK s).sub_menu = s.sub_menu) ∧
      (s.menu_level = MENU_LEVEL_SHOW_MENU →
        (menu_navigate env encoder env.KEY_OK s).menu_level = MENU_LEVEL_SHOW_VALUE ∧
          (menu_navigate env encoder env.KEY_OK s).sub_menu = 0) := by
  have hsub := short_press_sub_menu env s encoder
  have hl := short_press_menu_level env s encoder
  constructor
  · intro h
    rw [hsub, hl, h]
    exact ⟨by decide, if_neg (by decide)⟩
  · intro h
    rw [hsub, hl, h]
    exact ⟨by decide, if_pos rfl⟩

theorem C12_short_press_sub_index_witness :
    (run sample_env hmi_initial root_stale_events).menu_level = MENU_LEVEL_ROOT ∧
      (menu_navigate sample_env 0 sample_env.KEY_OK
          (run sample_env hmi_initial root_stale_events)).menu_level = MENU_LEVEL_SHOW_MENU ∧
      (menu_navigate sample_env 0 sample_env.KEY_OK
          (run sample_env hmi_initial root_stale_events)).sub_menu =
        (run sample_env hmi_initial root_stale_events).sub_menu :=
  ⟨by decide,
    (C12_short_press_sub_index sample_env (run sample_env hmi_initial root_stale_events) 0).1
      (by decide)⟩

/-- Outside the table the model uses an entry whose handlers do nothing. -/
theorem menu_entry_outside (m : Int) (h : m < 0 ∨ 6 < m) (env : Env) (encoder : Int)
    (s : Hmi) : (menu_entry m).on_key env encoder s = s := by
  unfold menu_entry
  by_cases h0 : 0 ≤ m
  · rw [if_pos h0]
    have hlen : hmi_menu.length ≤ m.toNat := by
      have : hmi_menu.length = 7 := rfl
      omega
    rw [List.getD_eq_default _ _ hlen]
  · rw [if_neg h0]

/-- No handler of the table touches the exit timer. -/
theorem on_key_timer (env : Env) (encoder : Int) (s : Hmi) (m : Int) :
    ((menu_entry m).on_key env encoder s).menu_exit_timer = s.menu_exit_timer := by
  by_cases h : m < 0 ∨ 6 < m
  · rw [menu_entry_outside m h]
  · have h0 : 0 ≤ m := by omega
    have h6 : m ≤ 6 := by omega
    interval_cases m <;> simp only [menu_entry, hmi_menu] <;>
      simp only [Int.toNat_ofNat, List.getD_cons_zero, List.getD_cons_succ, le_refl, if_true,
        Int.toNat_zero, Int.toNat_one, Nat.ofNat_nonneg, Int.reduceToNat, Int.reduceLE] <;>
      (first
        | unfold on_key_set_volt
        | unfold on_key_set_code
        | unfold on_key_cal_reference
        | unfold on_key_show_temperature
        | unfold on_key_set_contrast
        | unfold on_key_powerup_count
        | unfold on_key_show_version) <;>
      (try dsimp only) <;>
      split_ifs <;> rfl

theorem navigate_encoder_timer (encoder : Int) (s : Hmi) :
    (navigate_encoder encoder s).menu_exit_timer = s.menu_exit_timer := by
  unfold navigate_encoder
  dsimp only
  split_ifs <;> rfl

/-- Any input activity leaves the exit timer at 0. -/
theorem menu_navigate_timer (env : Env) (encoder : Int) (key : Nat) (s : Hmi)
    (h : encoder ≠ 0 ∨ key ≠ 0) : (menu_navigate env encoder key s).menu_exit_timer = 0 := by
  have h1 : (navigate_activity encoder key s).menu_exit_timer = 0 := by
    unfold navigate_activity
    rw [if_pos h]
  have h2 : ∀ t : Hmi, (navigate_input env encoder key t).menu_exit_timer =
      t.menu_exit_timer := by
    intro t
    unfold navigate_input
    dsimp only
    split_ifs
    any_goals rfl
    rw [on_key_timer, navigate_encoder_timer]
  have h3 : ∀ t : Hmi, (navigate_auto_refresh t).menu_exit_timer = t.menu_exit_timer := by
    intro t
    unfold navigate_auto_refresh
    dsimp only
    split_ifs <;> rfl
  unfold menu_navigate
  rw [h3, h2, h1]

/-- A tick below the timeout only counts, and asks for a redraw when the
periodic refresh is on. -/
theorem hmi_timer_below (s : Hmi) (h : s.menu_exit_timer + 1 < 30) :
    (hmi_timer s).menu_exit_timer = s.menu_exit_timer + 1 ∧
      (hmi_timer s).menu_level = s.menu_level ∧ (hmi_timer s).main_menu = s.main_menu ∧
      (hmi_timer s).sub_menu = s.sub_menu := by
  have e : (s.menu_exit_timer + 1) % 65536 = s.menu_exit_timer + 1 := by omega
  have hne : ¬ (s.menu_exit_timer = 29) := by omega
  unfold hmi_timer
  cases hb : s.b_auto_refresh <;> simp [e, hne]

/-- The tick that reaches the timeout. -/
theorem hmi_timer_timeout (s : Hmi) (h : s.menu_exit_timer = 29) :
    (hmi_timer s).menu_exit_timer = 0 ∧
      (s.menu_level = MENU_LEVEL_SHOW_MENU →
        (hmi_timer s).menu_level = MENU_LEVEL_ROOT ∧ (hmi_timer s).main_menu = 0 ∧
          (hmi_timer s).sub_menu = 0 ∧ (hmi_timer s).b_refresh_menu = true) := by
  unfold hmi_timer
  dsimp only
  rw [h]
  split_ifs <;> simp_all

/-- Away from the level MENU_SELECT a tick changes neither the level nor the
indices. -/
theorem hmi_timer_other_level (s : Hmi) (h : s.menu_level ≠ MENU_LEVEL_SHOW_MENU) :
    (hmi_timer s).menu_level = s.menu_level ∧ (hmi_timer s).main_menu = s.main_menu ∧
      (hmi_timer s).sub_menu = s.sub_menu := by
  unfold hmi_timer
  dsimp only
  split_ifs <;> simp_all

theorem hmi_timer_count (s : Hmi) (h0 : s.menu_exit_timer = 0) : ∀ n, n < 30 →
    (hmi_timer^[n] s).menu_exit_timer = n ∧ (hmi_timer^[n] s).menu_level = s.menu_level ∧
      (hmi_timer^[n] s).main_menu = s.main_menu ∧ (hmi_timer^[n] s).sub_menu = s.sub_menu := by
  intro n
  induction n with
  | zero => intro _; exact ⟨h0, rfl, rfl, rfl⟩
  | succ n ih =>
    intro hn
    obtain ⟨i1, i2, i3, i4⟩ := ih (by omega)
    rw [Function.iterate_succ_apply']
    obtain ⟨t1, t2, t3, t4⟩ := hmi_timer_below (hmi_timer^[n] s) (by omega)
    exact ⟨by rw [t1, i1], by rw [t2, i2], by rw [t3, i3], by rw [t4, i4]⟩

theorem hmi_timer_iterate_other (s : Hmi) (h : s.menu_level ≠ MENU_LEVEL_SHOW_MENU) : ∀ n,
    (hmi_timer^[n] s).menu_level = s.menu_level ∧ (hmi_timer^[n] s).main_menu = s.main_menu ∧
      (hmi_timer^[n] s).sub_menu = s.sub_menu := by
  intro n
  induction n with
  | zero => exact ⟨rfl, rfl, rfl⟩
  | succ n ih =>
    obtain ⟨i1, i2, i3⟩ := ih
    rw [Function.iterate_succ_apply']
    obtain ⟨t1, t2, t3⟩ := hmi_timer_other_level (hmi_timer^[n] s) (by rw [i1]; exact h)
    exact ⟨by rw [t1, i1], by rw [t2, i2], by rw [t3, i3]⟩

/-- C13: an input event leaves the idle counter at 0. From a state at the level
MENU_SELECT with the counter at 0, the level is still MENU_SELECT after fewer
than 30 ticks of `hmi_timer`, and after 30 ticks (30 x 200 ms) the level is
ROOT, both indices are 0, a redraw is pending and the counter is back at 0. At
any other level no number of ticks changes the level or the indices. -/
theorem C13_idle_timeout (s : Hmi) (h0 : s.menu_exit_timer = 0) :
    (∀ (env : Env) (encoder : Int) (key : Nat) (t : Hmi), encoder ≠ 0 ∨ key ≠ 0 →
        (menu_navigate env encoder key t).menu_exit_timer = 0) ∧
      (s.menu_level = MENU_LEVEL_SHOW_MENU →
        (∀ n, n < 30 → (hmi_timer^[n] s).menu_level = MENU_LEVEL_SHOW_MENU ∧
          (hmi_timer^[n] s).main_menu = s.main_menu ∧
          (hmi_timer^[n] s).sub_menu = s.sub_menu) ∧
        (hmi_timer^[30] s).menu_level = MENU_LEVEL_ROOT ∧
        (hmi_timer^[30] s).main_menu = 0 ∧ (hmi_timer^[30] s).sub_menu = 0 ∧
        (hmi_timer^[30] s).b_refresh_menu = true ∧
        (hmi_timer^[30] s).menu_exit_timer = 0) ∧
      (s.menu_level ≠ MENU_LEVEL_SHOW_MENU →
        ∀ n, (hmi_timer^[n] s).menu_level = s.menu_level ∧
          (hmi_timer^[n] s).main_menu = s.main_menu ∧
          (hmi_timer^[n] s).sub_menu = s.sub_menu) := by
  refine ⟨menu_navigate_timer, ?_, hmi_timer_iterate_other s⟩
  intro hl
  constructor
  · intro n hn
    obtain ⟨_, c2, c3, c4⟩ := hmi_timer_count s h0 n hn
    exact ⟨by rw [c2, hl], c3, c4⟩
  · obtain ⟨c1, c2, _, _⟩ := hmi_timer_count s h0 29 (by omega)
    have e : hmi_timer^[30] s = hmi_timer (hmi_timer^[29] s) :=
      Function.iterate_succ_apply' hmi_timer 29 s
    rw [e]
    obtain ⟨t1, t2⟩ := hmi_timer_timeout (hmi_timer^[29] s) c1
    obtain ⟨u1, u2, u3, u4⟩ := t2 (by rw [c2, hl])
    exact ⟨u1, u2, u3, u4, t1⟩

theorem C13_idle_timeout_witness :
    (menu_navigate sample_env 1 0 hmi_initial).menu_exit_timer = 0 ∧
      (menu_navigate sample_env 1 0 hmi_initial).menu_level = MENU_LEVEL_SHOW_MENU ∧
      (hmi_timer^[30] (menu_navigate sample_env 1 0 hmi_initial)).menu_level =
        MENU_LEVEL_ROOT ∧
      (hmi_timer^[30] (menu_navigate sample_env 1 0 hmi_initial)).b_refresh_menu = true :=
  have h := (C13_idle_timeout (menu_navigate sample_env 1 0 hmi_initial) (by decide)).2.1
    (by decide)
  ⟨by decide, by decide, h.2.1, h.2.2.2.2.1⟩

/-! ## The menu engine: the encoder without a key -/

theorem or_ne_zero (a b : Nat) (ha : a ≠ 0) : a ||| b ≠ 0 := by
  intro h
  apply ha
  apply Nat.eq_of_testBit_eq
  intro i
  have hi := congrArg (fun x => x.testBit i) h
  simp only [Nat.testBit_or, Nat.zero_testBit, Bool.or_eq_false_iff] at hi
  rw [hi.1, Nat.zero_testBit]

/-- Without a key and with a non-zero delta, the input is handled by the
adjustment of the indices followed by the handler of the active item. -/
theorem navigate_input_encoder (env : Env) (encoder : Int) (s : Hmi) (hk : env.KEY_OK ≠ 0)
    (he : encoder ≠ 0) :
    navigate_input env encoder 0 s =
      (menu_entry (navigate_encoder encoder s).main_menu).on_key env encoder
        (navigate_encoder encoder s) := by
  unfold navigate_input
  rw [if_neg (Ne.symm hk), if_neg (Ne.symm (or_ne_zero _ _ hk)), if_pos he]

/-- At the level MENU_SELECT every handler returns without doing anything. -/
theorem on_key_show_menu (env : Env) (encoder : Int) (s : Hmi) (m : Int)
    (h : s.menu_level = MENU_LEVEL_SHOW_MENU) : (menu_entry m).on_key env encoder s = s := by
  by_cases ho : m < 0 ∨ 6 < m
  · exact menu_entry_outside m ho env encoder s
  · have h0 : 0 ≤ m := by omega
    have h6 : m ≤ 6 := by omega
    have hne : ¬ (s.menu_level = MENU_LEVEL_ADJ_VALUE) := by rw [h]; decide
    interval_cases m <;> simp only [menu_entry, hmi_menu] <;>
      simp only [Int.toNat_ofNat, List.getD_cons_zero, List.getD_cons_succ, le_refl, if_true,
        Int.toNat_zero, Int.toNat_one, Nat.ofNat_nonneg, Int.reduceToNat, Int.reduceLE] <;>
      (first
        | unfold on_key_set_volt
        | unfold on_key_set_code
        | unfold on_key_cal_reference
        | unfold on_key_show_temperature
        | unfold on_key_set_contrast
        | unfold on_key_powerup_count
        | unfold on_key_show_version) <;>
      first
        | rw [if_neg hne]
        | rw [if_pos h]
        | rw [if_neg (not_not.mpr h)]

/-- The adjustment of the main index at the level MENU_SELECT. -/
theorem navigate_encoder_show_menu (encoder : Int) (s : Hmi)
    (hl : s.menu_level = MENU_LEVEL_SHOW_MENU) (hm0 : 0 ≤ s.main_menu) (hm6 : s.main_menu ≤ 6)
    (he1 : -128 ≤ encoder) (he2 : encoder ≤ 127) :
    (navigate_encoder encoder s).main_menu =
        (if s.main_menu + encoder < 0 then 0 else min (s.main_menu + encoder) 6) ∧
      (navigate_encoder encoder s).menu_level =
        (if s.main_menu + encoder < 0 then MENU_LEVEL_ROOT else MENU_LEVEL_SHOW_MENU) := by
  have e1 : to_i16 (s.main_menu + encoder) = s.main_menu + encoder :=
    to_i16_of_range _ (by omega) (by omega)
  have hroot : ¬ (s.menu_level = MENU_LEVEL_ROOT) := by rw [hl]; decide
  unfold navigate_encoder
  rw [if_neg hroot, if_pos hl]
  dsimp only
  rw [e1, hl, main_menu_count]
  by_cases hneg : s.main_menu + encoder < 0
  · rw [if_pos hneg, if_pos hneg, if_pos hneg]
    refine ⟨rfl, ?_⟩
    show to_i16 (MENU_LEVEL_SHOW_MENU - 1) = MENU_LEVEL_ROOT
    decide
  · rw [if_neg hneg, if_neg hneg, if_neg hneg]
    have e5 := to_u32_of_range (s.main_menu + encoder) (by omega) (by omega)
    by_cases hbig : to_u32 (s.main_menu + encoder) ≥ 7
    · rw [if_pos hbig]
      refine ⟨?_, rfl⟩
      show ((7 : Nat) : Int) - 1 = min (s.main_menu + encoder) 6
      omega
    · rw [if_neg hbig]
      refine ⟨?_, rfl⟩
      show s.main_menu + encoder = min (s.main_menu + encoder) 6
      omega

/-- C14: at the level MENU_SELECT, with the main index in `[0, 6]`, a non-zero
encoder delta `d` without a key sets the main index to `min (main_index + d) 6`
and keeps the level when `main_index + d ≥ 0`, and sets the main index to 0 and
the level to ROOT when `main_index + d < 0`. -/
theorem C14_encoder_in_menu_select (env : Env) (s : Hmi) (d : Int) (hk : env.KEY_OK ≠ 0)
    (hl : s.menu_level = MENU_LEVEL_SHOW_MENU) (hm0 : 0 ≤ s.main_menu) (hm6 : s.main_menu ≤ 6)
    (hd : d ≠ 0) (hd1 : -128 ≤ d) (hd2 : d ≤ 127) :
    (0 ≤ s.main_menu + d →
        (menu_navigate env d 0 s).main_menu = min (s.main_menu + d) 6 ∧
          (menu_navigate env d 0 s).menu_level = MENU_LEVEL_SHOW_MENU) ∧
      (s.main_menu + d < 0 →
        (menu_navigate env d 0 s).main_menu = 0 ∧
          (menu_navigate env d 0 s).menu_level = MENU_LEVEL_ROOT) := by
  unfold menu_navigate
  obtain ⟨a1, a2, _, _, _⟩ := navigate_activity_frame d 0 s
  obtain ⟨b1, b2, _, _, _⟩ := navigate_auto_refresh_frame
    (navigate_input env d 0 (navigate_activity d 0 s))
  generalize navigate_activity d 0 s = t at a1 a2 b1 b2 ⊢
  rw [b1, b2, navigate_input_encoder env d t hk hd]
  obtain ⟨n1, n2⟩ := navigate_encoder_show_menu d t (by rw [a1, hl]) (by rw [a2]; exact hm0)
    (by rw [a2]; exact hm6) hd1 hd2
  rw [a2] at n1 n2
  constructor
  · intro hpos
    have hnn : ¬ (s.main_menu + d < 0) := by omega
    rw [if_neg hnn] at n1 n2
    rw [on_key_show_menu env d _ _ n2]
    exact ⟨n1, n2⟩
  · intro hneg
    rw [if_pos hneg] at n1 n2
    obtain ⟨f1, _, f3, _, _⟩ := on_key_frame env d (navigate_encoder d t)
      (navigate_encoder d t).main_menu (by rw [n1]) (by rw [n1]; decide)
    refine ⟨by rw [f1, n1], ?_⟩
    rcases f3 with f3 | f3
    · rw [f3, n2]
    · exact f3

theorem C14_encoder_in_menu_select_witness :
    sample_env.KEY_OK ≠ 0 ∧
      (menu_navigate sample_env 1 0 hmi_initial).menu_level = MENU_LEVEL_SHOW_MENU ∧
      (menu_navigate sample_env 127 0 (menu_navigate sample_env 1 0 hmi_initial)).main_menu =
        min ((menu_navigate sample_env 1 0 hmi_initial).main_menu + 127) 6 ∧
      (menu_navigate sample_env 127 0 (menu_navigate sample_env 1 0 hmi_initial)).menu_level =
        MENU_LEVEL_SHOW_MENU :=
  ⟨by decide, by decide,
    (C14_encoder_in_menu_select sample_env (menu_navigate sample_env 1 0 hmi_initial) 127
      (by decide) (by decide) (by decide) (by decide) (by decide) (by decide) (by decide)).1
      (by decide)⟩

/-- The handlers of the items without an adjustable value leave every screen
but MENU_SELECT for the root level. -/
theorem on_key_status_item (env : Env) (encoder : Int) (s : Hmi) (m : Int) (h0 : 0 ≤ m)
    (h6 : m ≤ 6) (hc : (menu_entry m).cursor_start = 0xff)
    (hl : s.menu_level ≠ MENU_LEVEL_SHOW_MENU) :
    (menu_entry m).on_key env encoder s =
      { s with menu_level := MENU_LEVEL_ROOT, b_refresh_menu := true } := by
  have hf := menu_entry_fields m h0 h6
  have hm : m = 3 ∨ m = 5 := by
    rcases hf with h | h | h | h | h | h | h <;> omega
  rcases hm with rfl | rfl <;> simp only [menu_entry, hmi_menu] <;>
    simp only [Int.toNat_ofNat, List.getD_cons_zero, List.getD_cons_succ, le_refl, if_true,
      Int.toNat_zero, Int.toNat_one, Nat.ofNat_nonneg, Int.reduceToNat, Int.reduceLE] <;>
    (first
      | unfold on_key_show_temperature
      | unfold on_key_powerup_count) <;>
    rw [if_pos hl]

/-- C15, as stated, fails: with the temperature shown at the level VALUE_VIEW, an
encoder delta of 1 without a key returns the level to ROOT. -/
theorem C15_counterexample_exit_to_root :
    (∀ ev ∈ show_temperature_events, ev.wf) ∧
      (run sample_env hmi_initial show_temperature_events).menu_level =
        MENU_LEVEL_SHOW_VALUE ∧
      (run sample_env hmi_initial show_temperature_events).main_menu = 3 ∧
      (menu_entry (run sample_env hmi_initial show_temperature_events).main_menu).cursor_start
        = 0xff ∧
      (menu_navigate sample_env 1 0
        (run sample_env hmi_initial show_temperature_events)).menu_level = MENU_LEVEL_ROOT ∧
      ¬ ((menu_navigate sample_env 1 0
        (run sample_env hmi_initial show_temperature_events)).menu_level =
          (run sample_env hmi_initial show_temperature_events).menu_level) := by
  decide

/-- C15 (amended): at the level VALUE_VIEW with an active item that has no
adjustable sub-value (`cursor_start` is 0xff: the temperature and the power-up
count), an encoder delta without a key leaves the main index and the sub index
as they were; a non-zero delta returns the level to ROOT, because the handler of
the item leaves the screen, and a zero delta keeps the level. -/
theorem C15_encoder_on_status_item (env : Env) (s : Hmi) (d : Int) (hk : env.KEY_OK ≠ 0)
    (hl : s.menu_level = MENU_LEVEL_SHOW_VALUE) (hm0 : 0 ≤ s.main_menu) (hm6 : s.main_menu ≤ 6)
    (hc : (menu_entry s.main_menu).cursor_start = 0xff) :
    (menu_navigate env d 0 s).main_menu = s.main_menu ∧
      (menu_navigate env d 0 s).sub_menu = s.sub_menu ∧
      (d ≠ 0 → (menu_navigate env d 0 s).menu_level = MENU_LEVEL_ROOT) ∧
      (d = 0 → (menu_navigate env d 0 s).menu_level = s.menu_level) := by
  unfold menu_navigate
  obtain ⟨a1, a2, a3, _, _⟩ := navigate_activity_frame d 0 s
  obtain ⟨b1, b2, b3, _, _⟩ := navigate_auto_refresh_frame
    (navigate_input env d 0 (navigate_activity d 0 s))
  generalize navigate_activity d 0 s = t at a1 a2 a3 b1 b2 b3 ⊢
  rw [b1, b2, b3]
  by_cases hd : d = 0
  · have e : navigate_input env d 0 t = t := by
      unfold navigate_input
      rw [if_neg (Ne.symm hk), if_neg (Ne.symm (or_ne_zero _ _ hk)), if_neg (not_not.mpr hd)]
    rw [e]
    exact ⟨a2, a3, fun h => absurd hd h, fun _ => a1⟩
  · have hroot : ¬ (t.menu_level = MENU_LEVEL_ROOT) := by rw [a1, hl]; decide
    have hmenu : ¬ (t.menu_level = MENU_LEVEL_SHOW_MENU) := by rw [a1, hl]; decide
    have hct : (menu_entry t.main_menu).cursor_start = 0xff := by rw [a2]; exact hc
    have e : navigate_encoder d t = t := by
      unfold navigate_encoder
      rw [if_neg hroot, if_neg hmenu, if_pos (by rw [a1, hl]), if_pos hct]
    rw [navigate_input_encoder env d t hk hd, e,
      on_key_status_item env d t t.main_menu (by rw [a2]; exact hm0) (by rw [a2]; exact hm6)
        hct hmenu]
    exact ⟨a2, a3, fun _ => rfl, fun h => absurd h hd⟩

theorem C15_encoder_on_status_item_witness :
    sample_env.KEY_OK ≠ 0 ∧
      (run sample_env hmi_initial show_temperature_events).menu_level =
        MENU_LEVEL_SHOW_VALUE ∧
      (menu_entry (run sample_env hmi_initial show_temperature_events).main_menu).cursor_start
        = 0xff ∧
      (menu_navigate sample_env (-2) 0
          (run sample_env hmi_initial show_temperature_events)).main_menu =
        (run sample_env hmi_initial show_temperature_events).main_menu ∧
      (menu_navigate sample_env (-2) 0
          (run sample_env hmi_initial show_temperature_events)).menu_level = MENU_LEVEL_ROOT :=
  have h := C15_encoder_on_status_item sample_env
    (run sample_env hmi_initial show_temperature_events) (-2) (by decide) (by decide)
    (by decide) (by decide) (by decide)
  ⟨by decide, by decide, by decide, h.1, h.2.2.1 (by decide)⟩

/-! ## The value editors -/

/-- The weight that `ipow` gives to a field of the 5-digit hexadecimal value. -/
theorem ipow_16 (p : Nat) (hp : p ≤ 4) : ipow 16 (to_u32 (4 - (p : Int))) = 16 ^ (4 - p) := by
  interval_cases p <;> decide

/-- The result of `hex5_adjust` on a 20-bit value: the step is taken when the sum
stays inside `[0, 0xFFFFF]`, and dropped otherwise. -/
theorem hex5_adjust_value (value d : Int) (p : Nat) (hv0 : 0 ≤ value) (hv1 : value ≤ 0xFFFFF)
    (hp : p ≤ 4) (hd1 : -128 ≤ d) (hd2 : d ≤ 127) :
    hex5_adjust value 0xFFFFF d (p : Int) =
      if 0 ≤ value + d * 16 ^ (4 - p) ∧ value + d * 16 ^ (4 - p) ≤ 0xFFFFF
      then value + d * 16 ^ (4 - p) else value := by
  have hpos : ¬ ((p : Int) > 4) := by omega
  unfold hex5_adjust
  simp only [if_neg hpos, ipow_16 p hp]
  interval_cases p <;> simp only [to_u32, to_i32] <;> norm_num <;> split_ifs <;> omega

theorem hmi_init_booted : hmi_init none hmi_initial = hmi_booted := by
  have hl : parameter_load hmi_initial.flash = default_parameter := by
    simp [parameter_load, hmi_initial, find_latest_inv_zero erased_flash.mem erased_flash_inv]
  unfold hmi_init
  rw [hl]
  simp only [hmi_initial, hmi_booted, default_parameter, ad5791_set_vref, ad5791_set_volt,
    ad5791_write_data, ad5791_get_vref, ad5791_get_code, f32_value, HW_INFO, to_i32]
  norm_num
  decide

/-- The weight that `ipow` gives to a field of the 7-digit decimal value. -/
theorem ipow_10 (p : Nat) (hp : p ≤ 6) : ipow 10 (to_u32 (6 - (p : Int))) = 10 ^ (6 - p) := by
  interval_cases p <;> decide

/-! ## Binary64 arithmetic -/

/-- An integer is its own rounding. -/
theorem round_half_even_int (n : Int) : round_half_even (n : ℚ) = n := by
  unfold round_half_even
  rw [Int.floor_intCast]
  simp

/-- A number less than 1/2 away from an integer is rounded to it. -/
theorem round_half_even_near (q : ℚ) (f : Int) (h1 : (f : ℚ) - 1 / 2 < q)
    (h2 : q < (f : ℚ) + 1 / 2) : round_half_even q = f := by
  unfold round_half_even
  by_cases hq : (f : ℚ) ≤ q
  · have hf : ⌊q⌋ = f := by
      rw [Int.floor_eq_iff]
      constructor
      · exact hq
      · linarith
    rw [hf, if_pos (by linarith)]
  · have hf : ⌊q⌋ = f - 1 := by
      rw [Int.floor_eq_iff]
      push_cast
      constructor
      · linarith
      · linarith
    rw [hf]
    push_cast
    rw [if_neg (by linarith), if_pos (by linarith)]
    ring

/-- The binary exponent of a number between two successive powers of 2. -/
theorem int_log_eq (x : ℚ) (L : Int) (h1 : (2 : ℚ) ^ L ≤ x) (h2 : x < (2 : ℚ) ^ (L + 1)) :
    Int.log 2 x = L := by
  have h0 : 0 < x := lt_of_lt_of_le (zpow_pos (by norm_num) L) h1
  have a : L ≤ Int.log 2 x := (Int.zpow_le_iff_le_log (by norm_num) h0).mp (by exact_mod_cast h1)
  have b : Int.log 2 x < L + 1 := (Int.lt_zpow_iff_log_lt (by norm_num) h0).mp (by exact_mod_cast h2)
  omega

/-- The `double` nearest to a number in the normal range, from its binary
exponent and the integer nearest to its scaled significand. -/
theorem to_f64_near (x : ℚ) (L f : Int) (hx1 : (2 : ℚ) ^ L ≤ |x|) (hx2 : |x| < (2 : ℚ) ^ (L + 1))
    (hL : -1022 ≤ L) (h1 : (f : ℚ) - 1 / 2 < x / 2 ^ (L - 52))
    (h2 : x / 2 ^ (L - 52) < (f : ℚ) + 1 / 2) : to_f64 x = (f : ℚ) * 2 ^ (L - 52) := by
  have h0 : x ≠ 0 := by
    intro h
    rw [h, abs_zero] at hx1
    exact absurd hx1 (not_le.mpr (zpow_pos (by norm_num) L))
  unfold to_f64
  rw [if_neg h0, int_log_eq |x| L hx1 hx2, max_eq_left (by omega),
    round_half_even_near _ f h1 h2]

/-- A number with a significand of at most 53 bits is a `double`. -/
theorem to_f64_exact (m k : Int) (hm : |m| < 2 ^ 53) (hk : -1074 ≤ k) :
    to_f64 ((m : ℚ) * 2 ^ k) = (m : ℚ) * 2 ^ k := by
  by_cases h0 : (m : ℚ) * 2 ^ k = 0
  · unfold to_f64
    rw [if_pos h0, h0]
  · unfold to_f64
    rw [if_neg h0]
    have hpos : (0 : ℚ) < |(m : ℚ) * 2 ^ k| := abs_pos.mpr h0
    have hlt : |(m : ℚ) * 2 ^ k| < (2 : ℚ) ^ (53 + k) := by
      rw [abs_mul, abs_of_pos (zpow_pos (by norm_num : (0 : ℚ) < 2) k), zpow_add₀ (by norm_num)]
      apply mul_lt_mul_of_pos_right _ (zpow_pos (by norm_num) k)
      have : |(m : ℚ)| = ((|m| : Int) : ℚ) := by rw [Int.cast_abs]
      rw [this]
      exact_mod_cast hm
    have hlog : Int.log 2 |(m : ℚ) * 2 ^ k| < 53 + k :=
      (Int.lt_zpow_iff_log_lt (by norm_num) hpos).mp (by exact_mod_cast hlt)
    generalize Int.log 2 |(m : ℚ) * 2 ^ k| = L at hlog ⊢
    have he : max (L - 52) (-1074) ≤ k := by omega
    generalize max (L - 52) (-1074) = e at he ⊢
    obtain ⟨n, hn⟩ : ∃ n : Nat, k = e + n := ⟨(k - e).toNat, by omega⟩
    have hk2 : (2 : ℚ) ^ k = 2 ^ e * 2 ^ n := by
      rw [hn, zpow_add₀ (by norm_num), zpow_natCast]
    have he0 : (2 : ℚ) ^ e ≠ 0 := zpow_ne_zero e (by norm_num)
    have hq : (m : ℚ) * 2 ^ k / 2 ^ e = ((m * 2 ^ n : Int) : ℚ) := by
      rw [hk2]
      push_cast
      field_simp
      ring
    rw [hq, round_half_even_int, hk2]
    push_cast
    ring


/-- An integer below 2^53 in absolute value is a `double`. -/
theorem to_f64_int (n : Int) (h : |n| < 2 ^ 53) : to_f64 (n : ℚ) = n := by
  have e := to_f64_exact n 0 h (by decide)
  rw [zpow_zero, mul_one] at e
  exact e

/-- The `double` nearest to `1e-6`. -/
theorem to_f64_scale : to_f64 (1 / 1000000) = 4722366482869645 / 2 ^ 72 := by
  have h := to_f64_near (1 / 1000000) (-20) 4722366482869645 (by norm_num [abs_of_pos])
    (by norm_num [abs_of_pos]) (by decide) (by norm_num) (by norm_num)
  rw [h]
  norm_num

/-- The weights of the seven decimal fields as `double` values: the products of
the `double` nearest to `1e-6` and the powers of 10, rounded. -/
theorem to_f64_weight :
    to_f64 (to_f64 (1 / 1000000) * 10 ^ 6) = 1 ∧
      to_f64 (to_f64 (1 / 1000000) * 10 ^ 5) = 7205759403792793 / 2 ^ 56 ∧
      to_f64 (to_f64 (1 / 1000000) * 10 ^ 4) = 5764607523034235 / 2 ^ 59 ∧
      to_f64 (to_f64 (1 / 1000000) * 10 ^ 3) = 1152921504606847 / 2 ^ 60 ∧
      to_f64 (to_f64 (1 / 1000000) * 10 ^ 2) = 1844674407370955 / 2 ^ 64 ∧
      to_f64 (to_f64 (1 / 1000000) * 10 ^ 1) = 368934881474191 / 2 ^ 65 ∧
      to_f64 (to_f64 (1 / 1000000) * 10 ^ 0) = 4722366482869645 / 2 ^ 72 := by
  rw [to_f64_scale]
  refine ⟨?_, ?_, ?_, ?_, ?_, ?_, ?_⟩
  · have h := to_f64_near (4722366482869645 / 2 ^ 72 * 10 ^ 6) (-1) 9007199254740992
      (by norm_num [abs_of_pos]) (by norm_num [abs_of_pos]) (by decide) (by norm_num)
      (by norm_num)
    rw [h]
    norm_num
  · have h := to_f64_near (4722366482869645 / 2 ^ 72 * 10 ^ 5) (-4) 7205759403792793
      (by norm_num [abs_of_pos]) (by norm_num [abs_of_pos]) (by decide) (by norm_num)
      (by norm_num)
    rw [h]
    norm_num
  · have h := to_f64_near (4722366482869645 / 2 ^ 72 * 10 ^ 4) (-7) 5764607523034235
      (by norm_num [abs_of_pos]) (by norm_num [abs_of_pos]) (by decide) (by norm_num)
      (by norm_num)
    rw [h]
    norm_num
  · have h := to_f64_near (4722366482869645 / 2 ^ 72 * 10 ^ 3) (-10) 4611686018427388
      (by norm_num [abs_of_pos]) (by norm_num [abs_of_pos]) (by decide) (by norm_num)
      (by norm_num)
    rw [h]
    norm_num
  · have h := to_f64_near (4722366482869645 / 2 ^ 72 * 10 ^ 2) (-14) 7378697629483820
      (by norm_num [abs_of_pos]) (by norm_num [abs_of_pos]) (by decide) (by norm_num)
      (by norm_num)
    rw [h]
    norm_num
  · have h := to_f64_near (4722366482869645 / 2 ^ 72 * 10 ^ 1) (-17) 5902958103587056
      (by norm_num [abs_of_pos]) (by norm_num [abs_of_pos]) (by decide) (by norm_num)
      (by norm_num)
    rw [h]
    norm_num
  · have h := to_f64_near (4722366482869645 / 2 ^ 72 * 10 ^ 0) (-20) 4722366482869645
      (by norm_num [abs_of_pos]) (by norm_num [abs_of_pos]) (by decide) (by norm_num)
      (by norm_num)
    rw [h]
    norm_num

/-- The result of `float_adjust` at the field `p` of 7: the rounded sum of the
value and of the rounded product of the delta and the weight of the field; a sum
above `max` is dropped, and a negative result is replaced by 0. -/
theorem float_adjust_value (value max : ℚ) (d : Int) (p : Nat) (hp : p ≤ 6) :
    float_adjust value max d (p : Int) =
      if to_f64 (to_f64 (to_f64 (to_f64 (1 / 1000000) * 10 ^ (6 - p)) * (d : ℚ)) + value) ≤ max
      then
        (if to_f64 (to_f64 (to_f64 (to_f64 (1 / 1000000) * 10 ^ (6 - p)) * (d : ℚ)) + value) < 0
          then 0
          else to_f64 (to_f64 (to_f64 (to_f64 (1 / 1000000) * 10 ^ (6 - p)) * (d : ℚ)) + value))
      else (if value < 0 then 0 else value) := by
  unfold float_adjust
  rw [ipow_10 p hp]
  push_cast
  split_ifs <;> rfl

/-- The adjustment of the indices by the encoder leaves the instrument values
alone and never enters the level VALUE_EDIT. -/
theorem navigate_encoder_instrument (encoder : Int) (s : Hmi) :
    same_instrument s (navigate_encoder encoder s) ∧
      (s.menu_level ≠ MENU_LEVEL_ADJ_VALUE →
        (navigate_encoder encoder s).menu_level ≠ MENU_LEVEL_ADJ_VALUE) ∧
      (s.menu_level = MENU_LEVEL_ADJ_VALUE → navigate_encoder encoder s = s) := by
  unfold navigate_encoder
  refine ⟨?_, ?_, ?_⟩
  · dsimp only
    split_ifs <;> exact same_instrument_refl s
  · intro hl
    by_cases h0 : s.menu_level = MENU_LEVEL_ROOT
    · rw [if_pos h0]
      split_ifs
      · show to_i16 (s.menu_level + 1) ≠ MENU_LEVEL_ADJ_VALUE
        rw [h0]; decide
      · exact hl
    · rw [if_neg h0]
      by_cases h1 : s.menu_level = MENU_LEVEL_SHOW_MENU
      · rw [if_pos h1]
        dsimp only
        split_ifs
        · show to_i16 (s.menu_level - 1) ≠ MENU_LEVEL_ADJ_VALUE
          rw [h1]; decide
        · exact hl
        · exact hl
      · rw [if_neg h1]
        dsimp only
        split_ifs <;> exact hl
  · intro hl
    have h0 : ¬ (s.menu_level = MENU_LEVEL_ROOT) := by rw [hl]; decide
    have h1 : ¬ (s.menu_level = MENU_LEVEL_SHOW_MENU) := by rw [hl]; decide
    have h2 : ¬ (s.menu_level = MENU_LEVEL_SHOW_VALUE) := by rw [hl]; decide
    rw [if_neg h0, if_neg h1, if_neg h2]

/-- Away from the level VALUE_EDIT no handler changes the set voltage, the
reference voltage, the code or the DAC driver. -/
theorem on_key_no_edit (env : Env) (encoder : Int) (s : Hmi) (m : Int)
    (hl : s.menu_level ≠ MENU_LEVEL_ADJ_VALUE) :
    ((menu_entry m).on_key env encoder s).volt_set = s.volt_set ∧
      ((menu_entry m).on_key env encoder s).volt_vref = s.volt_vref ∧
      ((menu_entry m).on_key env encoder s).code_set = s.code_set ∧
      ((menu_entry m).on_key env encoder s).dac = s.dac := by
  by_cases ho : m < 0 ∨ 6 < m
  · rw [menu_entry_outside m ho]
    exact ⟨rfl, rfl, rfl, rfl⟩
  · have h0 : 0 ≤ m := by omega
    have h6 : m ≤ 6 := by omega
    interval_cases m <;> simp only [menu_entry, hmi_menu] <;>
      simp only [Int.toNat_ofNat, List.getD_cons_zero, List.getD_cons_succ, le_refl, if_true,
        Int.toNat_zero, Int.toNat_one, Nat.ofNat_nonneg, Int.reduceToNat, Int.reduceLE] <;>
      (first
        | (unfold on_key_set_volt; rw [if_neg hl])
        | (unfold on_key_set_code; rw [if_neg hl])
        | (unfold on_key_cal_reference; rw [if_neg hl])
        | unfold on_key_show_temperature
        | unfold on_key_set_contrast
        | unfold on_key_powerup_count
        | unfold on_key_show_version) <;>
      (try dsimp only) <;>
      (try split_ifs) <;>
      exact ⟨rfl, rfl, rfl, rfl⟩

/-- An input that is a key press, or comes without an encoder delta, or arrives
away from the level VALUE_EDIT, changes neither the set voltage, nor the
reference voltage, nor the code, nor the DAC driver. -/
theorem menu_navigate_no_edit (env : Env) (encoder : Int) (key : Nat) (s : Hmi)
    (hq : s.menu_level ≠ MENU_LEVEL_ADJ_VALUE ∨ key = env.KEY_OK ∨
      key = (env.KEY_OK ||| env.KEY_PRESS_L) ∨ encoder = 0) :
    (menu_navigate env encoder key s).volt_set = s.volt_set ∧
      (menu_navigate env encoder key s).volt_vref = s.volt_vref ∧
      (menu_navigate env encoder key s).code_set = s.code_set ∧
      (menu_navigate env encoder key s).dac = s.dac := by
  unfold menu_navigate
  obtain ⟨a1, _, _, _, _⟩ := navigate_activity_frame encoder key s
  obtain ⟨i1, _, i3, _, i5, _, _, _, _, i10, _, _⟩ := navigate_activity_instrument encoder key s
  obtain ⟨j1, _, j3, _, j5, _, _, _, _, j10, _, _⟩ := navigate_auto_refresh_instrument
    (navigate_input env encoder key (navigate_activity encoder key s))
  generalize navigate_activity encoder key s = t at a1 i1 i3 i5 i10 j1 j3 j5 j10 ⊢
  rw [j1, j3, j5, j10, ← i1, ← i3, ← i5, ← i10]
  rw [← a1] at hq
  unfold navigate_input
  by_cases hok : key = env.KEY_OK
  · rw [if_pos hok]
    dsimp only
    split_ifs <;> exact ⟨rfl, rfl, rfl, rfl⟩
  · rw [if_neg hok]
    by_cases hlong : key = (env.KEY_OK ||| env.KEY_PRESS_L)
    · rw [if_pos hlong]
      dsimp only
      split_ifs <;> exact ⟨rfl, rfl, rfl, rfl⟩
    · rw [if_neg hlong]
      by_cases henc : encoder ≠ 0
      · rw [if_pos henc]
        have hl : t.menu_level ≠ MENU_LEVEL_ADJ_VALUE := by
          rcases hq with h | h | h | h
          · exact h
          · exact absurd h hok
          · exact absurd h hlong
          · exact absurd h henc
        obtain ⟨⟨n1, _, n3, _, n5, _, _, _, _, n10, _, _⟩, n13, _⟩ :=
          navigate_encoder_instrument encoder t
        obtain ⟨k1, k2, k3, k4⟩ := on_key_no_edit env encoder (navigate_encoder encoder t)
          (navigate_encoder encoder t).main_menu (n13 hl)
        exact ⟨by rw [k1, n1], by rw [k2, n3], by rw [k3, n5], by rw [k4, n10]⟩
      · rw [if_neg henc]
        exact ⟨rfl, rfl, rfl, rfl⟩

/-- C16, as stated, fails: at the code 0xFFFF0 a step of +1 on the most
significant field would exceed 0xFFFFF, and `hex5_adjust` returns the value
unchanged instead of the clamped value 0xFFFFF. -/
theorem C16_counterexample_step_dropped :
    hex5_adjust 0xFFFF0 0xFFFFF 1 0 = 0xFFFF0 ∧
      min (max ((0xFFFF0 : Int) + 1 * 16 ^ (4 - 0)) 0) 0xFFFFF = 0xFFFFF ∧
      hex5_adjust 0xFFFF0 0xFFFFF 1 0 ≠
        min (max ((0xFFFF0 : Int) + 1 * 16 ^ (4 - 0)) 0) 0xFFFFF := by
  decide

/-- C16 (amended): for every code value in `[0, 0xFFFFF]`, every field position
`p` in 0..4 and every encoder delta `d` in -128..127,
`hex5_adjust(value, 0xFFFFF, d, p)` returns `value + d * 16^(4-p)` when that sum
lies in `[0, 0xFFFFF]`, and returns the value unchanged when the sum exceeds
0xFFFFF: the step is dropped, not clamped. -/
theorem C16_hex5_adjust (value d : Int) (p : Nat) (hv0 : 0 ≤ value) (hv1 : value ≤ 0xFFFFF)
    (hp : p ≤ 4) (hd1 : -128 ≤ d) (hd2 : d ≤ 127) :
    (0 ≤ value + d * 16 ^ (4 - p) → value + d * 16 ^ (4 - p) ≤ 0xFFFFF →
        hex5_adjust value 0xFFFFF d (p : Int) = value + d * 16 ^ (4 - p)) ∧
      (0xFFFFF < value + d * 16 ^ (4 - p) →
        hex5_adjust value 0xFFFFF d (p : Int) = value) := by
  have h := hex5_adjust_value value d p hv0 hv1 hp hd1 hd2
  constructor
  · intro h1 h2
    rw [h, if_pos ⟨h1, h2⟩]
  · intro h1
    rw [h, if_neg]
    intro hc
    omega

theorem C16_hex5_adjust_witness :
    (0 : Int) ≤ 0x12345 ∧ (0x12345 : Int) ≤ 0xFFFFF ∧ 2 ≤ 4 ∧ (-128 : Int) ≤ -3 ∧
      (-3 : Int) ≤ 127 ∧
      hex5_adjust 0x12345 0xFFFFF (-3) ((2 : Nat) : Int) = 0x12345 + (-3) * 16 ^ (4 - 2) :=
  ⟨by decide, by decide, by decide, by decide, by decide,
    (C16_hex5_adjust 0x12345 (-3) 2 (by decide) (by decide) (by decide) (by decide)
      (by decide)).1 (by decide) (by decide)⟩

/-! ## The menu engine: edits at the level VALUE_EDIT -/

/-- The effect of an encoder delta without a key at the level VALUE_EDIT, before
the handler of the active item is named. -/
theorem menu_navigate_edit (env : Env) (d : Int) (s : Hmi) (hk : env.KEY_OK ≠ 0)
    (hl : s.menu_level = MENU_LEVEL_ADJ_VALUE) (hd : d ≠ 0) :
    menu_navigate env d 0 s =
      navigate_auto_refresh ((menu_entry s.main_menu).on_key env d
        { s with menu_exit_timer := 0, b_refresh_menu := true }) := by
  unfold menu_navigate
  have e1 : navigate_activity d 0 s = { s with menu_exit_timer := 0, b_refresh_menu := true } := by
    unfold navigate_activity
    rw [if_pos (Or.inl hd)]
  rw [e1, navigate_input_encoder env d _ hk hd,
    (navigate_encoder_instrument d { s with menu_exit_timer := 0, b_refresh_menu := true }).2.2 hl]

/-- An edit of the voltage item: the set voltage goes through `float_adjust`
with the reference voltage as ceiling and is handed to `voltref_set_value`. -/
theorem edit_set_volt (env : Env) (d : Int) (s : Hmi) (hk : env.KEY_OK ≠ 0)
    (hl : s.menu_level = MENU_LEVEL_ADJ_VALUE) (hm : s.main_menu = 0) (hd : d ≠ 0) :
    (menu_navigate env d 0 s).volt_set = float_adjust s.volt_set s.volt_vref d s.sub_menu ∧
      (menu_navigate env d 0 s).volt_vref = s.volt_vref ∧
      (menu_navigate env d 0 s).code_set = s.code_set ∧
      (menu_navigate env d 0 s).dac =
        (env.voltref_set_value s.dac (float_adjust s.volt_set s.volt_vref d s.sub_menu)).1 ∧
      (menu_navigate env d 0 s).menu_level = s.menu_level ∧
      (menu_navigate env d 0 s).main_menu = s.main_menu ∧
      (menu_navigate env d 0 s).sub_menu = s.sub_menu := by
  rw [menu_navigate_edit env d s hk hl hd]
  obtain ⟨b1, b2, b3, _, _⟩ := navigate_auto_refresh_frame
    ((menu_entry s.main_menu).on_key env d { s with menu_exit_timer := 0, b_refresh_menu := true })
  obtain ⟨j1, _, j3, _, j5, _, _, _, _, j10, _, _⟩ := navigate_auto_refresh_instrument
    ((menu_entry s.main_menu).on_key env d { s with menu_exit_timer := 0, b_refresh_menu := true })
  rw [b1, b2, b3, j1, j3, j5, j10, hm]
  have e : (menu_entry 0).on_key = on_key_set_volt := rfl
  rw [e]
  unfold on_key_set_volt
  rw [if_pos hl]
  dsimp only
  exact ⟨rfl, rfl, rfl, rfl, rfl, rfl, rfl⟩

/-- An edit of the code item: the static `code_set` goes through `hex5_adjust`
and is written to the DAC. -/
theorem edit_set_code (env : Env) (d : Int) (s : Hmi) (hk : env.KEY_OK ≠ 0)
    (hl : s.menu_level = MENU_LEVEL_ADJ_VALUE) (hm : s.main_menu = 1) (hd : d ≠ 0) :
    (menu_navigate env d 0 s).code_set = hex5_adjust s.code_set 0xfffff d s.sub_menu ∧
      (menu_navigate env d 0 s).dac =
        (ad5791_set_code s.dac (to_u32 (hex5_adjust s.code_set 0xfffff d s.sub_menu))).1 ∧
      (menu_navigate env d 0 s).volt_set = s.volt_set ∧
      (menu_navigate env d 0 s).volt_vref = s.volt_vref := by
  rw [menu_navigate_edit env d s hk hl hd]
  obtain ⟨j1, _, j3, _, j5, _, _, _, _, j10, _, _⟩ := navigate_auto_refresh_instrument
    ((menu_entry s.main_menu).on_key env d { s with menu_exit_timer := 0, b_refresh_menu := true })
  rw [j1, j3, j5, j10, hm]
  have e : (menu_entry 1).on_key = on_key_set_code := rfl
  rw [e]
  unfold on_key_set_code
  rw [if_pos hl]
  dsimp only
  exact ⟨rfl, rfl, rfl, rfl⟩

/-- An edit of the calibration item: the reference voltage goes through
`float_adjust` with the ceiling 15, and the DAC is given its own code again. -/
theorem edit_cal_reference (env : Env) (d : Int) (s : Hmi) (hk : env.KEY_OK ≠ 0)
    (hl : s.menu_level = MENU_LEVEL_ADJ_VALUE) (hm : s.main_menu = 2) (hd : d ≠ 0) :
    (menu_navigate env d 0 s).volt_vref = float_adjust s.volt_vref 15 d s.sub_menu ∧
      (menu_navigate env d 0 s).volt_set = s.volt_set ∧
      (menu_navigate env d 0 s).code_set = s.code_set ∧
      (menu_navigate env d 0 s).dac =
        (ad5791_set_code
          (ad5791_set_vref s.dac (float_adjust s.volt_vref 15 d s.sub_menu))
          (to_u32 (ad5791_get_code
            (ad5791_set_vref s.dac (float_adjust s.volt_vref 15 d s.sub_menu))))).1 := by
  rw [menu_navigate_edit env d s hk hl hd]
  obtain ⟨j1, _, j3, _, j5, _, _, _, _, j10, _, _⟩ := navigate_auto_refresh_instrument
    ((menu_entry s.main_menu).on_key env d { s with menu_exit_timer := 0, b_refresh_menu := true })
  rw [j1, j3, j5, j10, hm]
  have e : (menu_entry 2).on_key = on_key_cal_reference := rfl
  rw [e]
  unfold on_key_cal_reference
  rw [if_pos hl]
  dsimp only
  exact ⟨rfl, rfl, rfl, rfl⟩

/-- The first field of the decimal value has the weight 1. -/
theorem float_adjust_field_0 (value max : ℚ) (d : Int) (hd : |d| < 2 ^ 53) :
    float_adjust value max d 0 =
      if to_f64 ((d : ℚ) + value) ≤ max then
        (if to_f64 ((d : ℚ) + value) < 0 then 0 else to_f64 ((d : ℚ) + value))
      else (if value < 0 then 0 else value) := by
  have h := float_adjust_value value max d 0 (by omega)
  rw [show 6 - 0 = 6 from rfl, to_f64_weight.1, one_mul, to_f64_int d hd] at h
  exact h

/-- On the first field, with an integer value, the sum is exact. -/
theorem float_adjust_field_0_int (v d : Int) (max : ℚ) (hv : |v| < 2 ^ 52) (hd : |d| < 2 ^ 52) :
    float_adjust (v : ℚ) max d 0 =
      if ((d + v : Int) : ℚ) ≤ max then (if ((d + v : Int) : ℚ) < 0 then 0 else ((d + v : Int) : ℚ))
      else (if (v : ℚ) < 0 then 0 else (v : ℚ)) := by
  have hs : |d + v| < 2 ^ 53 := by
    rw [abs_lt] at hv hd ⊢
    constructor <;> omega
  have hd2 : |d| < 2 ^ 53 := by
    rw [abs_lt] at hd ⊢
    constructor <;> omega
  rw [float_adjust_field_0 _ _ _ hd2]
  have e : to_f64 ((d : ℚ) + (v : ℚ)) = ((d + v : Int) : ℚ) := by
    rw [← Int.cast_add]
    exact to_f64_int (d + v) hs
  rw [e]

/-- After the last block of `menu_navigate` the periodic refresh is on exactly
on the two screens of the temperature item. -/
theorem navigate_auto_refresh_flag (s : Hmi) :
    (navigate_auto_refresh s).b_auto_refresh = true ↔
      ((s.menu_level = MENU_LEVEL_SHOW_MENU ∨ s.menu_level = MENU_LEVEL_SHOW_VALUE) ∧
        s.main_menu = MAIN_MENU_SHOW_TEMP) := by
  unfold navigate_auto_refresh
  dsimp only
  by_cases h2 : s.menu_level = MENU_LEVEL_SHOW_VALUE
  · rw [if_pos h2]
    by_cases h3 : s.main_menu = MAIN_MENU_SHOW_TEMP
    · rw [if_pos h3]; exact ⟨fun _ => ⟨Or.inr h2, h3⟩, fun _ => rfl⟩
    · rw [if_neg h3]
      exact ⟨fun h => by simp at h, fun h => absurd h.2 h3⟩
  · rw [if_neg h2]
    by_cases h1 : s.menu_level = MENU_LEVEL_SHOW_MENU
    · rw [if_pos h1]
      by_cases h3 : s.main_menu = MAIN_MENU_SHOW_TEMP
      · rw [if_pos h3]; exact ⟨fun _ => ⟨Or.inl h1, h3⟩, fun _ => rfl⟩
      · rw [if_neg h3]
        exact ⟨fun h => by simp at h, fun h => absurd h.2 h3⟩
    · rw [if_neg h1]
      refine ⟨fun h => by simp at h, fun h => ?_⟩
      rcases h.1 with h | h
      · exact absurd h h1
      · exact absurd h h2

/-- After `menu_navigate` the periodic refresh is on exactly on the two screens
of the temperature item. -/
theorem menu_navigate_auto_refresh (env : Env) (encoder : Int) (key : Nat) (s : Hmi) :
    (menu_navigate env encoder key s).b_auto_refresh = true ↔
      (((menu_navigate env encoder key s).menu_level = MENU_LEVEL_SHOW_MENU ∨
          (menu_navigate env encoder key s).menu_level = MENU_LEVEL_SHOW_VALUE) ∧
        (menu_navigate env encoder key s).main_menu = MAIN_MENU_SHOW_TEMP) := by
  unfold menu_navigate
  obtain ⟨b1, b2, _, _, _⟩ := navigate_auto_refresh_frame
    (navigate_input env encoder key (navigate_activity encoder key s))
  rw [b1, b2]
  exact navigate_auto_refresh_flag _

/-- A tick leaves the flag of the periodic refresh alone, and either leaves the
level and the main index alone or returns to the root level. -/
theorem hmi_timer_auto_refresh (s : Hmi) :
    (hmi_timer s).b_auto_refresh = s.b_auto_refresh ∧
      (((hmi_timer s).menu_level = s.menu_level ∧ (hmi_timer s).main_menu = s.main_menu) ∨
        (hmi_timer s).menu_level = MENU_LEVEL_ROOT) := by
  unfold hmi_timer
  dsimp only
  split_ifs <;> first
    | exact ⟨rfl, Or.inl ⟨rfl, rfl⟩⟩
    | exact ⟨rfl, Or.inr rfl⟩

/-- Outside the table the model uses an entry whose refresh handler does
nothing. -/
theorem menu_entry_outside_refresh (m : Int) (h : m < 0 ∨ 6 < m) (sample : Option ℚ)
    (s : Hmi) : (menu_entry m).on_refresh sample s = s := by
  unfold menu_entry
  by_cases h0 : 0 ≤ m
  · rw [if_pos h0]
    have hlen : hmi_menu.length ≤ m.toNat := by
      have : hmi_menu.length = 7 := rfl
      omega
    rw [List.getD_eq_default _ _ hlen]
  · rw [if_neg h0]

/-- A redraw leaves the level, the main index and the flag of the periodic
refresh alone. -/
theorem menu_refresh_auto_refresh (sample : Option ℚ) (s : Hmi) :
    (menu_refresh sample s).b_auto_refresh = s.b_auto_refresh ∧
      (menu_refresh sample s).menu_level = s.menu_level ∧
      (menu_refresh sample s).main_menu = s.main_menu := by
  have hentry : ∀ (m : Int) (t : Hmi),
      ((menu_entry m).on_refresh sample t).b_auto_refresh = t.b_auto_refresh ∧
        ((menu_entry m).on_refresh sample t).menu_level = t.menu_level ∧
        ((menu_entry m).on_refresh sample t).main_menu = t.main_menu := by
    intro m t
    by_cases ho : m < 0 ∨ 6 < m
    · rw [menu_entry_outside_refresh m ho]
      exact ⟨rfl, rfl, rfl⟩
    · have h0 : 0 ≤ m := by omega
      have h6 : m ≤ 6 := by omega
      interval_cases m <;> simp only [menu_entry, hmi_menu] <;>
        simp only [Int.toNat_ofNat, List.getD_cons_zero, List.getD_cons_succ, le_refl, if_true,
          Int.toNat_zero, Int.toNat_one, Nat.ofNat_nonneg, Int.reduceToNat, Int.reduceLE] <;>
        (first
          | unfold on_refresh_print
          | (unfold on_refresh_cal_reference; split_ifs)
          | (unfold on_refresh_show_temperature; cases sample)) <;>
        exact ⟨rfl, rfl, rfl⟩
  unfold menu_refresh
  dsimp only
  split_ifs <;> first
    | exact ⟨rfl, rfl, rfl⟩
    | exact hentry s.main_menu { s with b_refresh_menu := false }

/-- The periodic refresh is on whenever one of the two screens of the
temperature item is shown: an invariant of every step. -/
theorem auto_refresh_step (env : Env) (s : Hmi) (ev : Event)
    (h : (s.menu_level = MENU_LEVEL_SHOW_MENU ∨ s.menu_level = MENU_LEVEL_SHOW_VALUE) →
      s.main_menu = MAIN_MENU_SHOW_TEMP → s.b_auto_refresh = true) :
    ((step env s ev).menu_level = MENU_LEVEL_SHOW_MENU ∨
        (step env s ev).menu_level = MENU_LEVEL_SHOW_VALUE) →
      (step env s ev).main_menu = MAIN_MENU_SHOW_TEMP → (step env s ev).b_auto_refresh = true := by
  cases ev with
  | navigate encoder key =>
    intro hl hm
    exact (menu_navigate_auto_refresh env encoder key s).mpr ⟨hl, hm⟩
  | tick =>
    intro hl hm
    obtain ⟨t1, t2⟩ := hmi_timer_auto_refresh s
    show (hmi_timer s).b_auto_refresh = true
    change ((hmi_timer s).menu_level = _ ∨ (hmi_timer s).menu_level = _) at hl
    change (hmi_timer s).main_menu = _ at hm
    rcases t2 with ⟨t2, t3⟩ | t2
    · rw [t1]; exact h (by rw [← t2]; exact hl) (by rw [← t3]; exact hm)
    · rw [t2] at hl
      rcases hl with hl | hl <;> exact absurd hl (by decide)
  | refresh sample =>
    intro hl hm
    obtain ⟨t1, t2, t3⟩ := menu_refresh_auto_refresh sample s
    show (menu_refresh sample s).b_auto_refresh = true
    change ((menu_refresh sample s).menu_level = _ ∨ (menu_refresh sample s).menu_level = _) at hl
    change (menu_refresh sample s).main_menu = _ at hm
    rw [t1]; exact h (by rw [← t2]; exact hl) (by rw [← t3]; exact hm)
  | disp_update volt =>
    intro hl hm
    exact h hl hm

/-- C18: starting from the initial menu state, after any sequence of input
events and ticks (and redraws and display updates), whenever the temperature
item (main index 3) is the active item at the level MENU_SELECT or VALUE_VIEW,
the flag of the periodic refresh is set; and in every state in which the flag is
set, a tick of `hmi_timer` leaves a redraw pending. -/
theorem C18_auto_refresh (env : Env) (s : Hmi) (evs : List Event) (h0 : menu_initial s) :
    (((run env s evs).menu_level = MENU_LEVEL_SHOW_MENU ∨
          (run env s evs).menu_level = MENU_LEVEL_SHOW_VALUE) →
        (run env s evs).main_menu = 3 → (run env s evs).b_auto_refresh = true) ∧
      (∀ t : Hmi, t.b_auto_refresh = true → (hmi_timer t).b_refresh_menu = true) := by
  constructor
  · have hgen : ∀ (l : List Event) (t : Hmi),
        ((t.menu_level = MENU_LEVEL_SHOW_MENU ∨ t.menu_level = MENU_LEVEL_SHOW_VALUE) →
          t.main_menu = MAIN_MENU_SHOW_TEMP → t.b_auto_refresh = true) →
        ((run env t l).menu_level = MENU_LEVEL_SHOW_MENU ∨
            (run env t l).menu_level = MENU_LEVEL_SHOW_VALUE) →
          (run env t l).main_menu = MAIN_MENU_SHOW_TEMP → (run env t l).b_auto_refresh = true := by
      intro l
      induction l with
      | nil => intro t ht; exact ht
      | cons ev l ih =>
        intro t ht
        exact ih (step env t ev) (auto_refresh_step env t ev ht)
    apply hgen evs s
    intro hl _
    obtain ⟨_, _, i3, _⟩ := h0
    rw [i3] at hl
    rcases hl with hl | hl <;> exact absurd hl (by decide)
  · intro t ht
    unfold hmi_timer
    rw [if_pos ht]
    dsimp only
    split_ifs <;> rfl

theorem C18_auto_refresh_witness :
    menu_initial hmi_initial ∧
      (run sample_env hmi_initial show_temperature_events).menu_level = MENU_LEVEL_SHOW_VALUE ∧
      (run sample_env hmi_initial show_temperature_events).main_menu = 3 ∧
      (run sample_env hmi_initial show_temperature_events).b_auto_refresh = true :=
  ⟨by decide, by decide, by decide,
    (C18_auto_refresh sample_env hmi_initial show_temperature_events (by decide)).1
      (Or.inr (by decide)) (by decide)⟩

/-! ## The code of the DAC and the contrast at the root level -/

/-- The code that the code item edits and the code held by the DAC driver along
the session `code_drift_events`: the edit of the voltage moves the DAC to the
code 52429 and leaves `code_set` at 0; the edit of the code then moves both to
65536. -/
theorem code_drift_trace :
    ((code_drift_state 4).code_set = 0 ∧ (code_drift_state 4).dac.dac_code20b = 52429) ∧
      ((code_drift_state 9).code_set = 0 ∧ (code_drift_state 9).dac.dac_code20b = 52429) ∧
      ((code_drift_state 10).code_set = 65536 ∧
        (code_drift_state 10).dac.dac_code20b = 65536) := by
  have v0 : (code_drift_state 0).code_set = 0 ∧ (code_drift_state 0).dac = hmi_booted.dac :=
    ⟨rfl, rfl⟩
  have w0 : (code_drift_state 0).volt_set = 0 ∧ (code_drift_state 0).volt_vref = 20 :=
    ⟨rfl, rfl⟩
  have s1 : code_drift_state 1 = menu_navigate sample_env 1 0 (code_drift_state 0) := rfl
  have q1 := menu_navigate_no_edit sample_env 1 0 (code_drift_state 0) (Or.inl (by decide))
  rw [← s1] at q1
  have v1 : (code_drift_state 1).code_set = 0 ∧ (code_drift_state 1).dac = hmi_booted.dac :=
    ⟨q1.2.2.1.trans v0.1, q1.2.2.2.trans v0.2⟩
  have w1 : (code_drift_state 1).volt_set = 0 ∧ (code_drift_state 1).volt_vref = 20 :=
    ⟨q1.1.trans w0.1, q1.2.1.trans w0.2⟩
  have s2 : code_drift_state 2 = menu_navigate sample_env 0 sample_env.KEY_OK (code_drift_state 1) := rfl
  have q2 := menu_navigate_no_edit sample_env 0 sample_env.KEY_OK (code_drift_state 1) (Or.inr (Or.inl rfl))
  rw [← s2] at q2
  have v2 : (code_drift_state 2).code_set = 0 ∧ (code_drift_state 2).dac = hmi_booted.dac :=
    ⟨q2.2.2.1.trans v1.1, q2.2.2.2.trans v1.2⟩
  have w2 : (code_drift_state 2).volt_set = 0 ∧ (code_drift_state 2).volt_vref = 20 :=
    ⟨q2.1.trans w1.1, q2.2.1.trans w1.2⟩
  have s3 : code_drift_state 3 = menu_navigate sample_env 0 sample_env.KEY_OK (code_drift_state 2) := rfl
  have q3 := menu_navigate_no_edit sample_env 0 sample_env.KEY_OK (code_drift_state 2) (Or.inr (Or.inl rfl))
  rw [← s3] at q3
  have v3 : (code_drift_state 3).code_set = 0 ∧ (code_drift_state 3).dac = hmi_booted.dac :=
    ⟨q3.2.2.1.trans v2.1, q3.2.2.2.trans v2.2⟩
  have w3 : (code_drift_state 3).volt_set = 0 ∧ (code_drift_state 3).volt_vref = 20 :=
    ⟨q3.1.trans w2.1, q3.2.1.trans w2.2⟩
  have s4 : code_drift_state 4 = menu_navigate sample_env 1 0 (code_drift_state 3) := rfl
  have q4 := edit_set_volt sample_env 1 (code_drift_state 3) (by decide) (by decide) (by decide) (by decide)
  rw [← s4] at q4
  have p4 : (code_drift_state 3).sub_menu = 0 := by decide
  have a4 : float_adjust (code_drift_state 3).volt_set (code_drift_state 3).volt_vref 1 (code_drift_state 3).sub_menu = 1 := by
    rw [w3.1, w3.2, p4]
    have h := float_adjust_field_0_int 0 1 20 (by norm_num) (by norm_num)
    norm_num at h
    exact h
  have f4 : ⌊(1 : ℚ) / 20 * 1048575 + 1 / 2⌋ = 52429 := by
    rw [Int.floor_eq_iff]
    norm_num
  have v4 : (code_drift_state 4).code_set = 0 ∧ (code_drift_state 4).dac.dac_code20b = 52429 := by
    refine ⟨q4.2.2.1.trans v3.1, ?_⟩
    rw [q4.2.2.2.1, a4, v3.2]
    show (ad5791_set_volt hmi_booted.dac 1).1.dac_code20b = 52429
    unfold ad5791_set_volt ad5791_write_data
    show (if (Int.toNat ⌊(1 : ℚ) / 20 * 1048575 + 1 / 2⌋) % 2 ^ 32 > 0xfffff then 0xfffff
      else (Int.toNat ⌊(1 : ℚ) / 20 * 1048575 + 1 / 2⌋) % 2 ^ 32) = 52429
    rw [f4]
    decide
  have s5 : code_drift_state 5 = menu_navigate sample_env 0 (sample_env.KEY_OK ||| sample_env.KEY_PRESS_L) (code_drift_state 4) := rfl
  have q5 := menu_navigate_no_edit sample_env 0 (sample_env.KEY_OK ||| sample_env.KEY_PRESS_L) (code_drift_state 4) (Or.inr (Or.inr (Or.inl rfl)))
  rw [← s5] at q5
  have v5 : (code_drift_state 5).code_set = 0 ∧ (code_drift_state 5).dac.dac_code20b = 52429 :=
    ⟨q5.2.2.1.trans v4.1, (congrArg Dac.dac_code20b q5.2.2.2).trans v4.2⟩
  have s6 : code_drift_state 6 = menu_navigate sample_env 1 0 (code_drift_state 5) := rfl
  have q6 := menu_navigate_no_edit sample_env 1 0 (code_drift_state 5) (Or.inl (by decide))
  rw [← s6] at q6
  have v6 : (code_drift_state 6).code_set = 0 ∧ (code_drift_state 6).dac.dac_code20b = 52429 :=
    ⟨q6.2.2.1.trans v5.1, (congrArg Dac.dac_code20b q6.2.2.2).trans v5.2⟩
  have s7 : code_drift_state 7 = menu_navigate sample_env 1 0 (code_drift_state 6) := rfl
  have q7 := menu_navigate_no_edit sample_env 1 0 (code_drift_state 6) (Or.inl (by decide))
  rw [← s7] at q7
  have v7 : (code_drift_state 7).code_set = 0 ∧ (code_drift_state 7).dac.dac_code20b = 52429 :=
    ⟨q7.2.2.1.trans v6.1, (congrArg Dac.dac_code20b q7.2.2.2).trans v6.2⟩
  have s8 : code_drift_state 8 = menu_navigate sample_env 0 sample_env.KEY_OK (code_drift_state 7) := rfl
  have q8 := menu_navigate_no_edit sample_env 0 sample_env.KEY_OK (code_drift_state 7) (Or.inr (Or.inl rfl))
  rw [← s8] at q8
  have v8 : (code_drift_state 8).code_set = 0 ∧ (code_drift_state 8).dac.dac_code20b = 52429 :=
    ⟨q8.2.2.1.trans v7.1, (congrArg Dac.dac_code20b q8.2.2.2).trans v7.2⟩
  have s9 : code_drift_state 9 = menu_navigate sample_env 0 sample_env.KEY_OK (code_drift_state 8) := rfl
  have q9 := menu_navigate_no_edit sample_env 0 sample_env.KEY_OK (code_drift_state 8) (Or.inr (Or.inl rfl))
  rw [← s9] at q9
  have v9 : (code_drift_state 9).code_set = 0 ∧ (code_drift_state 9).dac.dac_code20b = 52429 :=
    ⟨q9.2.2.1.trans v8.1, (congrArg Dac.dac_code20b q9.2.2.2).trans v8.2⟩
  have s10 : code_drift_state 10 = menu_navigate sample_env 1 0 (code_drift_state 9) := rfl
  have q10 := edit_set_code sample_env 1 (code_drift_state 9) (by decide) (by decide) (by decide) (by decide)
  rw [← s10] at q10
  have p10 : (code_drift_state 9).sub_menu = 0 := by decide
  have a10 : hex5_adjust (code_drift_state 9).code_set 0xfffff 1 (code_drift_state 9).sub_menu = 65536 := by
    rw [v9.1, p10]
    decide
  have v10 : (code_drift_state 10).code_set = 65536 ∧ (code_drift_state 10).dac.dac_code20b = 65536 := by
    refine ⟨q10.1.trans a10, ?_⟩
    rw [q10.2.1, a10]
    show to_u32 65536 &&& 0xfffff = 65536
    decide
  exact ⟨v4, v9, v10⟩

/-- C19 (fails on the code): after initialisation, an edit of the voltage (first
field up by one, to 1 V) moves the DAC to the code 52429 through
`voltref_set_value` and leaves `code_set` at 0, so that `code_set` differs from
`ad5791_get_code`; the following edit of the code (first field up by one) then
moves the DAC from 52429 to 65536, not to 52429 + 16^4. -/
theorem C19_code_set_drift :
    hmi_init none hmi_initial = hmi_booted ∧
      sample_env.voltref_set_value = voltref_set_value ∧
      (∀ ev ∈ code_drift_events, ev.wf) ∧
      hmi_booted.code_set = ad5791_get_code hmi_booted.dac ∧
      (code_drift_state 4).code_set = 0 ∧
      ad5791_get_code (code_drift_state 4).dac = 52429 ∧
      (code_drift_state 4).code_set ≠ ad5791_get_code (code_drift_state 4).dac ∧
      (code_drift_state 9).menu_level = MENU_LEVEL_ADJ_VALUE ∧
      (code_drift_state 9).main_menu = 1 ∧
      (code_drift_state 9).sub_menu = 0 ∧
      ad5791_get_code (code_drift_state 9).dac = 52429 ∧
      run sample_env hmi_booted code_drift_events =
        menu_navigate sample_env 1 0 (code_drift_state 9) ∧
      ad5791_get_code (run sample_env hmi_booted code_drift_events).dac = 65536 ∧
      ad5791_get_code (run sample_env hmi_booted code_drift_events).dac ≠
        ad5791_get_code (code_drift_state 9).dac + 1 * 16 ^ (4 - 0) := by
  obtain ⟨⟨t1, t2⟩, ⟨_, t4⟩, _, t6⟩ := code_drift_trace
  have e : run sample_env hmi_booted code_drift_events = code_drift_state 10 := rfl
  have g4 : ad5791_get_code (code_drift_state 4).dac = 52429 := by
    unfold ad5791_get_code
    rw [t2]
    decide
  have g9 : ad5791_get_code (code_drift_state 9).dac = 52429 := by
    unfold ad5791_get_code
    rw [t4]
    decide
  have g10 : ad5791_get_code (code_drift_state 10).dac = 65536 := by
    unfold ad5791_get_code
    rw [t6]
    decide
  refine ⟨hmi_init_booted, rfl, by decide, by decide, t1, g4, ?_, by decide, by decide, by decide,
    g9, rfl, ?_, ?_⟩
  · rw [t1, g4]; decide
  · rw [e]; exact g10
  · rw [e, g10, g9]; decide

/-- C20 (fails on the code): at the level ROOT a turn of the encoder to the left
with no key changes the display contrast. After initialisation, entering the
menu, turning to the contrast item and a long press, the level is ROOT and the
main index is still 4; an encoder delta of -1 then reaches
`on_key_set_contrast`, whose guard only excludes the level MENU_SELECT, and the
contrast goes from 90 to 80 while the level stays ROOT. -/
theorem C20_contrast_changed_at_root :
    hmi_init none hmi_initial = hmi_booted ∧ menu_initial hmi_booted ∧
      (∀ ev ∈ root_contrast_events, ev.wf) ∧
      (run sample_env hmi_booted root_contrast_events).menu_level = MENU_LEVEL_ROOT ∧
      (run sample_env hmi_booted root_contrast_events).main_menu = 4 ∧
      (run sample_env hmi_booted root_contrast_events).disp_contrast = 90 ∧
      (menu_navigate sample_env (-1) 0
        (run sample_env hmi_booted root_contrast_events)).menu_level = MENU_LEVEL_ROOT ∧
      (menu_navigate sample_env (-1) 0
        (run sample_env hmi_booted root_contrast_events)).disp_contrast = 80 :=
  ⟨hmi_init_booted, by decide, by decide, by decide, by decide, by decide, by decide, by decide⟩

/-! ## The periodic refresh and the idle timeout -/

/-- A tick leaves the flag of the periodic refresh alone, and leaves the level
and the main index alone unless it is the tick of the idle timeout at the level
MENU_SELECT. -/
theorem hmi_timer_cases (s : Hmi) :
    (hmi_timer s).b_auto_refresh = s.b_auto_refresh ∧
      (((hmi_timer s).menu_level = s.menu_level ∧ (hmi_timer s).main_menu = s.main_menu) ∨
        (s.menu_level = MENU_LEVEL_SHOW_MENU ∧ (s.menu_exit_timer + 1) % 2 ^ 16 = 60 / 2)) := by
  unfold hmi_timer
  dsimp only
  split_ifs <;> first
    | exact ⟨rfl, Or.inl ⟨rfl, rfl⟩⟩
    | exact ⟨rfl, Or.inr ⟨by assumption, by assumption⟩⟩

/-- With the periodic refresh off, a tick asks for a redraw only when it is the
tick of the idle timeout at the level MENU_SELECT. -/
theorem hmi_timer_redraw (s : Hmi) (hf : s.b_auto_refresh = false)
    (hr : s.b_refresh_menu = false) (h : (hmi_timer s).b_refresh_menu = true) :
    s.menu_level = MENU_LEVEL_SHOW_MENU ∧ (s.menu_exit_timer + 1) % 2 ^ 16 = 60 / 2 := by
  unfold hmi_timer at h
  rw [hf] at h
  simp only [Bool.false_eq_true, if_false] at h
  split_ifs at h with h1 h2
  · exact ⟨h2, h1⟩
  · exact absurd (hr.symm.trans h) (by decide)
  · exact absurd (hr.symm.trans h) (by decide)

/-- A step that is not an idle timeout on the temperature item keeps the
periodic refresh confined to the two screens of the temperature item. -/
theorem confined_step (env : Env) (s : Hmi) (ev : Event)
    (h : s.b_auto_refresh = true →
      (s.menu_level = MENU_LEVEL_SHOW_MENU ∨ s.menu_level = MENU_LEVEL_SHOW_VALUE) ∧
        s.main_menu = MAIN_MENU_SHOW_TEMP)
    (hn : match ev with
      | Event.tick => ¬ timeout_on_temperature s
      | _ => True) :
    (step env s ev).b_auto_refresh = true →
      ((step env s ev).menu_level = MENU_LEVEL_SHOW_MENU ∨
          (step env s ev).menu_level = MENU_LEVEL_SHOW_VALUE) ∧
        (step env s ev).main_menu = MAIN_MENU_SHOW_TEMP := by
  cases ev with
  | navigate encoder key =>
    exact (menu_navigate_auto_refresh env encoder key s).mp
  | tick =>
    intro hf
    change (hmi_timer s).b_auto_refresh = true at hf
    show ((hmi_timer s).menu_level = _ ∨ (hmi_timer s).menu_level = _) ∧
      (hmi_timer s).main_menu = _
    obtain ⟨t1, t2⟩ := hmi_timer_cases s
    rw [t1] at hf
    obtain ⟨hl, hm⟩ := h hf
    rcases t2 with ⟨t2, t3⟩ | ⟨t2, t3⟩
    · rw [t2, t3]; exact ⟨hl, hm⟩
    · exact absurd ⟨t2, hm, t3⟩ hn
  | refresh sample =>
    intro hf
    change (menu_refresh sample s).b_auto_refresh = true at hf
    show ((menu_refresh sample s).menu_level = _ ∨ (menu_refresh sample s).menu_level = _) ∧
      (menu_refresh sample s).main_menu = _
    obtain ⟨t1, t2, t3⟩ := menu_refresh_auto_refresh sample s
    rw [t1] at hf
    rw [t2, t3]
    exact h hf
  | disp_update volt =>
    intro hf
    exact h hf

/-- Unless an idle timeout on the temperature item has happened with no call
of `menu_navigate` after it, the periodic refresh is confined to the two
screens of the temperature item at the end of a sequence of events. -/
theorem confined_run (env : Env) : ∀ (evs : List Event) (b : Bool) (s : Hmi),
    (b = false → s.b_auto_refresh = true →
      (s.menu_level = MENU_LEVEL_SHOW_MENU ∨ s.menu_level = MENU_LEVEL_SHOW_VALUE) ∧
        s.main_menu = MAIN_MENU_SHOW_TEMP) →
    timeout_since_input env b s evs = false →
    (run env s evs).b_auto_refresh = true →
      ((run env s evs).menu_level = MENU_LEVEL_SHOW_MENU ∨
          (run env s evs).menu_level = MENU_LEVEL_SHOW_VALUE) ∧
        (run env s evs).main_menu = MAIN_MENU_SHOW_TEMP := by
  intro evs
  induction evs with
  | nil => intro b s h hn; exact h hn
  | cons ev evs ih =>
    intro b s h hn
    refine ih _ (step env s ev) ?_ hn
    cases ev with
    | navigate encoder key =>
      intro _
      exact (menu_navigate_auto_refresh env encoder key s).mp
    | tick =>
      intro hb
      have hb2 : (b || decide (timeout_on_temperature s)) = false := hb
      rw [Bool.or_eq_false_iff] at hb2
      exact confined_step env s Event.tick (h hb2.1) (of_decide_eq_false hb2.2)
    | refresh sample =>
      intro hb
      exact confined_step env s (Event.refresh sample) (h hb) trivial
    | disp_update volt =>
      intro hb
      exact confined_step env s (Event.disp_update volt) (h hb) trivial

set_option maxRecDepth 8192

/-- C21, as stated, fails twice. By the design of the idle timeout: in the menu
on the voltage item, with the periodic refresh off and no redraw pending, the
30th tick without input marks a redraw pending (and returns to ROOT). By a slip:
after entering the menu, turning to the temperature item and 30 ticks without
input, the idle timeout has returned the level to ROOT with the flag of the
periodic refresh still set, and after a redraw the next tick without input
marks a redraw pending at the level ROOT. -/
theorem C21_counterexample_tick_redraw :
    hmi_init none hmi_initial = hmi_booted ∧ menu_initial hmi_booted ∧
      ((∀ ev ∈ idle_in_menu_events, ev.wf) ∧
        (run sample_env hmi_booted idle_in_menu_events).menu_level = MENU_LEVEL_SHOW_MENU ∧
        (run sample_env hmi_booted idle_in_menu_events).main_menu = 0 ∧
        (run sample_env hmi_booted idle_in_menu_events).b_auto_refresh = false ∧
        (run sample_env hmi_booted idle_in_menu_events).b_refresh_menu = false ∧
        (hmi_timer (run sample_env hmi_booted idle_in_menu_events)).b_refresh_menu = true) ∧
      ((∀ ev ∈ idle_on_temperature_events, ev.wf) ∧
        (run sample_env hmi_booted idle_on_temperature_events).menu_level = MENU_LEVEL_ROOT ∧
        (run sample_env hmi_booted idle_on_temperature_events).main_menu = 0 ∧
        (run sample_env hmi_booted idle_on_temperature_events).b_auto_refresh = true ∧
        (run sample_env hmi_booted idle_on_temperature_events).b_refresh_menu = false ∧
        (hmi_timer (run sample_env hmi_booted idle_on_temperature_events)).menu_level =
          MENU_LEVEL_ROOT ∧
        (hmi_timer (run sample_env hmi_booted idle_on_temperature_events)).b_refresh_menu =
          true) :=
  ⟨hmi_init_booted, by decide,
    ⟨by decide, by decide, by decide, by decide, by decide, by decide⟩,
    ⟨by decide, by decide, by decide, by decide, by decide, by decide, by decide⟩⟩

set_option maxRecDepth 512

/-- C21 (amended): starting from the initial menu state, after any sequence of
input events and ticks of `hmi_timer` (and redraws and display updates), unless
an idle timeout on the temperature item has happened with no input event (call
of `menu_navigate`) after it, the flag of the periodic refresh is set only if
the level is MENU_SELECT or VALUE_VIEW and the active item is the temperature
item. In such a state, on every other screen a tick without input marks a
redraw pending only if it is the tick of the idle timeout at the level
MENU_SELECT; at the levels ROOT, VALUE_VIEW and VALUE_EDIT it never does. -/
theorem C21_auto_refresh_confined (env : Env) (s : Hmi) (evs : List Event)
    (h0 : menu_initial s) (hn : timeout_since_input env false s evs = false) :
    ((run env s evs).b_auto_refresh = true →
        ((run env s evs).menu_level = MENU_LEVEL_SHOW_MENU ∨
            (run env s evs).menu_level = MENU_LEVEL_SHOW_VALUE) ∧
          (run env s evs).main_menu = 3) ∧
      (¬ (((run env s evs).menu_level = MENU_LEVEL_SHOW_MENU ∨
              (run env s evs).menu_level = MENU_LEVEL_SHOW_VALUE) ∧
            (run env s evs).main_menu = 3) →
        (run env s evs).b_refresh_menu = false →
        ((hmi_timer (run env s evs)).b_refresh_menu = true →
            (run env s evs).menu_level = MENU_LEVEL_SHOW_MENU ∧
              ((run env s evs).menu_exit_timer + 1) % 2 ^ 16 = 60 / 2) ∧
          ((run env s evs).menu_level ≠ MENU_LEVEL_SHOW_MENU →
            (hmi_timer (run env s evs)).b_refresh_menu = false)) := by
  have hinit : false = false → s.b_auto_refresh = true →
      (s.menu_level = MENU_LEVEL_SHOW_MENU ∨ s.menu_level = MENU_LEVEL_SHOW_VALUE) ∧
        s.main_menu = MAIN_MENU_SHOW_TEMP := by
    intro _ hf
    obtain ⟨_, _, _, i4, _⟩ := h0
    rw [i4] at hf
    exact absurd hf (by decide)
  have hc := confined_run env evs false s hinit hn
  generalize run env s evs = t at hc ⊢
  refine ⟨hc, ?_⟩
  intro hscreen hr
  have hf : t.b_auto_refresh = false := by
    cases hb : t.b_auto_refresh
    · rfl
    · exact absurd (hc hb) hscreen
  refine ⟨hmi_timer_redraw t hf hr, ?_⟩
  intro hl
  cases hb : (hmi_timer t).b_refresh_menu
  · rfl
  · exact absurd (hmi_timer_redraw t hf hr hb).1 hl

set_option maxRecDepth 8192

theorem C21_auto_refresh_confined_witness :
    menu_initial hmi_booted ∧
      timeout_since_input sample_env false hmi_booted idle_on_temperature_events = true ∧
      timeout_since_input sample_env false hmi_booted input_after_timeout_events = false ∧
      (run sample_env hmi_booted input_after_timeout_events).menu_level = MENU_LEVEL_ROOT ∧
      (run sample_env hmi_booted input_after_timeout_events).b_auto_refresh = false ∧
      (run sample_env hmi_booted input_after_timeout_events).b_refresh_menu = false ∧
      (hmi_timer (run sample_env hmi_booted input_after_timeout_events)).b_refresh_menu =
        false :=
  ⟨by decide, by decide, by decide, by decide, by decide, by decide,
    ((C21_auto_refresh_confined sample_env hmi_booted input_after_timeout_events (by decide)
      (by decide)).2 (by decide) (by decide)).2 (by decide)⟩

set_option maxRecDepth 512

/-! ## The cursor while a value is shown -/

/-- C22: starting from the initial menu state, after any sequence of input
events (encoder delta in -128..127, any key code) and ticks (and redraws and
display updates), whenever the level is VALUE_VIEW or VALUE_EDIT and the active
item is adjustable (`cursor_start` is not 0xff), the sub index lies in
`[0, menu_count - 1]` of that item. Hence at VALUE_EDIT the sub index lies in
`[0, 6]` on the voltage item and on the calibration item, so that the exponent
`6 - position` given to `ipow` is not negative and is not changed by the
conversion to `uint32_t`, and in `[0, 4]` on the code item; and the sub index is
the position that an encoder delta without a key hands to `float_adjust` and to
`hex5_adjust` there. -/
theorem C22_cursor_valid (env : Env) (s : Hmi) (evs : List Event)
    (h0 : menu_initial s) (hw : ∀ ev ∈ evs, ev.wf) :
    (((run env s evs).menu_level = MENU_LEVEL_SHOW_VALUE ∨
          (run env s evs).menu_level = MENU_LEVEL_ADJ_VALUE) →
        (menu_entry (run env s evs).main_menu).cursor_start ≠ 0xff →
        0 ≤ (run env s evs).sub_menu ∧
          (run env s evs).sub_menu ≤
            ((menu_entry (run env s evs).main_menu).menu_count : Int) - 1) ∧
      ((run env s evs).menu_level = MENU_LEVEL_ADJ_VALUE →
        ((run env s evs).main_menu = 0 ∨ (run env s evs).main_menu = 2 →
          0 ≤ (run env s evs).sub_menu ∧ (run env s evs).sub_menu ≤ 6 ∧
            0 ≤ 6 - (run env s evs).sub_menu ∧
            ((to_u32 (6 - (run env s evs).sub_menu) : Nat) : Int) =
              6 - (run env s evs).sub_menu) ∧
        ((run env s evs).main_menu = 1 →
          0 ≤ (run env s evs).sub_menu ∧ (run env s evs).sub_menu ≤ 4) ∧
        (env.KEY_OK ≠ 0 → ∀ d : Int, d ≠ 0 →
          ((run env s evs).main_menu = 0 →
            (menu_navigate env d 0 (run env s evs)).volt_set =
              float_adjust (run env s evs).volt_set (run env s evs).volt_vref d
                (run env s evs).sub_menu) ∧
          ((run env s evs).main_menu = 2 →
            (menu_navigate env d 0 (run env s evs)).volt_vref =
              float_adjust (run env s evs).volt_vref 15 d (run env s evs).sub_menu) ∧
          ((run env s evs).main_menu = 1 →
            (menu_navigate env d 0 (run env s evs)).code_set =
              hex5_adjust (run env s evs).code_set 0xfffff d (run env s evs).sub_menu))) := by
  have h := run_inv env evs s (menu_initial_inv s h0) hw
  generalize run env s evs = t at h ⊢
  obtain ⟨_, _, _, _, s0, s6, hsub⟩ := h
  have hu : ((to_u32 (6 - t.sub_menu) : Nat) : Int) = 6 - t.sub_menu := by
    unfold to_u32
    omega
  refine ⟨?_, ?_⟩
  · intro hl hcur
    have := hsub hl hcur
    exact ⟨s0, by omega⟩
  · intro hl
    refine ⟨fun _ => ⟨s0, s6, by omega, hu⟩, ?_, ?_⟩
    · intro hm
      have hb := hsub (Or.inr hl)
      rw [hm] at hb
      have hb2 : t.sub_menu < 5 := hb (by decide)
      exact ⟨s0, by omega⟩
    · intro hk d hd
      exact ⟨fun hm => (edit_set_volt env d t hk hl hm hd).1,
        fun hm => (edit_cal_reference env d t hk hl hm hd).1,
        fun hm => (edit_set_code env d t hk hl hm hd).1⟩

theorem C22_cursor_valid_witness :
    menu_initial hmi_initial ∧
      (∀ ev ∈ [Event.navigate 1 0, Event.navigate 1 0, Event.navigate 0 sample_env.KEY_OK,
        Event.navigate 6 0, Event.navigate 0 sample_env.KEY_OK], ev.wf) ∧
      (run sample_env hmi_initial
        [Event.navigate 1 0, Event.navigate 1 0, Event.navigate 0 sample_env.KEY_OK,
          Event.navigate 6 0, Event.navigate 0 sample_env.KEY_OK]).menu_level =
        MENU_LEVEL_ADJ_VALUE ∧
      (run sample_env hmi_initial
        [Event.navigate 1 0, Event.navigate 1 0, Event.navigate 0 sample_env.KEY_OK,
          Event.navigate 6 0, Event.navigate 0 sample_env.KEY_OK]).main_menu = 1 ∧
      (run sample_env hmi_initial
        [Event.navigate 1 0, Event.navigate 1 0, Event.navigate 0 sample_env.KEY_OK,
          Event.navigate 6 0, Event.navigate 0 sample_env.KEY_OK]).sub_menu = 4 ∧
      (0 ≤ (run sample_env hmi_initial
          [Event.navigate 1 0, Event.navigate 1 0, Event.navigate 0 sample_env.KEY_OK,
            Event.navigate 6 0, Event.navigate 0 sample_env.KEY_OK]).sub_menu ∧
        (run sample_env hmi_initial
          [Event.navigate 1 0, Event.navigate 1 0, Event.navigate 0 sample_env.KEY_OK,
            Event.navigate 6 0, Event.navigate 0 sample_env.KEY_OK]).sub_menu ≤
          ((menu_entry (run sample_env hmi_initial
            [Event.navigate 1 0, Event.navigate 1 0, Event.navigate 0 sample_env.KEY_OK,
              Event.navigate 6 0, Event.navigate 0 sample_env.KEY_OK]).main_menu).menu_count
            : Int) - 1) :=
  ⟨by decide, by decide, by decide, by decide, by decide,
    (C22_cursor_valid sample_env hmi_initial
      [Event.navigate 1 0, Event.navigate 1 0, Event.navigate 0 sample_env.KEY_OK,
        Event.navigate 6 0, Event.navigate 0 sample_env.KEY_OK] (by decide)
      (by decide)).1 (Or.inr (by decide)) (by decide)⟩

/-! ## The range of the edited code -/

/-- The loop of `ipow` multiplies modulo 2^32. -/
theorem ipow_loop_pow (x : Nat) : ∀ (y res : Nat), res < 2 ^ 32 →
    ipow_loop x y res = res * x ^ y % 2 ^ 32 := by
  intro y
  induction y with
  | zero =>
    intro res hres
    show res = res * x ^ 0 % 2 ^ 32
    rw [pow_zero, Nat.mul_one, Nat.mod_eq_of_lt hres]
  | succ y ih =>
    intro res _
    show ipow_loop x y (res * x % 2 ^ 32) = res * x ^ (y + 1) % 2 ^ 32
    rw [ih _ (Nat.mod_lt _ (by norm_num)), Nat.mod_mul_mod, pow_succ']
    ring_nf

/-- The function `ipow` at the base 16: the power modulo 2^32. -/
theorem ipow_16_pow (y : Nat) : ipow 16 y = 16 ^ y % 2 ^ 32 := by
  unfold ipow
  by_cases h0 : y = 0
  · rw [if_pos h0, h0]; rfl
  · rw [if_neg h0]
    by_cases h1 : y = 1
    · rw [if_pos h1, h1]; rfl
    · rw [if_neg h1, ipow_loop_pow 16 (y - 1) 16 (by norm_num)]
      have e : y = (y - 1) + 1 := by omega
      conv_rhs => rw [e, pow_succ']

/-- A value inside the range of `int32_t` is not changed by the conversion. -/
theorem to_i32_of_range (x : Int) (h1 : -2 ^ 31 ≤ x) (h2 : x < 2 ^ 31) : to_i32 x = x := by
  unfold to_i32
  omega

/-- A value of `uint32_t` with the top bit set is negative as an `int32_t`. -/
theorem to_i32_of_high (x : Int) (h1 : 2 ^ 31 ≤ x) (h2 : x < 2 ^ 32) :
    to_i32 x = x - 2 ^ 32 := by
  unfold to_i32
  omega

/-- A position above 4 is taken as 4. -/
theorem hex5_adjust_above (value : Int) (max : Nat) (d p : Int) (hp : 4 < p) :
    hex5_adjust value max d p = hex5_adjust value max d 4 := by
  have h4 : ¬ ((4 : Int) > 4) := by decide
  unfold hex5_adjust
  simp only [if_pos hp, if_neg h4]

/-- At a negative position of an `int16_t` the product of the weight and the
delta is a multiple of 2^20 as a `uint32_t`. -/
theorem hex5_product_below (d p : Int) (hp1 : -32768 ≤ p) (hp2 : p < 0) :
    ∃ r : Nat, r < 4096 ∧ ipow 16 (to_u32 (4 - p)) * to_u32 d % 2 ^ 32 = 1048576 * r := by
  obtain ⟨k, hk⟩ : ∃ k : Nat, to_u32 (4 - p) = 5 + k := by
    refine ⟨to_u32 (4 - p) - 5, ?_⟩
    unfold to_u32
    omega
  have e : (2 : Nat) ^ 32 = 1048576 * 4096 := by norm_num
  have hm : ipow 16 (to_u32 (4 - p)) = 1048576 * (16 ^ k % 4096) := by
    rw [ipow_16_pow, hk, pow_add]
    rw [e, show (16 : Nat) ^ 5 = 1048576 by norm_num, Nat.mul_mod_mul_left]
  refine ⟨16 ^ k % 4096 * to_u32 d % 4096, Nat.mod_lt _ (by norm_num), ?_⟩
  rw [hm, Nat.mul_assoc, e, Nat.mul_mod_mul_left]

/-- At a negative position the sum of the product, taken as an `int32_t`, and
of a 20-bit value lies inside the range of an `int32_t`. -/
theorem hex5_sum_below (value d p : Int) (hv0 : 0 ≤ value) (hv1 : value ≤ 0xFFFFF)
    (hp1 : -32768 ≤ p) (hp2 : p < 0) :
    -2 ^ 31 ≤ to_i32 ((ipow 16 (to_u32 (4 - p)) * to_u32 d % 2 ^ 32 : Nat) : Int) + value ∧
      to_i32 ((ipow 16 (to_u32 (4 - p)) * to_u32 d % 2 ^ 32 : Nat) : Int) + value < 2 ^ 31 := by
  obtain ⟨r, hr, hprod⟩ := hex5_product_below d p hp1 hp2
  rw [hprod]
  by_cases hr2 : r < 2048
  · rw [to_i32_of_range _ (by omega) (by omega)]
    omega
  · rw [to_i32_of_high _ (by omega) (by omega)]
    omega

/-- At a negative position `hex5_adjust` returns the value unchanged. -/
theorem hex5_adjust_below (value d p : Int) (hv0 : 0 ≤ value) (hv1 : value ≤ 0xFFFFF)
    (hp1 : -32768 ≤ p) (hp2 : p < 0) : hex5_adjust value 0xFFFFF d p = value := by
  have hpos : ¬ (p > 4) := by omega
  obtain ⟨r, hr, hprod⟩ := hex5_product_below d p hp1 hp2
  unfold hex5_adjust
  simp only [if_neg hpos, hprod]
  by_cases hr2 : r < 2048
  · have e1 : to_i32 ((1048576 * r : Nat) : Int) = 1048576 * (r : Int) := by
      rw [to_i32_of_range _ (by omega) (by omega)]
      omega
    have e2 : to_i32 (1048576 * (r : Int) + value) = 1048576 * (r : Int) + value :=
      to_i32_of_range _ (by omega) (by omega)
    rw [e1, e2]
    unfold to_u32
    split_ifs <;> omega
  · have e1 : to_i32 ((1048576 * r : Nat) : Int) = 1048576 * (r : Int) - 2 ^ 32 := by
      rw [to_i32_of_high _ (by omega) (by omega)]
      omega
    have e2 : to_i32 (1048576 * (r : Int) - 2 ^ 32 + value) =
        1048576 * (r : Int) - 2 ^ 32 + value :=
      to_i32_of_range _ (by omega) (by omega)
    rw [e1, e2]
    unfold to_u32
    split_ifs <;> omega

/-- The result of `hex5_adjust` on a 20-bit value at any position of an
`int16_t`: the step of `d * 16^(4 - min p 4)` is taken when the sum stays inside
`[0, 0xFFFFF]`, and dropped otherwise. -/
theorem hex5_adjust_any (value d p : Int) (hv0 : 0 ≤ value) (hv1 : value ≤ 0xFFFFF)
    (hp1 : -32768 ≤ p) (hd1 : -128 ≤ d) (hd2 : d ≤ 127) :
    hex5_adjust value 0xFFFFF d p =
      if 0 ≤ value + d * 16 ^ (4 - min p 4).toNat ∧
          value + d * 16 ^ (4 - min p 4).toNat ≤ 0xFFFFF
      then value + d * 16 ^ (4 - min p 4).toNat else value := by
  by_cases hneg : p < 0
  · rw [hex5_adjust_below value d p hv0 hv1 hp1 hneg]
    obtain ⟨k, hk⟩ : ∃ k : Nat, (4 - min p 4).toNat = 5 + k := ⟨(4 - min p 4).toNat - 5, by omega⟩
    have hw : (1048576 : Int) ≤ 16 ^ (4 - min p 4).toNat := by
      rw [hk, pow_add]
      have : (1 : Int) ≤ 16 ^ k := one_le_pow₀ (by norm_num)
      nlinarith
    generalize (16 : Int) ^ (4 - min p 4).toNat = w at hw ⊢
    split_ifs with h
    · have hd : d = 0 := by
        by_contra hd
        rcases lt_or_gt_of_ne hd with h1 | h1
        · have : d * w ≤ -w := by nlinarith
          omega
        · have : w ≤ d * w := by nlinarith
          omega
      rw [hd]
      ring
    · rfl
  · by_cases hhi : 4 < p
    · rw [hex5_adjust_above value 0xFFFFF d p hhi]
      have e : (4 - min p 4).toNat = 4 - 4 := by omega
      rw [e]
      exact hex5_adjust_value value d 4 hv0 hv1 (by omega) hd1 hd2
    · obtain ⟨n, hn⟩ : ∃ n : Nat, p = (n : Int) := ⟨p.toNat, by omega⟩
      have e : (4 - min p 4).toNat = 4 - n := by omega
      rw [e, hn]
      exact hex5_adjust_value value d n hv0 hv1 (by omega) hd1 hd2

/-- C23: for every value in `[0, 0xFFFFF]`, every position `p` (of an
`int16_t`) and every encoder delta `d` in -128..127, the result of
`hex5_adjust(value, 0xFFFFF, d, p)` lies in `[0, 0xFFFFF]` and is either
`value + d * 16^(4 - min p 4)` or the value itself: the step is taken when the
sum lies in the range and dropped when it would leave the range on either side.
Nothing overflows: the sum of the product, taken as an `int32_t`, and of the
value lies inside the range of an `int32_t`; and at a position `p ≥ 0` the power
returned by `ipow` and the product are the exact `16^(4 - min p 4)` and
`d * 16^(4 - min p 4)`. -/
theorem C23_hex5_adjust_range (value d p : Int) (hv0 : 0 ≤ value) (hv1 : value ≤ 0xFFFFF)
    (hp1 : -32768 ≤ p) (hp2 : p ≤ 32767) (hd1 : -128 ≤ d) (hd2 : d ≤ 127) :
    (0 ≤ hex5_adjust value 0xFFFFF d p ∧ hex5_adjust value 0xFFFFF d p ≤ 0xFFFFF) ∧
      (hex5_adjust value 0xFFFFF d p = value + d * 16 ^ (4 - min p 4).toNat ∨
        hex5_adjust value 0xFFFFF d p = value) ∧
      (0 ≤ value + d * 16 ^ (4 - min p 4).toNat →
        value + d * 16 ^ (4 - min p 4).toNat ≤ 0xFFFFF →
        hex5_adjust value 0xFFFFF d p = value + d * 16 ^ (4 - min p 4).toNat) ∧
      (value + d * 16 ^ (4 - min p 4).toNat < 0 → hex5_adjust value 0xFFFFF d p = value) ∧
      (0xFFFFF < value + d * 16 ^ (4 - min p 4).toNat →
        hex5_adjust value 0xFFFFF d p = value) ∧
      (-2 ^ 31 ≤
          to_i32 ((ipow 16 (to_u32 (4 - min p 4)) * to_u32 d % 2 ^ 32 : Nat) : Int) + value ∧
        to_i32 ((ipow 16 (to_u32 (4 - min p 4)) * to_u32 d % 2 ^ 32 : Nat) : Int) + value <
          2 ^ 31) ∧
      (0 ≤ p →
        ipow 16 (to_u32 (4 - min p 4)) = 16 ^ (4 - min p 4).toNat ∧
          to_i32 ((ipow 16 (to_u32 (4 - min p 4)) * to_u32 d % 2 ^ 32 : Nat) : Int) =
            d * 16 ^ (4 - min p 4).toNat) := by
  have h := hex5_adjust_any value d p hv0 hv1 hp1 hd1 hd2
  have hexact : 0 ≤ p →
      ipow 16 (to_u32 (4 - min p 4)) = 16 ^ (4 - min p 4).toNat ∧
        to_i32 ((ipow 16 (to_u32 (4 - min p 4)) * to_u32 d % 2 ^ 32 : Nat) : Int) =
          d * 16 ^ (4 - min p 4).toNat ∧
        -2 ^ 31 ≤ d * 16 ^ (4 - min p 4).toNat + value ∧
        d * 16 ^ (4 - min p 4).toNat + value < 2 ^ 31 := by
    intro h0
    obtain ⟨n, hn, hn4⟩ : ∃ n : Nat, min p 4 = (n : Int) ∧ n ≤ 4 :=
      ⟨(min p 4).toNat, by omega, by omega⟩
    have e : (4 - min p 4).toNat = 4 - n := by omega
    rw [e, hn, ipow_16 n hn4]
    have hsum : -2 ^ 31 ≤ d * 16 ^ (4 - n) + value ∧ d * 16 ^ (4 - n) + value < 2 ^ 31 := by
      interval_cases n <;> norm_num <;> omega
    refine ⟨rfl, ?_, hsum.1, hsum.2⟩
    interval_cases n <;> simp only [to_u32, to_i32] <;> norm_num <;> omega
  refine ⟨?_, ?_, ?_, ?_, ?_, ?_, ?_⟩
  · rw [h]
    split_ifs with hc
    · exact hc
    · exact ⟨hv0, hv1⟩
  · rw [h]
    split_ifs
    · exact Or.inl rfl
    · exact Or.inr rfl
  · intro h1 h2
    rw [h, if_pos ⟨h1, h2⟩]
  · intro h1
    rw [h, if_neg (fun hc => absurd hc.1 (not_le.mpr h1))]
  · intro h1
    rw [h, if_neg (fun hc => absurd hc.2 (not_le.mpr h1))]
  · by_cases hneg : p < 0
    · have e : min p 4 = p := by omega
      rw [e]
      exact hex5_sum_below value d p hv0 hv1 hp1 hneg
    · obtain ⟨_, e2, e3, e4⟩ := hexact (by omega)
      rw [e2]
      exact ⟨e3, e4⟩
  · intro h0
    exact ⟨(hexact h0).1, (hexact h0).2.1⟩

theorem C23_hex5_adjust_range_witness :
    (0 : Int) ≤ 0xFFFF0 ∧ (0xFFFF0 : Int) ≤ 0xFFFFF ∧ (-32768 : Int) ≤ 7 ∧ (7 : Int) ≤ 32767 ∧
      (-128 : Int) ≤ 127 ∧ (127 : Int) ≤ 127 ∧
      (0 ≤ hex5_adjust 0xFFFF0 0xFFFFF 127 7 ∧ hex5_adjust 0xFFFF0 0xFFFFF 127 7 ≤ 0xFFFFF) ∧
      hex5_adjust 0xFFFF0 0xFFFFF 127 7 = 0xFFFF0 :=
  ⟨by decide, by decide, by decide, by decide, by decide, by decide,
    (C23_hex5_adjust_range 0xFFFF0 127 7 (by decide) (by decide) (by decide) (by decide)
      (by decide) (by decide)).1,
    (C23_hex5_adjust_range 0xFFFF0 127 7 (by decide) (by decide) (by decide) (by decide)
      (by decide) (by decide)).2.2.2.2.1 (by decide)⟩

end AD5791
